import Mathlib

/-!
# Werewolf room server: shallow embedding of `server/server.js`

The two copies of `server.js` in the repository contain the same game-engine
functions (`generateRoles`, `shuffleArray`, `getPlayerName`, `endNight`,
`processVotes`, `checkGameOver`); their `create_room`, `join_room`,
`start_game` and `game_action` handlers differ only in time stamps and in extra
fields of the error payloads.  Line numbers below refer to `src/server/server.js`.

Modelling conventions.

* JavaScript arrays are Lean lists, of any length; JavaScript objects used as dictionaries
  (`votes`, `voteCounts`) are association lists kept in insertion order, and
  their enumeration follows the JavaScript own-property order (canonical array
  indices ascending first, then the other keys in insertion order).
* A dictionary made with `{}` inherits the properties of `Object.prototype`:
  reading a key it does not own yields the inherited value, and the
  assignment to `__proto__` of a value that is not an object does nothing.
* `Math.random()` is an oracle returning a number in `[0, 1)`; it is modelled
  as a fraction `num / den` with `num < den`, and a handler receives the stream
  of the draws it makes, indexed by call number.  The product
  `Math.random() * (i + 1)` is taken exactly, without the rounding of a
  double product; the index drawn is in `0 .. i` either way.
* Player ids are `socket.id` values: strings generated by the transport,
  non-empty and not the name of a property of `Object.prototype`.
  `room.players` holds references to the per-connection `userInfo`
  objects, so two roster positions with the same id are the same object and a
  field write through one is visible through the other.
* `targetId` and `actionType` are client-supplied strings.
* `playerCount` is a client-supplied value that the program only uses as a
  number (in `-`, `>=` and `<`); the model keeps the number it converts to,
  which need not be an integer and may be `NaN`.
* Time stamps (`lastActivity`, `timestamp`) and console logging are left out.
* One room is modelled at a time; a handler is given the room that
  `rooms.get(roomId)` returns.
-/

namespace Werewolf

/-! ## Random source -/

/-- One outcome of `Math.random()`: the number `num / den`, in `[0, 1)`. -/
structure Rand01 where
  num : Nat
  den : Nat
  lt : num < den

/-- `Math.floor(r * k)` for an outcome `r` of `Math.random()`. -/
def Rand01.scaleFloor (r : Rand01) (k : Nat) : Nat := r.num * k / r.den

/-- The draws of `Math.random()` made during one call, by call number. -/
abbrev RandomSource := Nat → Rand01

/-! ## Data model -/

/-- The role strings produced by `generateRoles`. -/
inductive Role where
  | wolf | seer | witch | hunter | guard | villager
  deriving DecidableEq, Repr

/-- The values of `gameState.phase`. -/
inductive Phase where
  | night | day | vote
  deriving DecidableEq, Repr

/-- The non-null values of `gameState.currentAction`. -/
inductive SubPhase where
  | wolf | seer | witch | guard
  deriving DecidableEq, Repr

/-- A JavaScript object used as a dictionary, in insertion order. -/
abbrev JsObj (β : Type) := List (String × β)

/-- Reading an own property `o[k]`; `none` when `o` has no own property `k`. -/
def JsObj.get? {β : Type} : JsObj β → String → Option β
  | [], _ => none
  | (k', v) :: o, k => if k' = k then some v else JsObj.get? o k

/-- The properties of `Object.prototype`, each with the string that its value
converts to: the source text of a built-in function, and `[object Object]`
for the object that `__proto__` yields on a dictionary made with `{}`. -/
def objectPrototype : JsObj String :=
  [("constructor", "function Object() \x7b [native code] \x7d"),
   ("__defineGetter__", "function __defineGetter__() \x7b [native code] \x7d"),
   ("__defineSetter__", "function __defineSetter__() \x7b [native code] \x7d"),
   ("hasOwnProperty", "function hasOwnProperty() \x7b [native code] \x7d"),
   ("__lookupGetter__", "function __lookupGetter__() \x7b [native code] \x7d"),
   ("__lookupSetter__", "function __lookupSetter__() \x7b [native code] \x7d"),
   ("isPrototypeOf", "function isPrototypeOf() \x7b [native code] \x7d"),
   ("propertyIsEnumerable", "function propertyIsEnumerable() \x7b [native code] \x7d"),
   ("toString", "function toString() \x7b [native code] \x7d"),
   ("valueOf", "function valueOf() \x7b [native code] \x7d"),
   ("__proto__", "[object Object]"),
   ("toLocaleString", "function toLocaleString() \x7b [native code] \x7d")]

/-- The string that the value a dictionary made with `{}` inherits under the
key `k` converts to; `none` when nothing is inherited under `k`. -/
def inherited (k : String) : Option String := JsObj.get? objectPrototype k

/-- A `socket.id`: a string generated by the transport, non-empty and not the
name of a property of `Object.prototype`. -/
structure SocketId where
  val : String
  nonempty : val ≠ ""
  own : inherited val = none
  deriving DecidableEq

/-- The `userInfo` object of one connection (server.js 270-279). -/
structure Player where
  id : SocketId
  name : String
  isHost : Bool
  isReady : Bool
  role : Option Role
  isAlive : Bool
  deriving DecidableEq

/-- The object `room.gameState` (server.js 531-541). -/
structure GameState where
  phase : Phase
  dayCount : Nat
  currentAction : Option SubPhase
  votes : JsObj String
  lastGuard : Option String
  witchHealUsed : Bool
  witchPoisonUsed : Bool
  seerChecked : Option String
  wolfKilled : Option String
  deriving DecidableEq

/-- The number that the value of `playerCount` converts to, for a value on
which `generateRoles` returns: the double `num / 2 ^ exp` (in any of its
representations, which the operations below do not tell apart), `NaN` or
`-Infinity`. (A value that converts to `+Infinity` keeps the villager loop of
`generateRoles` running for ever; `create_room` stores no room then.) -/
inductive JsNum where
  | finite (num : Int) (exp : Nat)
  | nan
  | negInf
  deriving DecidableEq

instance (n : Nat) : OfNat JsNum n := ⟨JsNum.finite (Int.ofNat n) 0⟩

instance : NatCast JsNum := ⟨fun n => JsNum.finite (Int.ofNat n) 0⟩

instance : IntCast JsNum := ⟨fun n => JsNum.finite n 0⟩

/-- The comparison `a <= b` of two numbers; it is false when one is `NaN`. -/
def JsNum.le : JsNum → JsNum → Bool
  | JsNum.finite m k, JsNum.finite m' k' =>
    decide (m * Int.ofNat (2 ^ k') ≤ m' * Int.ofNat (2 ^ k))
  | JsNum.negInf, JsNum.finite _ _ => true
  | JsNum.negInf, JsNum.negInf => true
  | _, _ => false

/-- The comparison `a < b` of two numbers; it is false when one is `NaN`. -/
def JsNum.lt : JsNum → JsNum → Bool
  | JsNum.finite m k, JsNum.finite m' k' =>
    decide (m * Int.ofNat (2 ^ k') < m' * Int.ofNat (2 ^ k))
  | JsNum.negInf, JsNum.finite _ _ => true
  | _, _ => false

instance : LE JsNum := ⟨fun a b => JsNum.le a b = true⟩

instance : LT JsNum := ⟨fun a b => JsNum.lt a b = true⟩

instance (a b : JsNum) : Decidable (a ≤ b) :=
  inferInstanceAs (Decidable (JsNum.le a b = true))

instance (a b : JsNum) : Decidable (a < b) :=
  inferInstanceAs (Decidable (JsNum.lt a b = true))

/-- The difference `a - c` of a number and an integer, computed exactly. The
double subtraction of the code rounds only for `a < 1`, where the differences
of `generateRoles` stay below `-1`, and for `a` beyond `2 ^ 53`. -/
def JsNum.subInt : JsNum → Int → JsNum
  | JsNum.finite m k, c => JsNum.finite (m - c * Int.ofNat (2 ^ k)) k
  | JsNum.nan, _ => JsNum.nan
  | JsNum.negInf, _ => JsNum.negInf

instance : HSub JsNum Int JsNum := ⟨JsNum.subInt⟩

/-- The number of times the body of `for (let i = 0; i < bound; i++)` runs:
the least natural number that is not below `bound`, and zero for `NaN`. -/
def JsNum.loopCount : JsNum → Nat
  | JsNum.finite m k => (-((-m) / Int.ofNat (2 ^ k))).toNat
  | JsNum.nan => 0
  | JsNum.negInf => 0

/-- The room object (server.js 296-321), without its name, password and
time stamps. -/
structure Room where
  playerCount : JsNum
  players : List Player
  roles : List Role
  isGameStarted : Bool
  isGameOver : Bool
  gameState : GameState
  deriving DecidableEq

/-- The events the server emits. `seer_check_result` and `start_game_error`
go to one socket (`socket.emit`), the others to the whole room
(`io.to(roomId).emit`); a `room` payload is the room as it is at that moment. -/
inductive Notif where
  | seer_check_result (toSocket : String) (target : String) (isWolf : Bool)
  | game_message (message : String)
  | game_state_updated (room : Room)
  | game_over (winner : String) (room : Room)
  | start_game_error (toSocket : String) (message : String)
  | game_started (room : Room)
  deriving DecidableEq

/-! ## JavaScript objects as dictionaries -/

/-- The assignment `o[k] = v` for a key other than `__proto__`: an existing
key keeps its position. -/
def JsObj.set {β : Type} : JsObj β → String → β → JsObj β
  | [], k, v => [(k, v)]
  | (k', v') :: o, k, v => if k' = k then (k', v) :: o else (k', v') :: JsObj.set o k v

/-- Value of a string of decimal digits, most significant first. -/
def digitsVal : List Char → Nat → Option Nat
  | [], acc => some acc
  | c :: cs, acc =>
    if 48 ≤ c.toNat ∧ c.toNat ≤ 57 then digitsVal cs (acc * 10 + (c.toNat - 48)) else none

/-- The array index a property key denotes, if it is a canonical numeric
string below `2^32 - 1`. -/
def arrayIndex? (s : String) : Option Nat :=
  match s.data with
  | [] => none
  | c :: cs =>
    if c = '0' ∧ cs ≠ [] then none
    else match digitsVal (c :: cs) 0 with
      | some n => if n < 4294967295 then some n else none
      | none => none

/-- Own-property enumeration order of `Object.entries(o)`: array-index keys in
ascending numeric order, then the other keys in insertion order. -/
def JsObj.entries {β : Type} (o : JsObj β) : List (String × β) :=
  ((o.filterMap fun e => (arrayIndex? e.1).map fun n => (n, e)).insertionSort
      (fun a b => a.1 ≤ b.1)).map (fun x => x.2)
    ++ o.filter (fun e => (arrayIndex? e.1).isNone)

/-- The array `Object.values(o)`. -/
def JsObj.values {β : Type} (o : JsObj β) : List β := (JsObj.entries o).map (fun e => e.2)

/-- The array `Object.keys(o)`. -/
def JsObj.keys {β : Type} (o : JsObj β) : List String := (JsObj.entries o).map (fun e => e.1)

/-! ## Role allocation (server.js 69-110) -/

/-- The destructuring swap `[array[i], array[j]] = [array[j], array[i]]`. -/
def swap {α : Type} (array : List α) (i j : Nat) : List α :=
  match array[i]?, array[j]? with
  | some x, some y => (array.set i y).set j x
  | _, _ => array

/-- The loop of `shuffleArray` from index `i` down to `1`; `k` is the number
of `Math.random()` calls made so far. -/
def shuffleLoop {α : Type} (rnd : RandomSource) : Nat → Nat → List α → List α
  | 0, _, array => array
  | i + 1, k, array =>
    shuffleLoop rnd i (k + 1) (swap array (i + 1) ((rnd k).scaleFloor (i + 2)))

/-- The function `shuffleArray` (server.js 104-110). -/
def shuffleArray {α : Type} (rnd : RandomSource) (array : List α) : List α :=
  shuffleLoop rnd (array.length - 1) 0 array

/-- The role list of `generateRoles` before it is shuffled (server.js 70-97).
A `for` loop whose bound is negative or `NaN` runs zero times. -/
def rolesBeforeShuffle (playerCount : JsNum) : List Role :=
  let wolfCount : Int := 2
  let seerCount : Int := 1
  let witchCount : Int := 1
  let hunterCount : Int := 1
  let guardCount : Int := 0
  let villagerCount : JsNum :=
    playerCount - wolfCount - seerCount - witchCount - hunterCount - guardCount
  let (wolfCount, guardCount, villagerCount) :=
    if playerCount ≥ 9 then
      ((3 : Int), (1 : Int), playerCount - (3 : Int) - seerCount - witchCount - hunterCount
        - (1 : Int))
    else (wolfCount, guardCount, villagerCount)
  let (wolfCount, villagerCount) :=
    if playerCount ≥ 12 then
      ((4 : Int), playerCount - (4 : Int) - seerCount - witchCount - hunterCount - guardCount)
    else (wolfCount, villagerCount)
  List.replicate wolfCount.toNat Role.wolf
    ++ List.replicate seerCount.toNat Role.seer
    ++ List.replicate witchCount.toNat Role.witch
    ++ List.replicate hunterCount.toNat Role.hunter
    ++ List.replicate guardCount.toNat Role.guard
    ++ List.replicate villagerCount.loopCount Role.villager

/-- The function `generateRoles` (server.js 69-101). -/
def generateRoles (rnd : RandomSource) (playerCount : JsNum) : List Role :=
  shuffleArray rnd (rolesBeforeShuffle playerCount)

/-! ## Night resolution, vote resolution and win check (server.js 113-236) -/

/-- The function `getPlayerName` (server.js 113-116). -/
def getPlayerName (players : List Player) (playerId : String) : String :=
  match players.find? (fun p => p.id.val = playerId) with
  | some player => player.name
  | none => "未知玩家"

/-- The write `player.isAlive = false` on the `userInfo` object whose id is
`playerId`, seen through every roster position that holds it. -/
def markDead (players : List Player) (playerId : String) : List Player :=
  players.map fun p => if p.id.val = playerId then { p with isAlive := false } else p

/-- The pattern `const p = players.find(p => p.id === targetId); if (p) p.isAlive = false`
(server.js 125-127, 173-177, 611-613). -/
def killTarget (players : List Player) (targetId : String) : List Player :=
  match players.find? (fun p => p.id.val = targetId) with
  | some _ => markDead players targetId
  | none => players

/-- JavaScript truthiness of a value that is `null` or a string. -/
def truthy : Option String → Bool
  | some s => s ≠ ""
  | none => false

/-- The function `endNight` (server.js 119-141). -/
def endNight (room : Room) : Room :=
  let players :=
    if truthy room.gameState.wolfKilled then
      if room.gameState.wolfKilled ≠ room.gameState.lastGuard then
        match room.gameState.wolfKilled with
        | some wolfKilled => killTarget room.players wolfKilled
        | none => room.players
      else room.players
    else room.players
  { room with
    players := players
    gameState := { room.gameState with phase := Phase.day, currentAction := none } }

/-- A value held by the tally `voteCounts`: a number, or a string (what `+ 1`
makes of an inherited value). -/
inductive Tally where
  | count (n : Nat)
  | text (s : String)
  deriving DecidableEq

/-- The expression `(voteCounts[votedId] || 0) + 1` of server.js 148:
`voteCounts[votedId]` is the own property if there is one, else the value
inherited from `Object.prototype`, else `undefined`; an inherited value is a
function or an object, which `+ 1` converts to a string. -/
def nextTally (voteCounts : JsObj Tally) (votedId : String) : Tally :=
  match voteCounts.get? votedId with
  | some (Tally.count n) => Tally.count (n + 1)
  | some (Tally.text s) => if s = "" then Tally.count 1 else Tally.text (s ++ "1")
  | none =>
    match inherited votedId with
    | some s => Tally.text (s ++ "1")
    | none => Tally.count 1

/-- The statement `voteCounts[votedId] = (voteCounts[votedId] || 0) + 1` of
server.js 148. Under the key `__proto__` the value assigned is a string, so
the assignment does nothing. -/
def tallyStep (voteCounts : JsObj Tally) (votedId : String) : JsObj Tally :=
  if votedId = "__proto__" then voteCounts
  else voteCounts.set votedId (nextTally voteCounts votedId)

/-- The tally `voteCounts` of `processVotes` (server.js 146-149). -/
def tallyVotes (votes : JsObj String) : JsObj Tally :=
  (JsObj.values votes).foldl tallyStep []

/-- One iteration of the maximum search of `processVotes` (server.js 155-162),
on the pair `(maxVotes, maxVotedPlayers)`. A `count` that is a string begins
with `function` or `[object` (see `nextTally`) and converts to `NaN`: it is
neither `>` nor `===` the number `maxVotes`. -/
def maxStep (acc : Nat × List String) (entry : String × Tally) : Nat × List String :=
  match entry.2 with
  | Tally.count count =>
    if count > acc.1 then (count, [entry.1])
    else if count = acc.1 then (acc.1, acc.2 ++ [entry.1])
    else acc
  | Tally.text _ => acc

/-- The pair `(maxVotes, maxVotedPlayers)` after the loop of server.js 152-162. -/
def maxVoted (voteCounts : JsObj Tally) : Nat × List String :=
  (JsObj.entries voteCounts).foldl maxStep (0, [])

/-- The value of `maxVotedPlayers` when `votedPlayerId` is read (server.js
164-169): shuffled when it has more than one element. -/
def voteCandidates (rnd : RandomSource) (votes : JsObj String) : List String :=
  let maxVotedPlayers := (maxVoted (tallyVotes votes)).2
  if maxVotedPlayers.length > 1 then shuffleArray rnd maxVotedPlayers else maxVotedPlayers

/-- The function `processVotes` (server.js 144-192). -/
def processVotes (rnd : RandomSource) (room : Room) : Room :=
  let players :=
    match (voteCandidates rnd room.gameState.votes)[0]? with
    | some votedPlayerId =>
      if votedPlayerId ≠ "" then killTarget room.players votedPlayerId else room.players
    | none => room.players
  { room with
    players := players
    gameState := { room.gameState with
      phase := Phase.night
      dayCount := room.gameState.dayCount + 1
      currentAction := some SubPhase.wolf
      votes := [] } }

/-- The function `checkGameOver` (server.js 195-236): the room afterwards, the
`game_over` event it emits, and its return value. -/
def checkGameOver (room : Room) : Room × List Notif × Bool :=
  let aliveWolves := room.players.filter (fun p => p.isAlive && p.role == some Role.wolf)
  if aliveWolves.length = 0 then
    let room := { room with isGameOver := true }
    (room, [Notif.game_over "好人" room], true)
  else
    let aliveGood := room.players.filter (fun p => p.isAlive && p.role != some Role.wolf)
    if aliveGood.length = 0 then
      let room := { room with isGameOver := true }
      (room, [Notif.game_over "狼人" room], true)
    else
      let aliveClergy := room.players.filter (fun p => p.isAlive &&
        [some Role.seer, some Role.witch, some Role.hunter, some Role.guard].contains p.role)
      let aliveVillagers :=
        room.players.filter (fun p => p.isAlive && p.role == some Role.villager)
      if aliveClergy.length = 0 ∧ aliveWolves.length ≥ aliveVillagers.length then
        let room := { room with isGameOver := true }
        (room, [Notif.game_over "狼人" room], true)
      else (room, [], false)

/-! ## The `start_game` and `game_action` handlers (server.js 483-661) -/

/-- What a handler leaves behind: the room, the events emitted, and whether it
ended by throwing. -/
structure HandlerResult where
  room : Room
  emitted : List Notif
  threw : Bool
  deriving DecidableEq

/-- The loop `room.players.forEach((player, index) => ...)` of server.js
525-528; `roles[index]` past the end of `roles` is `undefined`. -/
def assignRoles (roles : List Role) (players : List Player) : List Player :=
  (List.range players.length).foldl
    (fun ps index =>
      match ps[index]? with
      | some player =>
        ps.map fun p =>
          if p.id = player.id then { p with role := roles[index]?, isAlive := true } else p
      | none => ps)
    players

/-- The game state assigned by `start_game` (server.js 531-541). -/
def initialGameState : GameState :=
  { phase := Phase.night
    dayCount := 1
    currentAction := some SubPhase.wolf
    votes := []
    lastGuard := none
    witchHealUsed := false
    witchPoisonUsed := false
    seerChecked := none
    wolfKilled := none }

/-- The `start_game` handler (server.js 483-549) for an existing room, run on
the connection `socketId`. -/
def startGame (rnd : RandomSource) (room : Room) (socketId : String) : HandlerResult :=
  match room.players.find? (fun p => p.id.val = socketId) with
  | none => ⟨room, [Notif.start_game_error socketId "只有房主可以开始游戏"], false⟩
  | some user =>
    if !user.isHost then
      ⟨room, [Notif.start_game_error socketId "只有房主可以开始游戏"], false⟩
    else if room.players.length < 6 then
      ⟨room, [Notif.start_game_error socketId "至少需要6名玩家"], false⟩
    else
      let readyPlayers := room.players.filter (fun p => p.isReady || p.isHost)
      if readyPlayers.length < room.players.length then
        ⟨room, [Notif.start_game_error socketId "还有玩家未准备"], false⟩
      else
        let roles := generateRoles rnd room.playerCount
        let room := { room with
          isGameStarted := true
          players := assignRoles roles room.players
          gameState := initialGameState }
        ⟨room, [Notif.game_started room], false⟩

/-- State of the `game_action` handler after its `switch` statement. -/
structure SwitchResult where
  room : Room
  message : String
  emitted : List Notif
  threw : Bool
  deriving DecidableEq

/-- The `switch (actionType)` of `game_action` (server.js 568-643). -/
def switchAction (rnd : RandomSource) (room : Room) (currentPlayer : Player)
    (socketId actionType targetId : String) : SwitchResult :=
  if actionType = "wolfKill" then
    if currentPlayer.role = some Role.wolf ∧
        room.gameState.currentAction = some SubPhase.wolf then
      ⟨{ room with gameState := { room.gameState with
            wolfKilled := some targetId, currentAction := some SubPhase.seer } },
        "狼人选择击杀了" ++ getPlayerName room.players targetId, [], false⟩
    else ⟨room, "", [], false⟩
  else if actionType = "seerCheck" then
    if currentPlayer.role = some Role.seer ∧
        room.gameState.currentAction = some SubPhase.seer then
      let room := { room with gameState := { room.gameState with seerChecked := some targetId } }
      match room.players.find? (fun p => p.id.val = targetId) with
      | none => ⟨room, "", [], true⟩
      | some targetPlayer =>
        let isWolf : Bool := targetPlayer.role = some Role.wolf
        ⟨{ room with gameState := { room.gameState with currentAction := some SubPhase.witch } },
          "预言家查验了" ++ targetPlayer.name,
          [Notif.seer_check_result socketId targetPlayer.name isWolf], false⟩
    else ⟨room, "", [], false⟩
  else if actionType = "witchHeal" then
    if currentPlayer.role = some Role.witch ∧
        room.gameState.currentAction = some SubPhase.witch ∧
        room.gameState.witchHealUsed = false then
      ⟨{ room with gameState := { room.gameState with
            witchHealUsed := true, wolfKilled := none } },
        "女巫使用解药救了被狼人击杀的玩家", [], false⟩
    else ⟨room, "", [], false⟩
  else if actionType = "witchPoison" then
    if currentPlayer.role = some Role.witch ∧
        room.gameState.currentAction = some SubPhase.witch ∧
        room.gameState.witchPoisonUsed = false then
      let room := { room with gameState := { room.gameState with witchPoisonUsed := true } }
      match room.players.find? (fun p => p.id.val = targetId) with
      | some targetPlayer =>
        ⟨{ room with players := markDead room.players targetId },
          "女巫使用毒药毒死了" ++ targetPlayer.name, [], false⟩
      | none => ⟨room, "", [], false⟩
    else ⟨room, "", [], false⟩
  else if actionType = "guardProtect" then
    if currentPlayer.role = some Role.guard ∧
        room.gameState.currentAction = some SubPhase.guard then
      let room := { room with gameState := { room.gameState with lastGuard := some targetId } }
      ⟨endNight room, "守卫守护了" ++ getPlayerName room.players targetId, [], false⟩
    else ⟨room, "", [], false⟩
  else if actionType = "vote" then
    if room.gameState.phase = Phase.vote then
      let room := { room with gameState := { room.gameState with
        votes := room.gameState.votes.set currentPlayer.id.val targetId } }
      let message :=
        currentPlayer.name ++ "投票给了" ++ getPlayerName room.players targetId
      let alivePlayers := room.players.filter (fun p => p.isAlive)
      if (JsObj.keys room.gameState.votes).length = alivePlayers.length then
        ⟨processVotes rnd room, message, [], false⟩
      else ⟨room, message, [], false⟩
    else ⟨room, "", [], false⟩
  else ⟨room, "", [], false⟩

/-- The `game_action` handler (server.js 552-661) for an existing room, run on
the connection `socketId` with the payload `{ actionType, targetId }`. -/
def gameAction (rnd : RandomSource) (room : Room) (socketId actionType targetId : String) :
    HandlerResult :=
  if !room.isGameStarted then ⟨room, [], false⟩
  else
    match room.players.find? (fun p => p.id.val = socketId) with
    | none => ⟨room, [], false⟩
    | some currentPlayer =>
      if !currentPlayer.isAlive then ⟨room, [], false⟩
      else
        let s := switchAction rnd room currentPlayer socketId actionType targetId
        if s.threw then ⟨s.room, s.emitted, true⟩
        else
          let emitted := s.emitted
            ++ (if s.message ≠ "" then [Notif.game_message s.message] else [])
            ++ [Notif.game_state_updated s.room]
          let over := checkGameOver s.room
          ⟨over.1, emitted ++ over.2.1, false⟩

/-- One `game_action` event as the server receives it: the sending connection,
the payload, and the outcomes of the `Math.random()` calls made while it is
handled. -/
structure Event where
  socketId : String
  actionType : String
  targetId : String
  rnd : RandomSource

/-- The room after one `game_action` event. -/
def step (room : Room) (e : Event) : Room :=
  (gameAction e.rnd room e.socketId e.actionType e.targetId).room

/-- The room after a sequence of `game_action` events. -/
def run (room : Room) (events : List Event) : Room := events.foldl step room

/-- The rooms seen along a sequence of `game_action` events, the first one
included. -/
def trace : Room → List Event → List Room
  | room, [] => [room]
  | room, e :: events => room :: trace (step room e) events

/-! ## The `create_room` and `join_room` handlers (server.js 289-412) -/

/-- The final value of `villagerCount` in `generateRoles` (server.js 78-89). -/
def villagerCount (playerCount : JsNum) : JsNum :=
  let villagerCount := playerCount - (2 : Int) - (1 : Int) - (1 : Int) - (1 : Int) - (0 : Int)
  let villagerCount :=
    if playerCount ≥ 9 then playerCount - (3 : Int) - (1 : Int) - (1 : Int) - (1 : Int) - (1 : Int)
    else villagerCount
  if playerCount ≥ 12 then
    playerCount - (4 : Int) - (1 : Int) - (1 : Int) - (1 : Int) - (1 : Int)
  else villagerCount

/-- The field `playerCount` of the data of `create_room`, as far as the
handler tells values apart: a falsy value (`undefined`, `null`, `false`, `0`,
`NaN`, the empty string); a truthy value, with the number it converts to (a
number, a string such as `"7"` or `"abc"`, `true`, an array, an object); or a
truthy value that converts to `+Infinity` (`1e999`, `"Infinity"`). -/
inductive CountField where
  | falsy
  | truthy (n : JsNum)
  | infinite

/-- The expression `playerCount || 6`; `none` stands for `+Infinity`. -/
def orSix : CountField → Option JsNum
  | CountField.falsy => some 6
  | CountField.truthy n => some n
  | CountField.infinite => none

/-- The room that `create_room` stores (server.js 296-328) for the connection
`userInfo` and the field `playerCount` of its `data` object; the first draw of
`Math.random()` is the one of `generateRoomId`. With a `playerCount` that
converts to `+Infinity` the call of `generateRoles` in the room literal does
not return and no room is stored. The reply to the creator is left out. -/
def createRoom (rnd : RandomSource) (userInfo : Player) (playerCount : CountField) :
    Option Room :=
  match orSix playerCount with
  | none => none
  | some count =>
    some
      { playerCount := count
        players := [{ userInfo with isHost := true, isReady := true }]
        roles := generateRoles (fun k => rnd (k + 1)) count
        isGameStarted := false
        isGameOver := false
        gameState := initialGameState }

/-- The `join_room` handler (server.js 343-412) for an existing room and the
connection `userInfo`: `passwordOk` is the outcome of the password check and
`username` the name sent along (the empty string when none is sent). A player
record already in the roster is the same object as `userInfo` when it has its
id, so the new name shows there as well. The replies are left out. -/
def joinRoom (room : Room) (userInfo : Player) (passwordOk : Bool) (username : String) :
    Room :=
  if !passwordOk then room
  else if (room.players.length : JsNum) ≥ room.playerCount then room
  else if room.isGameStarted then room
  else
    let name := if username ≠ "" then username else userInfo.name
    { room with
      players :=
        room.players.map (fun p => if p.id = userInfo.id then { p with name := name } else p)
          ++ [{ userInfo with name := name }] }


/-! ## Notions used to state the properties -/

/-- The number of roles of each kind in a role list, in the order wolf, seer,
witch, hunter, guard, villager. -/
def roleCounts (roles : List Role) : List Int :=
  [roles.count Role.wolf, roles.count Role.seer, roles.count Role.witch,
   roles.count Role.hunter, roles.count Role.guard, roles.count Role.villager]

/-- A random source whose every draw is `0.99`; on arrays of at most 100
elements `shuffleArray` then swaps each position with itself. -/
def rndHigh : RandomSource := fun _ => ⟨99, 100, by decide⟩

/-- A random source whose every draw is `0`. -/
def rndZero : RandomSource := fun _ => ⟨0, 1, by decide⟩

/-- The winner label of the `game_over` event that `checkGameOver` emits, if it
emits one: `"好人"` is the village, `"狼人"` the wolves. -/
def announcedWinner (room : Room) : Option String :=
  match (checkGameOver room).2.1 with
  | Notif.game_over winner _ :: _ => some winner
  | _ => none

/-- The number of living players of a room that hold the given role. -/
def livingCount (room : Room) (role : Role) : Nat :=
  room.players.countP (fun p => p.isAlive && p.role == some role)

/-- A role is one of seer, witch, hunter, guard. -/
def isClergy (role : Option Role) : Prop :=
  role = some Role.seer ∨ role = some Role.witch ∨ role = some Role.hunter ∨
    role = some Role.guard

instance (role : Option Role) : Decidable (isClergy role) := by
  unfold isClergy
  infer_instance

/-- The third rule of the win check: no living seer, witch, hunter or guard,
and at least as many living wolves as living villagers. -/
def clergyParity (room : Room) : Prop :=
  (∀ p ∈ room.players, p.isAlive = true → ¬ isClergy p.role) ∧
    livingCount room Role.villager ≤ livingCount room Role.wolf

instance (room : Room) : Decidable (clergyParity room) := by
  unfold clergyParity
  infer_instance

/-- The room with `isGameOver` set and the `game_over` event for `winner`: what
`checkGameOver` produces when it ends the game. -/
def gameOverWith (room : Room) (winner : String) : Room × List Notif × Bool :=
  ({ room with isGameOver := true },
    [Notif.game_over winner { room with isGameOver := true }], true)

/-- A player record with the given id, role and life flag; the name is the id. -/
def mkPlayer (id : String) (h : id ≠ "" ∧ inherited id = none) (role : Role)
    (isAlive : Bool) : Player :=
  { id := ⟨id, h.1, h.2⟩, name := id, isHost := false, isReady := true, role := some role,
    isAlive := isAlive }

/-- A started six-player room in which every player is dead. -/
def allDeadRoom : Room :=
  { playerCount := 6
    players :=
      [mkPlayer "w1" (by decide) Role.wolf false, mkPlayer "w2" (by decide) Role.wolf false,
       mkPlayer "se" (by decide) Role.seer false, mkPlayer "wi" (by decide) Role.witch false,
       mkPlayer "hu" (by decide) Role.hunter false,
       mkPlayer "vi" (by decide) Role.villager false]
    roles := []
    isGameStarted := true
    isGameOver := false
    gameState := initialGameState }

/-- A started six-player room with everyone alive. -/
def freshSixRoom : Room :=
  { playerCount := 6
    players :=
      [mkPlayer "w1" (by decide) Role.wolf true, mkPlayer "w2" (by decide) Role.wolf true,
       mkPlayer "se" (by decide) Role.seer true, mkPlayer "wi" (by decide) Role.witch true,
       mkPlayer "hu" (by decide) Role.hunter true,
       mkPlayer "vi" (by decide) Role.villager true]
    roles := []
    isGameStarted := true
    isGameOver := false
    gameState := initialGameState }

/-- No living player of the room is a wolf. -/
def noLivingWolf (room : Room) : Prop :=
  ∀ p ∈ room.players, p.isAlive = true → p.role ≠ some Role.wolf

instance (room : Room) : Decidable (noLivingWolf room) := by
  unfold noLivingWolf
  infer_instance

/-- No living player of the room is a non-wolf. -/
def noLivingNonWolf (room : Room) : Prop :=
  ∀ p ∈ room.players, p.isAlive = true → p.role = some Role.wolf

instance (room : Room) : Decidable (noLivingNonWolf room) := by
  unfold noLivingNonWolf
  infer_instance

/-- The number of living players of a room that are not wolves. -/
def livingNonWolves (room : Room) : Nat :=
  room.players.countP (fun p => p.isAlive && p.role != some Role.wolf)

/-- What the win check reads of a room: each player's `isAlive` and `role`. -/
def lives (room : Room) : List (Bool × Option Role) :=
  room.players.map (fun p => (p.isAlive, p.role))

/-- The number of votes cast for the target `t` in a `votes` mapping. -/
def voteCount (votes : JsObj String) (t : String) : Nat :=
  votes.countP (fun e => e.2 = t)

/-- The target `t` is counted as a number by the tally: it is not the name of
a property of `Object.prototype`. Every `socket.id` is such a target. -/
def isCounted (t : String) : Prop := inherited t = none

instance (t : String) : Decidable (isCounted t) := by
  unfold isCounted
  infer_instance

/-- The target `t` holds the maximum vote count among the counted targets: it
is counted, it has a vote, and no counted target has more. -/
def isTopTarget (votes : JsObj String) (t : String) : Prop :=
  isCounted t ∧ 0 < voteCount votes t ∧
    ∀ t', isCounted t' → voteCount votes t' ≤ voteCount votes t

/-- The entries of a tally whose value is a number. -/
def numbers (es : List (String × Tally)) : List (String × Nat) :=
  es.filterMap fun e =>
    match e.2 with
    | Tally.count n => some (e.1, n)
    | Tally.text _ => none

/-- The step `maxStep` on an entry whose value is a number. -/
def countStep (acc : Nat × List String) (entry : String × Nat) : Nat × List String :=
  if entry.2 > acc.1 then (entry.2, [entry.1])
  else if entry.2 = acc.1 then (acc.1, acc.2 ++ [entry.1])
  else acc

/-- The largest count among `m` and the counts of the entries `es`. -/
def maxFrom (m : Nat) (es : List (String × Nat)) : Nat :=
  es.foldl (fun m e => max m e.2) m

/-- The list `maxVotedPlayers` of `processVotes` after the maximum search and
before the tie-break (server.js 152-162). -/
def tiedTargets (votes : JsObj String) : List String :=
  (maxVoted (tallyVotes votes)).2

/-- A five-player room in phase `vote`, where `A` and `B` have voted for `X`
and `C` for `Y`. -/
def threeVotesRoom : Room :=
  { playerCount := 6
    players :=
      [mkPlayer "A" (by decide) Role.wolf true, mkPlayer "B" (by decide) Role.seer true,
       mkPlayer "C" (by decide) Role.witch true, mkPlayer "X" (by decide) Role.wolf true,
       mkPlayer "Y" (by decide) Role.villager true]
    roles := []
    isGameStarted := true
    isGameOver := false
    gameState := { initialGameState with
      phase := Phase.vote
      currentAction := none
      votes := [("A", "X"), ("B", "X"), ("C", "Y")] } }

/-- The choice sequences of the loop of `shuffleArray` started at index `i`:
the lists `[j_i, ..., j_1]` with `0 ≤ j_m ≤ m`, where `j_m` is the index drawn
when the loop variable is `m`. -/
def choiceSeqs : Nat → List (List Nat)
  | 0 => [[]]
  | i + 1 => (List.range (i + 2)).flatMap fun j => (choiceSeqs i).map (fun js => j :: js)

/-- The loop of `shuffleArray` from index `i` down to `1`, run with a given
list of drawn indices instead of `Math.random()`. -/
def shuffleWith {α : Type} : List Nat → Nat → List α → List α
  | j :: js, i + 1, array => shuffleWith js i (swap array (i + 1) j)
  | _, _, array => array

/-- The indices that `shuffleLoop rnd i k` draws, in order. -/
def choicesOf (rnd : RandomSource) : Nat → Nat → List Nat
  | 0, _ => []
  | i + 1, k => (rnd k).scaleFloor (i + 2) :: choicesOf rnd i (k + 1)

/-- A random source that makes the loop of `shuffleArray`, started at index
`i`, draw the indices `js`: draw number `k` is `js[k] / (i + 1 - k)`. -/
def sourceOf (js : List Nat) (i : Nat) : RandomSource := fun k =>
  if h : js.getD k 0 < i + 1 - k then ⟨js.getD k 0, i + 1 - k, h⟩ else ⟨0, 1, by decide⟩

/-- The value of `votedPlayerId` in `processVotes` (server.js 169) when the
tie-break shuffle draws the indices `js`. -/
def votedWith (js : List Nat) (votes : JsObj String) : Option String :=
  (shuffleWith js ((tiedTargets votes).length - 1) (tiedTargets votes))[0]?

/-- A two-player vote in which `A` voted for `X` and `B` for `Y`. -/
def tieVotesRoom : Room :=
  { playerCount := 6
    players :=
      [mkPlayer "A" (by decide) Role.wolf true, mkPlayer "B" (by decide) Role.seer true,
       mkPlayer "X" (by decide) Role.wolf true, mkPlayer "Y" (by decide) Role.villager true]
    roles := []
    isGameStarted := true
    isGameOver := false
    gameState := { initialGameState with
      phase := Phase.vote
      currentAction := none
      votes := [("A", "X"), ("B", "Y")] } }

/-- The two targets of the votes of `tieVotesRoom`. -/
def tiePair : Finset String := {"X", "Y"}

/-- A started room in the `guard` sub-phase of a night in which the wolves have
chosen the villager `vi`. -/
def guardStepRoom : Room :=
  { playerCount := 9
    players :=
      [mkPlayer "w1" (by decide) Role.wolf true, mkPlayer "w2" (by decide) Role.wolf true,
       mkPlayer "se" (by decide) Role.seer true, mkPlayer "wi" (by decide) Role.witch true,
       mkPlayer "hu" (by decide) Role.hunter true, mkPlayer "gu" (by decide) Role.guard true,
       mkPlayer "vi" (by decide) Role.villager true,
       mkPlayer "v2" (by decide) Role.villager true]
    roles := []
    isGameStarted := true
    isGameOver := false
    gameState := { initialGameState with
      currentAction := some SubPhase.guard
      wolfKilled := some "vi" } }

/-- The number of positions of a sequence of flag values at which the flag
goes from `a` to `b`. -/
def flips (a b : Bool) : List Bool → Nat
  | x :: y :: l => (if x = a ∧ y = b then 1 else 0) + flips a b (y :: l)
  | _ => 0

/-- The id `t` names a player of the roster, and that player is alive. -/
def isLiving (players : List Player) (t : String) : Prop :=
  (∃ p ∈ players, p.id.val = t) ∧ ∀ p ∈ players, p.id.val = t → p.isAlive = true

instance (players : List Player) (t : String) : Decidable (isLiving players t) := by
  unfold isLiving
  infer_instance

/-- A started six-player room in the `witch` sub-phase of the first night, in
which the wolves have chosen the villager `vi`. -/
def witchStepRoom : Room :=
  { freshSixRoom with
    gameState := { initialGameState with
      currentAction := some SubPhase.witch
      wolfKilled := some "vi"
      seerChecked := some "w1" } }

/-- A `game_action` event whose handling draws `0` at every `Math.random()`. -/
def mkEvent (socketId actionType targetId : String) : Event :=
  { socketId := socketId, actionType := actionType, targetId := targetId, rnd := rndZero }

/-- The distinct values observed along a sequence: a value that repeats the
one before it is dropped. -/
def observed {α : Type} [DecidableEq α] : List α → List α
  | x :: y :: l => if x = y then observed (y :: l) else x :: observed (y :: l)
  | l => l

/-- The order of the sub-phases of a night. -/
def nightOrder : List (Option SubPhase) :=
  [some SubPhase.wolf, some SubPhase.seer, some SubPhase.witch, some SubPhase.guard]

/-- The `start_game` request of `socketId` on the room `lobby` succeeds and
leaves the room `room`. -/
def startedBy (rnd : RandomSource) (lobby : Room) (socketId : String) (room : Room) : Prop :=
  startGame rnd lobby socketId = ⟨room, [Notif.game_started room], false⟩

instance (rnd : RandomSource) (lobby : Room) (socketId : String) (room : Room) :
    Decidable (startedBy rnd lobby socketId room) := by
  unfold startedBy
  infer_instance

/-- A player record of a room in which no game has started yet. -/
def mkGuest (id : String) (h : id ≠ "" ∧ inherited id = none) (isHost : Bool) : Player :=
  { id := ⟨id, h.1, h.2⟩, name := id, isHost := isHost, isReady := true, role := none,
    isAlive := true }

/-- A room of six ready players, created for six players by `p1`, before
`start_game`. -/
def lobbySix : Room :=
  { playerCount := 6
    players :=
      [mkGuest "p1" (by decide) true, mkGuest "p2" (by decide) false,
       mkGuest "p3" (by decide) false, mkGuest "p4" (by decide) false,
       mkGuest "p5" (by decide) false, mkGuest "p6" (by decide) false]
    roles := [Role.wolf, Role.wolf, Role.seer, Role.witch, Role.hunter, Role.villager]
    isGameStarted := false
    isGameOver := false
    gameState := initialGameState }

/-- The room `lobbySix` after `start_game` by the host, when every draw of the
shuffle keeps the role list in the order `generateRoles` built it:
`p1`, `p2` wolves, `p3` seer, `p4` witch, `p5` hunter, `p6` villager. -/
def startedSix : Room := (startGame rndHigh lobbySix "p1").room

/-- The night of the end-to-end scenario on `startedSix`: a wolf kills the
villager `p6`, the seer checks the wolf `p1`, the witch does nothing, and the
connection `g` sends `guardProtect` for the hunter `p5`. -/
def scenarioNight (g : String) : List Event :=
  [mkEvent "p1" "wolfKill" "p6", mkEvent "p3" "seerCheck" "p1", mkEvent g "guardProtect" "p5"]

/-- The votes of the end-to-end scenario: every player votes for the wolf `p2`. -/
def scenarioVotes : List Event :=
  [mkEvent "p1" "vote" "p2", mkEvent "p2" "vote" "p2", mkEvent "p3" "vote" "p2",
   mkEvent "p4" "vote" "p2", mkEvent "p5" "vote" "p2", mkEvent "p6" "vote" "p2"]

/-- The room `guardStepRoom` once its night has been resolved: phase `day`. -/
def dayRoom : Room := endNight guardStepRoom

/-- The role and the sub-phase that the `switch` of `game_action` requires for
each of the five night actions (server.js 571, 580, 598, 607, 621). -/
def nightActionSpec (actionType : String) : Option (Role × SubPhase) :=
  if actionType = "wolfKill" then some (Role.wolf, SubPhase.wolf)
  else if actionType = "seerCheck" then some (Role.seer, SubPhase.seer)
  else if actionType = "witchHeal" then some (Role.witch, SubPhase.witch)
  else if actionType = "witchPoison" then some (Role.witch, SubPhase.witch)
  else if actionType = "guardProtect" then some (Role.guard, SubPhase.guard)
  else none

/-- A started six-player room in the `seer` sub-phase of the first night. -/
def seerStepRoom : Room :=
  { freshSixRoom with
    gameState := { initialGameState with
      currentAction := some SubPhase.seer
      wolfKilled := some "vi" } }

/-- A notification with the `isGameOver` field of the room it carries, if it
carries one, set to `false`. -/
def Notif.eraseOver : Notif → Notif
  | Notif.game_state_updated room => Notif.game_state_updated { room with isGameOver := false }
  | Notif.game_over winner room => Notif.game_over winner { room with isGameOver := false }
  | Notif.game_started room => Notif.game_started { room with isGameOver := false }
  | n => n

/-- A started game that the village has won (`isGameOver = true`, both wolves
dead), still in the `witch` sub-phase of its night. -/
def wonRoom : Room :=
  { playerCount := 6
    players :=
      [mkPlayer "w1" (by decide) Role.wolf false, mkPlayer "w2" (by decide) Role.wolf false,
       mkPlayer "se" (by decide) Role.seer true, mkPlayer "wi" (by decide) Role.witch true,
       mkPlayer "hu" (by decide) Role.hunter true,
       mkPlayer "vi" (by decide) Role.villager true]
    roles := []
    isGameStarted := true
    isGameOver := true
    gameState := { initialGameState with currentAction := some SubPhase.witch } }

/-- A room of four living players at the start of a vote: phase `vote`, no
vote cast yet. -/
def voteStartRoom : Room :=
  { tieVotesRoom with
    gameState := { tieVotesRoom.gameState with votes := [] } }

/-- Four votes, one by each player of `voteStartRoom`; the second one is sent
twice. -/
def fourVotes : List Event :=
  [mkEvent "A" "vote" "X", mkEvent "B" "vote" "X", mkEvent "B" "vote" "X",
   mkEvent "X" "vote" "Y", mkEvent "Y" "vote" "X"]

/-- A room created for eight players in which six ready players sit, before
`start_game`. -/
def lobbyEight : Room :=
  { lobbySix with
    playerCount := 8
    roles := [Role.wolf, Role.wolf, Role.seer, Role.witch, Role.hunter, Role.villager,
      Role.villager, Role.villager] }

/-- A random source whose first draw is `0`, whose second draw is `1/7` and
whose other draws are `0.99`: on eight elements `shuffleArray` swaps positions
7 and 0, then positions 6 and 1, and leaves the rest in place. -/
def rndLastTwo : RandomSource := fun k =>
  if k = 0 then ⟨0, 1, by decide⟩
  else if k = 1 then ⟨1, 7, by decide⟩
  else ⟨99, 100, by decide⟩

/-- The notification reaches the connection `recipient`, a member of the room:
`socket.emit` reaches the named socket only, `io.to(roomId).emit` everyone. -/
def Notif.deliveredTo (recipient : String) : Notif → Bool
  | Notif.seer_check_result toSocket _ _ => toSocket = recipient
  | Notif.start_game_error toSocket _ => toSocket = recipient
  | _ => true

/-- The notifications of a list that reach the connection `recipient`. -/
def inbox (recipient : String) (emitted : List Notif) : List Notif :=
  emitted.filter (Notif.deliveredTo recipient)

/-- The notification carries a snapshot of the room (with every player's role). -/
def Notif.carriesRoom : Notif → Bool
  | Notif.game_state_updated _ => true
  | Notif.game_over _ _ => true
  | Notif.game_started _ => true
  | _ => false

/-- The room in which the players with id `targetId` hold `role`, everything
else being the same. -/
def withTargetRole (room : Room) (targetId : String) (role : Option Role) : Room :=
  { room with
    players := room.players.map
      (fun p => if p.id.val = targetId then { p with role := role } else p) }

/-- The condition under which `start_game` goes through: the requester is a
room member with `isHost`, the room has at least 6 players, and every player
is ready or is the host. -/
def canStart (room : Room) (socketId : String) : Prop :=
  (∃ user, room.players.find? (fun p => p.id.val = socketId) = some user ∧
    user.isHost = true) ∧
  6 ≤ room.players.length ∧
  ∀ p ∈ room.players, p.isReady = true ∨ p.isHost = true

instance (room : Room) (socketId : String) : Decidable (canStart room socketId) :=
  decidable_of_iff
    (((room.players.find? (fun p => p.id.val = socketId)).any (fun u => u.isHost) = true) ∧
      6 ≤ room.players.length ∧ ∀ p ∈ room.players, p.isReady = true ∨ p.isHost = true)
    (by
      unfold canStart
      cases room.players.find? (fun p => p.id.val = socketId) <;> simp)

/-- The room `lobbySix` in which the player `p4` is not ready. -/
def lobbyNotReady : Room :=
  { lobbySix with
    players :=
      [mkGuest "p1" (by decide) true, mkGuest "p2" (by decide) false,
       mkGuest "p3" (by decide) false,
       { mkGuest "p4" (by decide) false with isReady := false },
       mkGuest "p5" (by decide) false, mkGuest "p6" (by decide) false] }

/-- A room in which a game has been played to its end (`isGameOver = true`,
both wolves dead), with its six players still seated and ready; `p1` is the
host. -/
def finishedRoom : Room :=
  { playerCount := 6
    players :=
      [{ mkPlayer "p1" (by decide) Role.wolf false with isHost := true },
       mkPlayer "p2" (by decide) Role.wolf false, mkPlayer "p3" (by decide) Role.seer true,
       mkPlayer "p4" (by decide) Role.witch true, mkPlayer "p5" (by decide) Role.hunter true,
       mkPlayer "p6" (by decide) Role.villager false]
    roles := [Role.wolf, Role.wolf, Role.seer, Role.witch, Role.hunter, Role.villager]
    isGameStarted := true
    isGameOver := true
    gameState := { initialGameState with
      currentAction := some SubPhase.witch
      witchPoisonUsed := true
      seerChecked := some "p1"
      wolfKilled := some "p6" } }

/-- A five-player room in phase `vote`, where `A` and `B` have voted for
`toString`, `C` and `D` for `constructor`, and `X` for `X`. -/
def inheritedVotesRoom : Room :=
  { playerCount := 6
    players :=
      [mkPlayer "A" (by decide) Role.wolf true, mkPlayer "B" (by decide) Role.seer true,
       mkPlayer "C" (by decide) Role.witch true, mkPlayer "D" (by decide) Role.wolf true,
       mkPlayer "X" (by decide) Role.villager true]
    roles := []
    isGameStarted := true
    isGameOver := false
    gameState := { initialGameState with
      phase := Phase.vote
      currentAction := none
      votes := [("A", "toString"), ("B", "toString"), ("C", "constructor"),
        ("D", "constructor"), ("X", "X")] } }

/-- A four-player room in phase `vote`, where `A` has voted for `X`, and `B`
and `X` for `constructor`; the vote of `Y` is the last one missing. -/
def lastVoteRoom : Room :=
  { playerCount := 6
    players :=
      [mkPlayer "A" (by decide) Role.wolf true, mkPlayer "B" (by decide) Role.seer true,
       mkPlayer "X" (by decide) Role.wolf true, mkPlayer "Y" (by decide) Role.villager true]
    roles := []
    isGameStarted := true
    isGameOver := false
    gameState := { initialGameState with
      phase := Phase.vote
      currentAction := none
      votes := [("A", "X"), ("B", "constructor"), ("X", "constructor")] } }

/-- The roster of a room is within its capacity: it holds at most the creator,
or its last member joined while `players.length >= playerCount` was false. -/
def withinCapacity (room : Room) : Prop :=
  room.players.length ≤ 1 ∨
    ¬ (((room.players.length - 1 : Nat) : JsNum) ≥ room.playerCount)

instance (room : Room) : Decidable (withinCapacity room) := by
  unfold withinCapacity
  infer_instance

/-- The room `lobbySix` with the `playerCount` 5.5 (the double `11 / 2`): six
ready players sit in a room created with `playerCount: 5.5`. -/
def lobbyHalf : Room := { lobbySix with playerCount := JsNum.finite 11 1 }

/-- The room that `create_room` with `playerCount: 5.5` by `p1`, followed by
the `join_room` of `p2`, ..., `p6`, leaves behind. -/
def joinedHalf (rnd : RandomSource) : Option Room :=
  (createRoom rnd (mkGuest "p1" (by decide) false)
      (CountField.truthy (JsNum.finite 11 1))).map fun room =>
    [mkGuest "p2" (by decide) false, mkGuest "p3" (by decide) false,
      mkGuest "p4" (by decide) false, mkGuest "p5" (by decide) false,
      mkGuest "p6" (by decide) false].foldl
      (fun room userInfo => joinRoom room userInfo true "") room

/-! # Theorems -/

/-! ## Role allocation -/

theorem swap_perm {α : Type} (a : List α) (i j : Nat) : (swap a i j).Perm a := by
  classical
  unfold swap
  split
  · rename_i x y hx hy
    obtain ⟨hi, hxi⟩ := List.getElem?_eq_some_iff.mp hx
    obtain ⟨hj, hyj⟩ := List.getElem?_eq_some_iff.mp hy
    rw [List.perm_iff_count]
    intro b
    have hj' : j < (a.set i y).length := by simpa using hj
    rw [List.count_set _ _ _ _ hj', List.count_set _ _ _ _ hi]
    have h1 : (a.set i y)[j] = y := by
      rw [List.getElem_set]
      split
      · rfl
      · exact hyj
    rw [h1, hxi]
    have hmem : x ∈ a := hxi ▸ List.getElem_mem hi
    have hc : (if (x == b) = true then 1 else 0) ≤ a.count b := by
      by_cases hxb : x = b
      · subst hxb
        simpa using List.count_pos_iff.mpr hmem
      · simp [hxb]
    omega
  · exact List.Perm.refl a

theorem shuffleLoop_perm {α : Type} (rnd : RandomSource) (i k : Nat) (a : List α) :
    (shuffleLoop rnd i k a).Perm a := by
  induction i generalizing k a with
  | zero => exact List.Perm.refl a
  | succ i ih => exact (ih _ _).trans (swap_perm a _ _)

theorem shuffleArray_perm {α : Type} (rnd : RandomSource) (a : List α) :
    (shuffleArray rnd a).Perm a := shuffleLoop_perm rnd _ _ a

/-! ### Numbers -/

theorem JsNum.finite_le_iff (m m' : Int) (k k' : Nat) :
    JsNum.finite m k ≤ JsNum.finite m' k' ↔
      m * Int.ofNat (2 ^ k') ≤ m' * Int.ofNat (2 ^ k) := by
  show decide _ = true ↔ _
  exact decide_eq_true_iff

theorem JsNum.finite_lt_iff (m m' : Int) (k k' : Nat) :
    JsNum.finite m k < JsNum.finite m' k' ↔
      m * Int.ofNat (2 ^ k') < m' * Int.ofNat (2 ^ k) := by
  show decide _ = true ↔ _
  exact decide_eq_true_iff

theorem JsNum.intCast_le_iff (a b : Int) : JsNum.finite a 0 ≤ JsNum.finite b 0 ↔ a ≤ b := by
  rw [JsNum.finite_le_iff]
  simp

theorem JsNum.intCast_sub (n c : Int) : JsNum.finite n 0 - c = JsNum.finite (n - c) 0 := by
  show JsNum.finite (n - c * Int.ofNat (2 ^ 0)) 0 = _
  simp

theorem JsNum.loopCount_intCast (n : Int) : (JsNum.finite n 0).loopCount = n.toNat := by
  show (-((-n) / Int.ofNat (2 ^ 0))).toNat = _
  simp

theorem rolesBeforeShuffle_small (n : Int) (h : n < 9) :
    rolesBeforeShuffle n =
      [Role.wolf, Role.wolf, Role.seer, Role.witch, Role.hunter]
        ++ List.replicate (n - 5).toNat Role.villager := by
  have h9 : ¬ ((n : JsNum) ≥ 9) := by
    change ¬ (JsNum.finite 9 0 ≤ JsNum.finite n 0)
    rw [JsNum.intCast_le_iff]
    omega
  have h12 : ¬ ((n : JsNum) ≥ 12) := by
    change ¬ (JsNum.finite 12 0 ≤ JsNum.finite n 0)
    rw [JsNum.intCast_le_iff]
    omega
  simp only [rolesBeforeShuffle, h9, h12, if_false]
  change _ ++ List.replicate
    (JsNum.finite n 0 - (2 : Int) - (1 : Int) - (1 : Int) - (1 : Int) - (0 : Int)).loopCount
    Role.villager = _
  simp only [JsNum.intCast_sub, JsNum.loopCount_intCast]
  have e : n - 2 - 1 - 1 - 1 - 0 = n - 5 := by ring
  rw [e]
  rfl

theorem rolesBeforeShuffle_medium (n : Int) (h9 : 9 ≤ n) (h : n < 12) :
    rolesBeforeShuffle n =
      [Role.wolf, Role.wolf, Role.wolf, Role.seer, Role.witch, Role.hunter, Role.guard]
        ++ List.replicate (n - 7).toNat Role.villager := by
  have h9' : (n : JsNum) ≥ 9 := by
    change JsNum.finite 9 0 ≤ JsNum.finite n 0
    rw [JsNum.intCast_le_iff]
    exact h9
  have h12 : ¬ ((n : JsNum) ≥ 12) := by
    change ¬ (JsNum.finite 12 0 ≤ JsNum.finite n 0)
    rw [JsNum.intCast_le_iff]
    omega
  simp only [rolesBeforeShuffle, h9', h12, if_false, if_true]
  change _ ++ List.replicate
    (JsNum.finite n 0 - (3 : Int) - (1 : Int) - (1 : Int) - (1 : Int) - (1 : Int)).loopCount
    Role.villager = _
  simp only [JsNum.intCast_sub, JsNum.loopCount_intCast]
  have e : n - 3 - 1 - 1 - 1 - 1 = n - 7 := by ring
  rw [e]
  rfl

theorem rolesBeforeShuffle_large (n : Int) (h12 : 12 ≤ n) :
    rolesBeforeShuffle n =
      [Role.wolf, Role.wolf, Role.wolf, Role.wolf, Role.seer, Role.witch, Role.hunter,
        Role.guard] ++ List.replicate (n - 8).toNat Role.villager := by
  have h9' : (n : JsNum) ≥ 9 := by
    change JsNum.finite 9 0 ≤ JsNum.finite n 0
    rw [JsNum.intCast_le_iff]
    omega
  have h12' : (n : JsNum) ≥ 12 := by
    change JsNum.finite 12 0 ≤ JsNum.finite n 0
    rw [JsNum.intCast_le_iff]
    exact h12
  simp only [rolesBeforeShuffle, h9', h12', if_true]
  change _ ++ List.replicate
    (JsNum.finite n 0 - (4 : Int) - (1 : Int) - (1 : Int) - (1 : Int) - (1 : Int)).loopCount
    Role.villager = _
  simp only [JsNum.intCast_sub, JsNum.loopCount_intCast]
  have e : n - 4 - 1 - 1 - 1 - 1 = n - 8 := by ring
  rw [e]
  rfl

/-- C1: for every `playerCount ≥ 6` and every outcome of the random source,
`generateRoles` returns exactly `playerCount` roles, the number of roles of each
kind is the one of the tier table (below 9: 2 wolves, no guard,
`playerCount - 5` villagers; 9 to 11: 3 wolves, a guard, `playerCount - 7`
villagers; from 12: 4 wolves, a guard, `playerCount - 8` villagers; always one
seer, one witch and one hunter), and at least 2 roles are wolves. -/
theorem generateRoles_tier_table (rnd : RandomSource) (playerCount : Int)
    (h : 6 ≤ playerCount) :
    ((generateRoles rnd playerCount).length : Int) = playerCount ∧
    (playerCount < 9 →
      roleCounts (generateRoles rnd playerCount) = [2, 1, 1, 1, 0, playerCount - 5]) ∧
    (9 ≤ playerCount → playerCount ≤ 11 →
      roleCounts (generateRoles rnd playerCount) = [3, 1, 1, 1, 1, playerCount - 7]) ∧
    (12 ≤ playerCount →
      roleCounts (generateRoles rnd playerCount) = [4, 1, 1, 1, 1, playerCount - 8]) ∧
    2 ≤ (generateRoles rnd playerCount).count Role.wolf := by
  have hp := shuffleArray_perm rnd (rolesBeforeShuffle playerCount)
  have hc : ∀ r, (generateRoles rnd playerCount).count r
      = (rolesBeforeShuffle playerCount).count r := fun r => hp.count_eq r
  have hl : (generateRoles rnd playerCount).length = (rolesBeforeShuffle playerCount).length :=
    hp.length_eq
  simp only [roleCounts, hc, hl]
  rcases lt_or_le playerCount 9 with h9 | h9
  · rw [rolesBeforeShuffle_small _ h9]
    refine ⟨?_, ?_, ?_, ?_, ?_⟩
    · simp; omega
    · intro _; simp [List.count_replicate]; omega
    · intro h'; omega
    · intro h'; omega
    · simp
  · rcases lt_or_le playerCount 12 with h12 | h12
    · rw [rolesBeforeShuffle_medium _ h9 h12]
      refine ⟨?_, ?_, ?_, ?_, ?_⟩
      · simp; omega
      · intro h'; omega
      · intro _ _; simp [List.count_replicate]; omega
      · intro h'; omega
      · simp
    · rw [rolesBeforeShuffle_large _ h12]
      refine ⟨?_, ?_, ?_, ?_, ?_⟩
      · simp; omega
      · intro h'; omega
      · intro h' h''; omega
      · intro _; simp [List.count_replicate]; omega
      · simp

/-- Witness of C1 at `playerCount = 10` with every draw equal to `0`. -/
theorem generateRoles_tier_table_witness :
    (6 : Int) ≤ 10 ∧
    ((generateRoles rndZero 10).length : Int) = 10 ∧
    roleCounts (generateRoles rndZero 10) = [3, 1, 1, 1, 1, 10 - 7] ∧
    2 ≤ (generateRoles rndZero 10).count Role.wolf :=
  have h := generateRoles_tier_table rndZero 10 (by decide)
  ⟨by decide, h.1, h.2.2.1 (by decide) (by decide), h.2.2.2.2⟩


/-! ## Win check -/

theorem filter_length_eq_zero_iff {α : Type} (q : α → Bool) (l : List α) :
    (l.filter q).length = 0 ↔ ∀ x ∈ l, q x = false := by
  rw [List.length_eq_zero, List.filter_eq_nil_iff]
  simp

theorem aliveWolves_eq_zero_iff (room : Room) :
    (room.players.filter (fun p => p.isAlive && p.role == some Role.wolf)).length = 0 ↔
      ∀ p ∈ room.players, p.isAlive = true → p.role ≠ some Role.wolf := by
  rw [filter_length_eq_zero_iff]
  refine forall₂_congr fun p _ => ?_
  cases p.isAlive <;> simp

theorem aliveGood_eq_zero_iff (room : Room) :
    (room.players.filter (fun p => p.isAlive && p.role != some Role.wolf)).length = 0 ↔
      ∀ p ∈ room.players, p.isAlive = true → p.role = some Role.wolf := by
  rw [filter_length_eq_zero_iff]
  refine forall₂_congr fun p _ => ?_
  cases p.isAlive <;> simp

theorem aliveClergy_eq_zero_iff (room : Room) :
    (room.players.filter (fun p => p.isAlive &&
        [some Role.seer, some Role.witch, some Role.hunter, some Role.guard].contains
          p.role)).length = 0 ↔
      ∀ p ∈ room.players, p.isAlive = true → ¬ isClergy p.role := by
  rw [filter_length_eq_zero_iff]
  refine forall₂_congr fun p _ => ?_
  cases p.isAlive <;> simp [isClergy]

theorem checkGameOver_third_rule_iff (room : Room) :
    ((room.players.filter (fun p => p.isAlive &&
        [some Role.seer, some Role.witch, some Role.hunter, some Role.guard].contains
          p.role)).length = 0 ∧
      (room.players.filter (fun p => p.isAlive && p.role == some Role.wolf)).length ≥
        (room.players.filter (fun p => p.isAlive && p.role == some Role.villager)).length) ↔
      clergyParity room := by
  rw [aliveClergy_eq_zero_iff]
  simp only [clergyParity, livingCount, List.countP_eq_length_filter, ge_iff_le]

/-- The win check seen as a function of the list of `(isAlive, role)` pairs. -/
theorem checkGameOver_eq_of_lives (room : Room) :
    checkGameOver room =
      let lives := room.players.map (fun p => (p.isAlive, p.role))
      if (lives.filter (fun x => x.1 && x.2 == some Role.wolf)).length = 0 then
        gameOverWith room "好人"
      else if (lives.filter (fun x => x.1 && x.2 != some Role.wolf)).length = 0 then
        gameOverWith room "狼人"
      else if (lives.filter (fun x => x.1 &&
            [some Role.seer, some Role.witch, some Role.hunter, some Role.guard].contains
              x.2)).length = 0 ∧
          (lives.filter (fun x => x.1 && x.2 == some Role.wolf)).length ≥
            (lives.filter (fun x => x.1 && x.2 == some Role.villager)).length then
        gameOverWith room "狼人"
      else (room, [], false) := by
  simp only [checkGameOver, gameOverWith, List.filter_map, List.length_map]
  rfl

theorem checkGameOver_cases (room : Room) :
    (noLivingWolf room → checkGameOver room = gameOverWith room "好人") ∧
    (¬ noLivingWolf room → noLivingNonWolf room →
      checkGameOver room = gameOverWith room "狼人") ∧
    (¬ noLivingWolf room → ¬ noLivingNonWolf room → clergyParity room →
      checkGameOver room = gameOverWith room "狼人") ∧
    (¬ noLivingWolf room → ¬ noLivingNonWolf room → ¬ clergyParity room →
      checkGameOver room = (room, [], false)) := by
  have hw := aliveWolves_eq_zero_iff room
  have hg := aliveGood_eq_zero_iff room
  have hc := checkGameOver_third_rule_iff room
  refine ⟨?_, ?_, ?_, ?_⟩
  · intro h1
    have h1' := hw.mpr h1
    simp only [checkGameOver, gameOverWith, h1', if_true]
  · intro h1 h2
    have h1' := mt hw.mp h1
    have h2' := hg.mpr h2
    simp only [checkGameOver, gameOverWith, h1', h2', if_true, if_false]
  · intro h1 h2 h3
    have h1' := mt hw.mp h1
    have h2' := mt hg.mp h2
    have h3' := hc.mpr h3
    simp only [checkGameOver, gameOverWith, h1', h2', if_false]
    rw [if_pos h3']
  · intro h1 h2 h3
    have h1' := mt hw.mp h1
    have h2' := mt hg.mp h2
    have h3' := mt hc.mp h3
    simp only [checkGameOver, h1', h2', if_false]
    rw [if_neg h3']

theorem announcedWinner_gameOverWith (room : Room) (winner : String)
    (h : checkGameOver room = gameOverWith room winner) :
    announcedWinner room = some winner := by
  simp [announcedWinner, h, gameOverWith]

theorem livingCount_pos_iff (room : Room) (role : Role) :
    0 < livingCount room role ↔
      ∃ p ∈ room.players, p.isAlive = true ∧ p.role = some role := by
  simp [livingCount, List.countP_pos_iff]

/-- C2 (as amended): `checkGameOver` reads only the players' `isAlive` and
`role`, and applies its rules in order: no living wolf, the village wins;
otherwise no living non-wolf, the wolves win; otherwise no living seer, witch,
hunter or guard and at least as many living wolves as living villagers, the
wolves win; otherwise it returns `false`, emits nothing and leaves the room,
`isGameOver` included, as it is. So it reports a village win when all wolves
are dead, a wolves win when all non-wolves are dead and some wolf is alive, and
an ongoing game when at least 2 players live on each side and the third rule
does not apply. -/
theorem checkGameOver_ordered_rules (room room' : Room) :
    (noLivingWolf room → checkGameOver room = gameOverWith room "好人") ∧
    (¬ noLivingWolf room → noLivingNonWolf room →
      checkGameOver room = gameOverWith room "狼人") ∧
    (¬ noLivingWolf room → ¬ noLivingNonWolf room → clergyParity room →
      checkGameOver room = gameOverWith room "狼人") ∧
    (¬ noLivingWolf room → ¬ noLivingNonWolf room → ¬ clergyParity room →
      checkGameOver room = (room, [], false)) ∧
    (lives room' = lives room →
      (checkGameOver room').2.2 = (checkGameOver room).2.2 ∧
        announcedWinner room' = announcedWinner room) ∧
    (2 ≤ livingCount room Role.wolf → 2 ≤ livingNonWolves room → ¬ clergyParity room →
      (checkGameOver room).2.2 = false ∧ announcedWinner room = none ∧
        (checkGameOver room).1 = room) := by
  obtain ⟨r1, r2, r3, r4⟩ := checkGameOver_cases room
  refine ⟨r1, r2, r3, r4, ?_, ?_⟩
  · intro h
    have e := checkGameOver_eq_of_lives room
    have e' := checkGameOver_eq_of_lives room'
    simp only [lives] at h
    simp only [h] at e'
    unfold announcedWinner
    rw [e, e']
    simp only [gameOverWith]
    split_ifs <;> simp
  · intro hw hg hp
    have h1 : ¬ noLivingWolf room := by
      intro hn
      have : 0 < livingCount room Role.wolf := by omega
      obtain ⟨p, hp, ha, hr⟩ := (livingCount_pos_iff room Role.wolf).mp this
      exact hn p hp ha hr
    have h2 : ¬ noLivingNonWolf room := by
      intro hn
      have : 0 < livingNonWolves room := by omega
      simp only [livingNonWolves, List.countP_pos_iff] at this
      obtain ⟨p, hp, hq⟩ := this
      have ha : p.isAlive = true := by
        cases h : p.isAlive <;> simp [h] at hq ⊢
      have := hn p hp ha
      simp [this] at hq
    have e := r4 h1 h2 hp
    simp [announcedWinner, e]

/-- Witness of C2 (as amended): a fresh six-player room is ongoing. -/
theorem checkGameOver_ordered_rules_witness :
    (checkGameOver freshSixRoom).2.2 = false ∧ announcedWinner freshSixRoom = none ∧
      (checkGameOver freshSixRoom).1 = freshSixRoom :=
  (checkGameOver_ordered_rules freshSixRoom freshSixRoom).2.2.2.2.2
    (by decide) (by decide) (by decide)

/-- Counterexample to C2 as stated: in a roster where every player is dead,
all non-wolf players are dead, yet `checkGameOver` announces the village
(`"好人"`), not the wolves (`"狼人"`), as the winner. -/
theorem checkGameOver_all_dead_village :
    (∀ p ∈ allDeadRoom.players, p.role ≠ some Role.wolf → p.isAlive = false) ∧
      (checkGameOver allDeadRoom).2.2 = true ∧
      announcedWinner allDeadRoom = some "好人" ∧
      announcedWinner allDeadRoom ≠ some "狼人" := by
  decide


/-! ## Dictionaries -/

theorem JsObj.entries_perm {β : Type} (o : JsObj β) : (JsObj.entries o).Perm o := by
  unfold JsObj.entries
  have h1 : (((o.filterMap fun e => (arrayIndex? e.1).map fun n => (n, e)).insertionSort
      (fun a b => a.1 ≤ b.1)).map (fun x => x.2)).Perm
      (o.filter (fun e => (arrayIndex? e.1).isSome)) := by
    refine ((List.perm_insertionSort _ _).map _).trans ?_
    rw [List.map_filterMap]
    have : (fun e : String × β =>
        Option.map (fun x : Nat × (String × β) => x.2)
          ((arrayIndex? e.1).map fun n => (n, e))) =
        Option.guard (fun e : String × β => ((arrayIndex? e.1).isSome : Prop)) := by
      funext e
      cases h : arrayIndex? e.1 <;> simp [Option.guard, h]
    rw [this]
    have := List.filterMap_eq_filter (fun e : String × β => (arrayIndex? e.1).isSome)
    simp only [] at this
    rw [show (Option.guard fun e : String × β => ((arrayIndex? e.1).isSome : Prop))
      = Option.guard (fun x => (fun e : String × β => (arrayIndex? e.1).isSome) x = true)
      from rfl, this]
  have h2 : (o.filter (fun e => (arrayIndex? e.1).isNone))
      = o.filter (fun e => !(arrayIndex? e.1).isSome) := by
    congr 1
    funext e
    cases arrayIndex? e.1 <;> rfl
  rw [h2]
  exact (h1.append_right _).trans (List.filter_append_perm _ o)

theorem JsObj.get?_set {β : Type} (o : JsObj β) (k k' : String) (v : β) :
    JsObj.get? (JsObj.set o k v) k' = if k = k' then some v else JsObj.get? o k' := by
  induction o with
  | nil => simp [JsObj.set, JsObj.get?]
  | cons e o ih =>
    obtain ⟨k0, v0⟩ := e
    simp only [JsObj.set]
    by_cases h : k0 = k
    · subst h
      simp only [if_true, JsObj.get?]
      split_ifs <;> rfl
    · simp only [h, if_false, JsObj.get?, ih]
      by_cases h' : k0 = k'
      · subst h'
        simp [Ne.symm h]
      · simp [h']

theorem JsObj.keys_set {β : Type} (o : JsObj β) (k : String) (v : β) :
    (JsObj.set o k v).map Prod.fst =
      if k ∈ o.map Prod.fst then o.map Prod.fst else o.map Prod.fst ++ [k] := by
  induction o with
  | nil => simp [JsObj.set]
  | cons e o ih =>
    obtain ⟨k0, v0⟩ := e
    simp only [JsObj.set]
    by_cases h : k0 = k
    · subst h
      simp
    · simp only [h, if_false, List.map_cons, ih, List.mem_cons, Ne.symm h, false_or]
      split_ifs <;> simp

theorem JsObj.nodup_keys_set {β : Type} (o : JsObj β) (k : String) (v : β)
    (h : (o.map Prod.fst).Nodup) : ((JsObj.set o k v).map Prod.fst).Nodup := by
  rw [JsObj.keys_set]
  split_ifs with hk
  · exact h
  · exact List.Nodup.append h (List.nodup_singleton k) (by simpa using hk)

theorem JsObj.mem_iff_get? {β : Type} (o : JsObj β) (h : (o.map Prod.fst).Nodup)
    (k : String) (v : β) : (k, v) ∈ o ↔ JsObj.get? o k = some v := by
  induction o with
  | nil => simp [JsObj.get?]
  | cons e o ih =>
    obtain ⟨k0, v0⟩ := e
    simp only [List.map_cons, List.nodup_cons] at h
    simp only [JsObj.get?, List.mem_cons, Prod.mk.injEq]
    by_cases hk : k0 = k
    · subst hk
      simp only [if_true, Option.some.injEq, true_and]
      constructor
      · rintro (h1 | h1)
        · exact h1.symm
        · exact absurd (List.mem_map_of_mem Prod.fst h1) h.1
      · intro h1
        exact Or.inl h1.symm
    · simp only [hk, if_false, ← ih h.2]
      constructor
      · rintro (h1 | h1)
        · exact absurd h1.1.symm hk
        · exact h1
      · exact Or.inr

/-! ## Vote tally -/

theorem text_append_ne_empty (s : String) : s ++ "1" ≠ "" := by
  intro h
  have h1 := congrArg String.length h
  rw [String.length_append] at h1
  have h2 : "1".length = 1 := by decide
  have h3 : "".length = 0 := by decide
  omega

theorem inherited_proto : inherited "__proto__" ≠ none := by decide

theorem tally_foldl (vs : List String) (acc : JsObj Tally) (ws : List String)
    (hn : (acc.map Prod.fst).Nodup)
    (hg : ∀ k, inherited k = none →
      JsObj.get? acc k = if ws.count k = 0 then none else some (Tally.count (ws.count k)))
    (ht : ∀ k, inherited k ≠ none → ∀ v, JsObj.get? acc k = some v →
      ∃ s, v = Tally.text s ∧ s ≠ "") :
    ((vs.foldl tallyStep acc).map Prod.fst).Nodup ∧
    (∀ k, inherited k = none →
      JsObj.get? (vs.foldl tallyStep acc) k =
        if (ws ++ vs).count k = 0 then none else some (Tally.count ((ws ++ vs).count k))) ∧
    (∀ k, inherited k ≠ none → ∀ v, JsObj.get? (vs.foldl tallyStep acc) k = some v →
      ∃ s, v = Tally.text s ∧ s ≠ "") := by
  induction vs generalizing acc ws with
  | nil => simpa using ⟨hn, hg, ht⟩
  | cons v vs ih =>
    simp only [List.foldl_cons]
    have hcount : ∀ k, v ≠ k → (ws ++ [v]).count k = ws.count k := by
      intro k hvk
      simp [List.count_append, List.count_cons, hvk]
    have key := ih (tallyStep acc v) (ws ++ [v])
      (by
        unfold tallyStep
        split_ifs
        · exact hn
        · exact JsObj.nodup_keys_set _ _ _ hn)
      (by
        intro k hk
        unfold tallyStep
        by_cases hp : v = "__proto__"
        · rw [if_pos hp]
          have hvk : v ≠ k := by
            intro h
            rw [← h, hp] at hk
            exact inherited_proto hk
          rw [hg k hk, hcount k hvk]
        · rw [if_neg hp, JsObj.get?_set]
          by_cases hvk : v = k
          · subst hvk
            rw [if_pos rfl]
            unfold nextTally
            rw [hg v hk]
            by_cases h0 : ws.count v = 0
            · simp [h0, hk]
            · simp [h0]
          · rw [if_neg hvk, hg k hk, hcount k hvk])
      (by
        intro k hk val
        unfold tallyStep
        by_cases hp : v = "__proto__"
        · rw [if_pos hp]
          exact ht k hk val
        · rw [if_neg hp, JsObj.get?_set]
          by_cases hvk : v = k
          · subst hvk
            rw [if_pos rfl]
            intro hval
            have hval' := (Option.some.inj hval).symm
            unfold nextTally at hval'
            cases hget : JsObj.get? acc v with
            | none =>
              rw [hget] at hval'
              cases hi : inherited v with
              | none => exact absurd hi hk
              | some s =>
                rw [hi] at hval'
                exact ⟨s ++ "1", hval', text_append_ne_empty s⟩
            | some old =>
              obtain ⟨s, hs, hne⟩ := ht v hk old hget
              rw [hget, hs] at hval'
              simp only [hne, if_false] at hval'
              exact ⟨s ++ "1", hval', text_append_ne_empty s⟩
          · rw [if_neg hvk]
            exact ht k hk val)
    simpa [List.append_assoc] using key

theorem count_values_eq_voteCount (votes : JsObj String) (t : String) :
    (JsObj.values votes).count t = voteCount votes t := by
  unfold JsObj.values voteCount
  rw [List.count_eq_countP, List.countP_map]
  rw [(JsObj.entries_perm votes).countP_eq]
  congr 1

theorem tallyVotes_spec (votes : JsObj String) :
    ((tallyVotes votes).map Prod.fst).Nodup ∧
    ∀ k n, (k, Tally.count n) ∈ JsObj.entries (tallyVotes votes) ↔
      (isCounted k ∧ n = voteCount votes k ∧ 0 < n) := by
  have h := tally_foldl (JsObj.values votes) [] [] (by simp) (by simp [JsObj.get?])
    (by simp [JsObj.get?])
  simp only [List.nil_append] at h
  refine ⟨h.1, fun k n => ?_⟩
  rw [(JsObj.entries_perm _).mem_iff]
  unfold tallyVotes isCounted
  rw [JsObj.mem_iff_get? _ h.1]
  by_cases hk : inherited k = none
  · rw [h.2.1 k hk, count_values_eq_voteCount]
    by_cases h0 : voteCount votes k = 0
    · simp [h0, hk]
    · simp only [h0, if_false, Option.some.injEq, Tally.count.injEq, hk, true_and]
      constructor
      · intro e; subst e; exact ⟨rfl, Nat.pos_of_ne_zero h0⟩
      · intro e; exact e.1.symm
  · constructor
    · intro hget
      obtain ⟨s, hs, _⟩ := h.2.2 k hk _ hget
      cases hs
    · intro e
      exact absurd e.1 hk

theorem mem_numbers (es : List (String × Tally)) (k : String) (n : Nat) :
    (k, n) ∈ numbers es ↔ (k, Tally.count n) ∈ es := by
  unfold numbers
  rw [List.mem_filterMap]
  constructor
  · rintro ⟨⟨k', v⟩, hmem, heq⟩
    cases v with
    | count m =>
      simp only [Option.some.injEq, Prod.mk.injEq] at heq
      rw [← heq.1, ← heq.2]
      exact hmem
    | text s => simp at heq
  · intro h
    exact ⟨(k, Tally.count n), h, rfl⟩

theorem numbers_keys_sublist (es : List (String × Tally)) :
    ((numbers es).map Prod.fst).Sublist (es.map Prod.fst) := by
  induction es with
  | nil => exact List.Sublist.slnil
  | cons e es ih =>
    obtain ⟨k, v⟩ := e
    cases v with
    | count n =>
      simp only [numbers, List.filterMap_cons, List.map_cons]
      exact List.Sublist.cons₂ _ ih
    | text s =>
      simp only [numbers, List.filterMap_cons, List.map_cons]
      exact List.Sublist.cons _ ih

theorem le_maxFrom (m : Nat) (es : List (String × Nat)) : m ≤ maxFrom m es := by
  induction es generalizing m with
  | nil => exact Nat.le_refl m
  | cons e es ih =>
    simp only [maxFrom, List.foldl_cons]
    exact Nat.le_trans (Nat.le_max_left m e.2) (ih _)

theorem mem_le_maxFrom (m : Nat) (es : List (String × Nat)) (e : String × Nat)
    (h : e ∈ es) : e.2 ≤ maxFrom m es := by
  induction es generalizing m with
  | nil => cases h
  | cons e0 es ih =>
    simp only [maxFrom, List.foldl_cons]
    rcases List.mem_cons.mp h with h | h
    · subst h
      exact Nat.le_trans (Nat.le_max_right m e.2) (le_maxFrom _ es)
    · exact ih _ h

theorem maxFrom_eq_or (m : Nat) (es : List (String × Nat)) :
    maxFrom m es = m ∨ ∃ e ∈ es, e.2 = maxFrom m es := by
  induction es generalizing m with
  | nil => exact Or.inl rfl
  | cons e0 es ih =>
    simp only [maxFrom, List.foldl_cons]
    rcases ih (max m e0.2) with h | ⟨e, he, h⟩
    · rcases Nat.le_total m e0.2 with h' | h'
      · right
        refine ⟨e0, List.mem_cons_self _ _, ?_⟩
        simp only [maxFrom] at h
        rw [h, Nat.max_eq_right h']
      · left
        simp only [maxFrom] at h
        rw [h, Nat.max_eq_left h']
    · exact Or.inr ⟨e, List.mem_cons_of_mem _ he, h⟩

theorem foldl_countStep (es : List (String × Nat)) (m : Nat) (l : List String) :
    es.foldl countStep (m, l) =
      (maxFrom m es,
        (if maxFrom m es = m then l else [])
          ++ (es.filter (fun e => e.2 = maxFrom m es)).map Prod.fst) := by
  induction es generalizing m l with
  | nil => simp [maxFrom]
  | cons e es ih =>
    have hle := le_maxFrom (max m e.2) es
    have hM : maxFrom m (e :: es) = maxFrom (max m e.2) es := rfl
    rw [List.foldl_cons, hM]
    rcases Nat.lt_trichotomy m e.2 with hlt | heq | hgt
    · have hs : countStep (m, l) e = (e.2, [e.1]) := by simp [countStep, hlt]
      have hmax : max m e.2 = e.2 := Nat.max_eq_right (Nat.le_of_lt hlt)
      rw [hs, ih, hmax]
      rw [hmax] at hle
      have hne : ¬ maxFrom e.2 es = m := by omega
      have hne' : ¬ e.2 = m := by omega
      by_cases h1 : maxFrom e.2 es = e.2
      · simp [h1, hne', List.filter_cons]
      · have h2 : ¬ e.2 = maxFrom e.2 es := fun h => h1 h.symm
        simp [h1, hne, h2, List.filter_cons]
    · have hs : countStep (m, l) e = (m, l ++ [e.1]) := by simp [countStep, heq]
      have hmax : max m e.2 = m := by rw [← heq]; exact Nat.max_self m
      rw [hs, ih, hmax]
      by_cases h1 : maxFrom m es = m
      · have h2 : e.2 = maxFrom m es := by rw [h1]; exact heq.symm
        simp [h1, List.filter_cons, ← heq]
      · have h2 : ¬ e.2 = maxFrom m es := by rw [← heq]; exact fun h => h1 h.symm
        simp [h1, h2, List.filter_cons]
    · have hs : countStep (m, l) e = (m, l) := by
        have h1 : ¬ e.2 > m := by omega
        have h2 : ¬ e.2 = m := by omega
        simp [countStep, h1, h2]
      have hmax : max m e.2 = m := Nat.max_eq_left (Nat.le_of_lt hgt)
      rw [hs, ih, hmax]
      rw [hmax] at hle
      have h2 : ¬ e.2 = maxFrom m es := by omega
      simp [h2, List.filter_cons]

theorem foldl_maxStep (es : List (String × Tally)) (acc : Nat × List String) :
    es.foldl maxStep acc = (numbers es).foldl countStep acc := by
  induction es generalizing acc with
  | nil => rfl
  | cons e es ih =>
    obtain ⟨k, v⟩ := e
    cases v with
    | count n =>
      simp only [List.foldl_cons, numbers, List.filterMap_cons]
      exact ih _
    | text s =>
      simp only [List.foldl_cons, numbers, List.filterMap_cons]
      exact ih _

theorem maxVoted_eq (voteCounts : JsObj Tally) :
    (maxVoted voteCounts).2 =
      ((numbers (JsObj.entries voteCounts)).filter
        (fun e => e.2 = maxFrom 0 (numbers (JsObj.entries voteCounts)))).map Prod.fst := by
  unfold maxVoted
  rw [foldl_maxStep, foldl_countStep]
  by_cases h : maxFrom 0 (numbers (JsObj.entries voteCounts)) = 0 <;> simp [h]

theorem tiedTargets_nodup (votes : JsObj String) : (tiedTargets votes).Nodup := by
  unfold tiedTargets
  rw [maxVoted_eq]
  have hk : ((JsObj.entries (tallyVotes votes)).map Prod.fst).Nodup :=
    (((JsObj.entries_perm (tallyVotes votes)).map Prod.fst).nodup_iff).mpr
      (tallyVotes_spec votes).1
  exact List.Nodup.sublist
    (((List.filter_sublist _).map Prod.fst).trans (numbers_keys_sublist _)) hk

theorem mem_tiedTargets_iff (votes : JsObj String) (t : String) :
    t ∈ tiedTargets votes ↔ isTopTarget votes t := by
  have hs : ∀ k n, (k, n) ∈ numbers (JsObj.entries (tallyVotes votes)) ↔
      (isCounted k ∧ n = voteCount votes k ∧ 0 < n) := fun k n => by
    rw [mem_numbers, (tallyVotes_spec votes).2]
  unfold tiedTargets
  rw [maxVoted_eq]
  simp only [List.mem_map, List.mem_filter, decide_eq_true_eq]
  constructor
  · rintro ⟨⟨k, n⟩, ⟨hmem, hn⟩, hk⟩
    simp only at hn hk
    subst hk
    obtain ⟨hcnt, hc, hpos⟩ := (hs k n).mp hmem
    refine ⟨hcnt, by omega, fun t' ht' => ?_⟩
    by_cases h0 : voteCount votes t' = 0
    · omega
    · have hm : (t', voteCount votes t') ∈ numbers (JsObj.entries (tallyVotes votes)) :=
        (hs _ _).mpr ⟨ht', rfl, Nat.pos_of_ne_zero h0⟩
      have := mem_le_maxFrom 0 _ _ hm
      simp only at this
      omega
  · rintro ⟨hcnt, hpos, htop⟩
    have hm : (t, voteCount votes t) ∈ numbers (JsObj.entries (tallyVotes votes)) :=
      (hs _ _).mpr ⟨hcnt, rfl, hpos⟩
    have hle := mem_le_maxFrom 0 _ _ hm
    simp only at hle
    refine ⟨(t, voteCount votes t), ⟨hm, ?_⟩, rfl⟩
    rcases maxFrom_eq_or 0 (numbers (JsObj.entries (tallyVotes votes))) with
      h0 | ⟨⟨k, n⟩, hkm, hkn⟩
    · omega
    · obtain ⟨hkc, hc, _⟩ := (hs k n).mp hkm
      simp only at hkn
      have := htop k hkc
      omega

theorem eq_singleton_of_nodup {α : Type} (l : List α) (x : α) (hn : l.Nodup)
    (h : ∀ t, t ∈ l ↔ t = x) : l = [x] := by
  match l, hn, h with
  | [], _, h => exact absurd ((h x).mpr rfl) (List.not_mem_nil x)
  | [y], _, h => rw [(h y).mp (List.mem_singleton_self y)]
  | y :: z :: l, hn, h =>
    have hy := (h y).mp (List.mem_cons_self _ _)
    have hz := (h z).mp (List.mem_cons_of_mem _ (List.mem_cons_self _ _))
    simp only [List.nodup_cons, List.mem_cons] at hn
    exact absurd (Or.inl (hy.trans hz.symm)) hn.1

theorem killTarget_eq_markDead (players : List Player) (targetId : String) :
    killTarget players targetId = markDead players targetId := by
  unfold killTarget
  split
  · rfl
  · rename_i h
    rw [List.find?_eq_none] at h
    unfold markDead
    symm
    conv_rhs => rw [← List.map_id players]
    apply List.map_congr_left
    intro p hp
    have := h p hp
    simp only [decide_eq_true_eq] at this
    simp [this]

/-- C3: when one target `X` has strictly more votes than every other target
and `X` is the id of a room member, `processVotes` sets `isAlive` to `false` on
the player `X` and leaves every other player record as it was, whatever the
random source returns. -/
theorem processVotes_unique_max (rnd : RandomSource) (room : Room) (X : String)
    (hmem : ∃ p ∈ room.players, p.id.val = X)
    (hmax : ∀ t, t ≠ X →
      voteCount room.gameState.votes t < voteCount room.gameState.votes X) :
    (processVotes rnd room).players =
      room.players.map (fun p => if p.id.val = X then { p with isAlive := false } else p) := by
  have hXc : isCounted X := by
    obtain ⟨p, _, hp⟩ := hmem
    exact hp ▸ p.id.own
  have htop : ∀ t, t ∈ tiedTargets room.gameState.votes ↔ t = X := by
    intro t
    rw [mem_tiedTargets_iff]
    constructor
    · intro h
      by_contra hne
      have := hmax t hne
      have := h.2.2 X hXc
      omega
    · intro h
      subst h
      have hpos : 0 < voteCount room.gameState.votes t := by
        have := hmax (t ++ "x") (by
          intro h
          have := congrArg String.length h
          rw [String.length_append] at this
          have h1 : "x".length = 1 := by decide
          omega)
        omega
      refine ⟨hXc, hpos, fun t' _ => ?_⟩
      by_cases h : t' = t
      · rw [h]
      · exact Nat.le_of_lt (hmax t' h)
  have hl := eq_singleton_of_nodup _ X (tiedTargets_nodup _) htop
  have hc : voteCandidates rnd room.gameState.votes = [X] := by
    unfold voteCandidates
    unfold tiedTargets at hl
    simp [hl]
  obtain ⟨p, _, hp⟩ := hmem
  have hX : X ≠ "" := hp ▸ p.id.nonempty
  simp only [processVotes, hc, List.getElem?_cons_zero, hX, ne_eq, not_false_eq_true, if_true,
    killTarget_eq_markDead]
  rfl

/-- Witness of C3: with the votes `A → X`, `B → X`, `C → Y`, `X` is marked
dead and nobody else is touched. -/
theorem processVotes_unique_max_witness :
    (processVotes rndZero threeVotesRoom).players =
      threeVotesRoom.players.map
        (fun p => if p.id.val = "X" then { p with isAlive := false } else p) :=
  processVotes_unique_max rndZero threeVotesRoom "X"
    ⟨mkPlayer "X" (by decide) Role.wolf true, by decide, rfl⟩
    (by
      intro t ht
      have hX : ¬ "X" = t := fun h => ht h.symm
      by_cases hY : "Y" = t <;>
        simp [voteCount, threeVotesRoom, initialGameState, List.countP_cons, hX, hY])


/-! ## Choice sequences of the shuffle -/

theorem swap_length {α : Type} (a : List α) (i j : Nat) : (swap a i j).length = a.length :=
  (swap_perm a i j).length_eq

theorem shuffleWith_perm {α : Type} (js : List Nat) (i : Nat) (a : List α) :
    (shuffleWith js i a).Perm a := by
  induction js generalizing i a with
  | nil => cases i <;> exact List.Perm.refl a
  | cons j js ih =>
    cases i with
    | zero => exact List.Perm.refl a
    | succ i => exact (ih i _).trans (swap_perm a _ _)

theorem shuffleLoop_eq_shuffleWith {α : Type} (rnd : RandomSource) (i k : Nat) (a : List α) :
    shuffleLoop rnd i k a = shuffleWith (choicesOf rnd i k) i a := by
  induction i generalizing k a with
  | zero => rfl
  | succ i ih => simp only [shuffleLoop, choicesOf, shuffleWith, ih]

theorem mem_choiceSeqs_succ (i : Nat) (js : List Nat) :
    js ∈ choiceSeqs (i + 1) ↔ ∃ j js', js = j :: js' ∧ j < i + 2 ∧ js' ∈ choiceSeqs i := by
  simp only [choiceSeqs, List.mem_flatMap, List.mem_range, List.mem_map]
  constructor
  · rintro ⟨j, hj, js', hjs, rfl⟩
    exact ⟨j, js', rfl, hj, hjs⟩
  · rintro ⟨j, js', rfl, hj, hjs⟩
    exact ⟨j, hj, js', hjs, rfl⟩

theorem scaleFloor_lt (r : Rand01) (k : Nat) (hk : 0 < k) : r.scaleFloor k < k := by
  unfold Rand01.scaleFloor
  have hd : 0 < r.den := Nat.lt_of_le_of_lt (Nat.zero_le _) r.lt
  rw [Nat.div_lt_iff_lt_mul hd]
  have := Nat.mul_lt_mul_of_pos_right r.lt hk
  rw [Nat.mul_comm k r.den]
  exact this

theorem choicesOf_mem (rnd : RandomSource) (i k : Nat) : choicesOf rnd i k ∈ choiceSeqs i := by
  induction i generalizing k with
  | zero => simp [choicesOf, choiceSeqs]
  | succ i ih =>
    rw [mem_choiceSeqs_succ]
    exact ⟨_, _, rfl, scaleFloor_lt _ _ (Nat.succ_pos _), ih _⟩

theorem choicesOf_congr (rnd rnd' : RandomSource) (i k k' : Nat)
    (h : ∀ m, m < i → rnd (k + m) = rnd' (k' + m)) :
    choicesOf rnd i k = choicesOf rnd' i k' := by
  induction i generalizing k k' with
  | zero => rfl
  | succ i ih =>
    simp only [choicesOf]
    have h0 := h 0 (Nat.succ_pos _)
    simp only [Nat.add_zero] at h0
    rw [h0]
    congr 1
    apply ih
    intro m hm
    have := h (m + 1) (Nat.succ_lt_succ hm)
    simpa [Nat.add_assoc, Nat.add_comm 1 m] using this

theorem choicesOf_sourceOf (i : Nat) (js : List Nat) (h : js ∈ choiceSeqs i) :
    choicesOf (sourceOf js i) i 0 = js := by
  induction i generalizing js with
  | zero =>
    simp only [choiceSeqs, List.mem_singleton] at h
    subst h
    rfl
  | succ i ih =>
    obtain ⟨j, js', rfl, hj, hjs⟩ := (mem_choiceSeqs_succ i js).mp h
    simp only [choicesOf]
    have h0 : (sourceOf (j :: js') (i + 1) 0).scaleFloor (i + 2) = j := by
      have hlt : (j :: js').getD 0 0 < i + 1 + 1 - 0 := by simpa using hj
      simp only [sourceOf, hlt, dif_pos, Rand01.scaleFloor]
      simp only [List.getD_cons_zero, Nat.sub_zero]
      exact Nat.mul_div_cancel j (Nat.succ_pos _)
    rw [h0]
    congr 1
    refine Eq.trans ?_ (ih js' hjs)
    apply choicesOf_congr
    intro m _
    simp only [sourceOf, Nat.zero_add, List.getD_cons_succ, Nat.add_comm 1 m]
    have e : i + 1 + 1 - (m + 1) = i + 1 - m := by omega
    simp only [e]

theorem swap_append_left {α : Type} (l s : List α) (i j : Nat) (hi : i < l.length)
    (hj : j < l.length) : swap (l ++ s) i j = swap l i j ++ s := by
  unfold swap
  rw [List.getElem?_append_left hi, List.getElem?_append_left hj,
    List.getElem?_eq_getElem hi, List.getElem?_eq_getElem hj]
  simp only
  rw [List.set_append_left _ _ hi, List.set_append_left _ _ (by simpa using hj)]

theorem shuffleWith_append {α : Type} (i : Nat) (js : List Nat) (l s : List α)
    (hjs : js ∈ choiceSeqs i) (hl : i < l.length) :
    shuffleWith js i (l ++ s) = shuffleWith js i l ++ s := by
  induction i generalizing js l with
  | zero =>
    simp only [choiceSeqs, List.mem_singleton] at hjs
    subst hjs
    rfl
  | succ i ih =>
    obtain ⟨j, js', rfl, hj, hjs'⟩ := (mem_choiceSeqs_succ i js).mp hjs
    simp only [shuffleWith]
    rw [swap_append_left l s (i + 1) j hl (by omega)]
    exact ih js' _ hjs' (by rw [swap_length]; omega)

theorem swap_getElem? {α : Type} (l : List α) (i j : Nat) (hi : i < l.length)
    (hj : j < l.length) : (swap l i j)[i]? = l[j]? := by
  unfold swap
  rw [List.getElem?_eq_getElem hi, List.getElem?_eq_getElem hj]
  simp only
  rw [List.getElem?_set]
  by_cases h : j = i
  · subst h
    simp [hj]
  · simp only [h, if_false]
    rw [List.getElem?_set]
    simp [hi]

theorem countP_getElem?_range {α : Type} [DecidableEq α] (l : List α) (x : α) :
    (List.range l.length).countP (fun j => l[j]? = some x) = l.count x := by
  induction l using List.reverseRecOn with
  | nil => simp
  | append_singleton l a ih =>
    rw [List.length_append, List.length_singleton, List.range_succ, List.countP_append,
      List.count_append]
    congr 1
    · rw [← ih]
      apply List.countP_congr
      intro j hj
      rw [List.mem_range] at hj
      simp [List.getElem?_append_left hj]
    · by_cases h : a = x <;> simp [h, List.countP_cons, List.count_cons]

theorem sum_map_ite_zero (L : List Nat) (q : Nat → Bool) (c : Nat) :
    (L.map (fun j => if q j = true then 0 else c)).sum = (L.length - L.countP q) * c := by
  induction L with
  | nil => simp
  | cons a L ih =>
    have hle : L.countP q ≤ L.length := List.countP_le_length q
    simp only [List.map_cons, List.sum_cons, ih, List.countP_cons, List.length_cons]
    by_cases h : q a = true
    · simp only [h, if_true, Nat.zero_add]
      congr 1
      omega
    · have h' : q a = false := by simpa using h
      simp only [h', Nat.add_zero]
      have e : L.length + 1 - L.countP q = (L.length - L.countP q) + 1 := by omega
      simp only [Bool.false_eq_true, if_false, Nat.add_zero, e, Nat.add_mul, Nat.one_mul]
      exact Nat.add_comm _ _

theorem countP_choiceSeqs_succ (i : Nat) (p : List Nat → Bool) :
    (choiceSeqs (i + 1)).countP p =
      ((List.range (i + 2)).map
        (fun j => (choiceSeqs i).countP (fun js => p (j :: js)))).sum := by
  simp only [choiceSeqs, List.countP_eq_length_filter, List.filter_flatMap,
    List.length_flatMap, List.filter_map, List.length_map]
  congr 1
  apply List.map_congr_left
  intro j _
  simp only [Function.comp, List.length_map]
  rfl

theorem head_after_swap_count {α : Type} [DecidableEq α] (i : Nat)
    (ih : ∀ (l : List α) (x : α), l.Nodup → l.length = i + 1 → x ∈ l →
      (choiceSeqs i).countP (fun js => (shuffleWith js i l)[0]? = some x) = Nat.factorial i)
    (l : List α) (x : α) (hn : l.Nodup) (hl : l.length = i + 2) (hx : x ∈ l)
    (j : Nat) (hj : j < i + 2) :
    (choiceSeqs i).countP (fun js => (shuffleWith js i (swap l (i + 1) j))[0]? = some x) =
      if decide (l[j]? = some x) = true then 0 else Nat.factorial i := by
  have hperm := swap_perm l (i + 1) j
  have hlen : (swap l (i + 1) j).length = i + 2 := by rw [swap_length, hl]
  have hnd : (swap l (i + 1) j).Nodup := hperm.nodup_iff.mpr hn
  have hx' : x ∈ swap l (i + 1) j := hperm.mem_iff.mpr hx
  have hsplit := List.take_append_drop (i + 1) (swap l (i + 1) j)
  have htl : ((swap l (i + 1) j).take (i + 1)).length = i + 1 := by
    rw [List.length_take, hlen]; omega
  have hlast : (swap l (i + 1) j)[i + 1]? = l[j]? :=
    swap_getElem? l (i + 1) j (by omega) (by omega)
  have hdrop : (swap l (i + 1) j).drop (i + 1) = [(swap l (i + 1) j)[i + 1]] := by
    rw [List.drop_eq_getElem_cons (by omega), List.drop_of_length_le (by omega)]
  have hcongr : (choiceSeqs i).countP
      (fun js => (shuffleWith js i (swap l (i + 1) j))[0]? = some x) =
      (choiceSeqs i).countP
        (fun js => (shuffleWith js i ((swap l (i + 1) j).take (i + 1)))[0]? = some x) := by
    apply List.countP_congr
    intro js hjs
    have e := shuffleWith_append i js _ ((swap l (i + 1) j).drop (i + 1)) hjs
      (by rw [htl]; omega)
    rw [hsplit] at e
    have hpos : 0 < (shuffleWith js i ((swap l (i + 1) j).take (i + 1))).length := by
      rw [(shuffleWith_perm _ _ _).length_eq, htl]; omega
    rw [e, List.getElem?_append_left hpos]
  rw [hcongr]
  rw [← hsplit, List.nodup_append] at hnd
  by_cases hxt : x ∈ (swap l (i + 1) j).take (i + 1)
  · have hne : ¬ l[j]? = some x := by
      intro h
      rw [← hlast, List.getElem?_eq_getElem (by omega)] at h
      have hxd : x ∈ (swap l (i + 1) j).drop (i + 1) := by
        rw [hdrop]
        simp only [Option.some.injEq] at h
        simp [h]
      exact hnd.2.2 hxt hxd
    simp only [hne, decide_False, Bool.false_eq_true, if_false]
    exact ih _ x hnd.1 htl hxt
  · have he : l[j]? = some x := by
      rw [← hsplit, List.mem_append] at hx'
      rcases hx' with h | h
      · exact absurd h hxt
      · rw [hdrop, List.mem_singleton] at h
        rw [← hlast, List.getElem?_eq_getElem (by omega), h]
    simp only [he, decide_True, if_true]
    rw [List.countP_eq_zero]
    intro js _
    simp only [decide_eq_true_eq]
    intro h
    have hm : x ∈ shuffleWith js i ((swap l (i + 1) j).take (i + 1)) :=
      List.getElem?_mem h
    exact hxt ((shuffleWith_perm _ _ _).mem_iff.mp hm)

/-- Over the choice sequences of the shuffle of a list of distinct elements,
each element ends up first for the same number of sequences. -/
theorem shuffleWith_head_count {α : Type} [DecidableEq α] (i : Nat) (l : List α) (x : α)
    (hn : l.Nodup) (hl : l.length = i + 1) (hx : x ∈ l) :
    (choiceSeqs i).countP (fun js => (shuffleWith js i l)[0]? = some x) = Nat.factorial i := by
  induction i generalizing l x with
  | zero =>
    match l, hl with
    | [y], _ =>
      have : x = y := by simpa using hx
      subst this
      simp [choiceSeqs, shuffleWith]
  | succ i ih =>
    rw [countP_choiceSeqs_succ]
    have hmap : (List.range (i + 2)).map
        (fun j => (choiceSeqs i).countP
          (fun js => decide ((shuffleWith (j :: js) (i + 1) l)[0]? = some x))) =
        (List.range (i + 2)).map
          (fun j => if decide (l[j]? = some x) = true then 0 else Nat.factorial i) := by
      apply List.map_congr_left
      intro j hj
      rw [List.mem_range] at hj
      simp only [shuffleWith]
      exact head_after_swap_count i ih l x hn hl hx j hj
    rw [hmap, sum_map_ite_zero, List.length_range]
    have hc := countP_getElem?_range l x
    rw [hl, List.count_eq_one_of_mem hn hx] at hc
    rw [hc, Nat.factorial_succ]
    rfl


/-! ## Tie-break of the vote -/

theorem markDead_empty (players : List Player) : markDead players "" = players := by
  unfold markDead
  conv_rhs => rw [← List.map_id players]
  apply List.map_congr_left
  intro p _
  simp [p.id.nonempty]

theorem processVotes_players (rnd : RandomSource) (room : Room) (t : String)
    (h : (voteCandidates rnd room.gameState.votes)[0]? = some t) :
    (processVotes rnd room).players =
      room.players.map (fun p => if p.id.val = t then { p with isAlive := false } else p) := by
  simp only [processVotes, h, killTarget_eq_markDead]
  by_cases ht : t = ""
  · subst ht
    simp only [ne_eq, not_true_eq_false, if_false]
    exact (markDead_empty room.players).symm
  · simp only [ne_eq, ht, not_false_eq_true, if_true]
    rfl

theorem voteCandidates_eq_shuffleWith (rnd : RandomSource) (votes : JsObj String)
    (h : 2 ≤ (tiedTargets votes).length) :
    (voteCandidates rnd votes)[0]? =
      votedWith (choicesOf rnd ((tiedTargets votes).length - 1) 0) votes := by
  have h1 : (maxVoted (tallyVotes votes)).2.length > 1 := h
  simp only [voteCandidates, votedWith, h1, if_true, shuffleArray, shuffleLoop_eq_shuffleWith]
  rfl

theorem votedWith_mem (js : List Nat) (votes : JsObj String)
    (h : 2 ≤ (tiedTargets votes).length) :
    ∃ t ∈ tiedTargets votes, votedWith js votes = some t := by
  have hp := shuffleWith_perm js ((tiedTargets votes).length - 1) (tiedTargets votes)
  have hl : 0 < (shuffleWith js ((tiedTargets votes).length - 1) (tiedTargets votes)).length := by
    rw [hp.length_eq]; omega
  refine ⟨_, ?_, List.getElem?_eq_getElem hl⟩
  exact hp.mem_iff.mp (List.getElem_mem hl)

theorem voteCandidates_perm (rnd : RandomSource) (votes : JsObj String) :
    (voteCandidates rnd votes).Perm (tiedTargets votes) := by
  unfold voteCandidates tiedTargets
  dsimp only
  split_ifs
  · exact shuffleArray_perm rnd _
  · exact List.Perm.refl _

theorem voteCandidates_counted (rnd : RandomSource) (votes : JsObj String) (t : String)
    (h : (voteCandidates rnd votes)[0]? = some t) : isTopTarget votes t := by
  rw [← mem_tiedTargets_iff, ← (voteCandidates_perm rnd votes).mem_iff]
  exact List.getElem?_mem h

/-- C4 (as amended): the targets that `processVotes` counts are those that are
not the name of a property of `Object.prototype` (every socket id is counted).
When `k ≥ 2` counted targets are tied at the maximum vote count of the counted
targets (`T` is the set of these targets), then for every outcome of the
random source the id that `processVotes` picks is one of the tied targets and
only the player with that id is marked dead; the pick is the one made by the
choice sequence that `shuffleArray` draws, every choice sequence of the
shuffle can be drawn, and each tied target is picked by the same number,
`(k - 1)!`, of the `k!` choice sequences. Whatever the random source returns,
an id that is picked is a counted target that holds the maximum among the
counted targets. -/
theorem processVotes_tie_uniform (room : Room) (T : Finset String)
    (hT : ∀ t, t ∈ T ↔ isTopTarget room.gameState.votes t) (hk : 2 ≤ T.card) :
    (∀ rnd : RandomSource, ∃ t ∈ T,
      (voteCandidates rnd room.gameState.votes)[0]? = some t ∧
      (processVotes rnd room).players =
        room.players.map
          (fun p => if p.id.val = t then { p with isAlive := false } else p)) ∧
    (∀ rnd : RandomSource,
      choicesOf rnd (T.card - 1) 0 ∈ choiceSeqs (T.card - 1) ∧
      (voteCandidates rnd room.gameState.votes)[0]? =
        votedWith (choicesOf rnd (T.card - 1) 0) room.gameState.votes) ∧
    (∀ js ∈ choiceSeqs (T.card - 1), ∃ rnd : RandomSource,
      choicesOf rnd (T.card - 1) 0 = js) ∧
    (∀ t ∈ T,
      (choiceSeqs (T.card - 1)).countP
          (fun js => votedWith js room.gameState.votes = some t) =
        Nat.factorial (T.card - 1)) ∧
    (∀ (rnd : RandomSource) (t : String),
      (voteCandidates rnd room.gameState.votes)[0]? = some t →
        isCounted t ∧ 0 < voteCount room.gameState.votes t ∧
        ∀ t', isCounted t' →
          voteCount room.gameState.votes t' ≤ voteCount room.gameState.votes t) := by
  have hnd := tiedTargets_nodup room.gameState.votes
  have hmem : ∀ t, t ∈ tiedTargets room.gameState.votes ↔ t ∈ T := fun t => by
    rw [mem_tiedTargets_iff, hT]
  have hTe : (tiedTargets room.gameState.votes).toFinset = T := by
    ext t
    rw [List.mem_toFinset, hmem]
  have hcard : T.card = (tiedTargets room.gameState.votes).length := by
    rw [← hTe, List.toFinset_card_of_nodup hnd]
  rw [hcard] at hk ⊢
  refine ⟨?_, ?_, ?_, ?_, ?_⟩
  · intro rnd
    obtain ⟨t, ht, hv⟩ := votedWith_mem
      (choicesOf rnd ((tiedTargets room.gameState.votes).length - 1) 0) _ hk
    have hv' := (voteCandidates_eq_shuffleWith rnd _ hk).trans hv
    exact ⟨t, (hmem t).mp ht, hv', processVotes_players rnd room t hv'⟩
  · intro rnd
    exact ⟨choicesOf_mem rnd _ 0, voteCandidates_eq_shuffleWith rnd _ hk⟩
  · intro js hjs
    exact ⟨sourceOf js _, choicesOf_sourceOf _ js hjs⟩
  · intro t ht
    exact shuffleWith_head_count _ _ t hnd (by omega) ((hmem t).mpr ht)
  · intro rnd t h
    exact voteCandidates_counted rnd _ t h

theorem tieVotes_voteCount (t : String) :
    voteCount tieVotesRoom.gameState.votes t = if t = "X" ∨ t = "Y" then 1 else 0 := by
  by_cases hX : t = "X"
  · subst hX
    decide
  · by_cases hY : t = "Y"
    · subst hY
      decide
    · have hX' : ¬ "X" = t := fun h => hX h.symm
      have hY' : ¬ "Y" = t := fun h => hY h.symm
      simp [voteCount, tieVotesRoom, initialGameState, List.countP_cons, hX, hY, hX', hY']

theorem tieVotes_top (t : String) :
    t ∈ tiePair ↔ isTopTarget tieVotesRoom.gameState.votes t := by
  unfold isTopTarget
  simp only [tieVotes_voteCount, tiePair, Finset.mem_insert, Finset.mem_singleton]
  constructor
  · intro h
    rw [if_pos h]
    refine ⟨?_, Nat.one_pos, fun t' _ => ?_⟩
    · rcases h with h | h <;> subst h <;> decide
    · split_ifs <;> omega
  · rintro ⟨_, h, _⟩
    by_contra hn
    rw [if_neg hn] at h
    exact Nat.lt_irrefl 0 h

/-- Witness of C4 (as amended): with the votes `A → X`, `B → Y` the two targets are tied;
each of the two choice sequences of the shuffle picks one of them, `X` and `Y`
once each, and with every draw equal to `0` exactly `Y` is marked dead. -/
theorem processVotes_tie_uniform_witness :
    (∀ t, t ∈ tiePair ↔ isTopTarget tieVotesRoom.gameState.votes t) ∧
    2 ≤ tiePair.card ∧
    (∀ t ∈ tiePair,
      (choiceSeqs (tiePair.card - 1)).countP
          (fun js => votedWith js tieVotesRoom.gameState.votes = some t) =
        Nat.factorial (tiePair.card - 1)) ∧
    (∃ t ∈ tiePair,
      (voteCandidates rndZero tieVotesRoom.gameState.votes)[0]? = some t ∧
      (processVotes rndZero tieVotesRoom).players =
        tieVotesRoom.players.map
          (fun p => if p.id.val = t then { p with isAlive := false } else p)) :=
  have h := processVotes_tie_uniform tieVotesRoom tiePair tieVotes_top (by decide)
  ⟨tieVotes_top, by decide, h.2.2.2.1, h.1 rndZero⟩


theorem inheritedVotes_voteCount (t : String) :
    voteCount inheritedVotesRoom.gameState.votes t ≤ 2 := by
  by_cases h1 : t = "toString"
  · subst h1
    decide
  by_cases h2 : t = "constructor"
  · subst h2
    decide
  by_cases h3 : t = "X"
  · subst h3
    decide
  have h1' : ¬ "toString" = t := fun h => h1 h.symm
  have h2' : ¬ "constructor" = t := fun h => h2 h.symm
  have h3' : ¬ "X" = t := fun h => h3 h.symm
  simp [voteCount, inheritedVotesRoom, initialGameState, List.countP_cons, h1', h2', h3']

/-- Counterexample to C4 as stated: with the votes `A, B → toString`,
`C, D → constructor`, `X → X` the two targets `toString` and `constructor` are
tied at the maximum vote count 2, and for every outcome of the random source
`processVotes` picks `X`, which has one vote, and marks the player `X` dead. -/
theorem processVotes_picks_fewer_votes :
    voteCount inheritedVotesRoom.gameState.votes "toString" = 2 ∧
    voteCount inheritedVotesRoom.gameState.votes "constructor" = 2 ∧
    (∀ t, voteCount inheritedVotesRoom.gameState.votes t ≤ 2) ∧
    voteCount inheritedVotesRoom.gameState.votes "X" = 1 ∧
    (∀ rnd : RandomSource,
      (voteCandidates rnd inheritedVotesRoom.gameState.votes)[0]? = some "X" ∧
      (processVotes rnd inheritedVotesRoom).players =
        inheritedVotesRoom.players.map
          (fun p => if p.id.val = "X" then { p with isAlive := false } else p)) := by
  refine ⟨by decide, by decide, inheritedVotes_voteCount, by decide, fun rnd => ?_⟩
  have hc : (voteCandidates rnd inheritedVotesRoom.gameState.votes)[0]? = some "X" := by
    have ht : (maxVoted (tallyVotes inheritedVotesRoom.gameState.votes)).2 = ["X"] := by
      decide
    simp [voteCandidates, ht]
  exact ⟨hc, processVotes_players rnd inheritedVotesRoom "X" hc⟩

/-! ## The `game_action` handler: frame lemmas -/

theorem checkGameOver_room (room : Room) :
    (checkGameOver room).1.players = room.players ∧
    (checkGameOver room).1.gameState = room.gameState ∧
    (checkGameOver room).1.isGameStarted = room.isGameStarted := by
  unfold checkGameOver
  simp only
  split_ifs <;> exact ⟨rfl, rfl, rfl⟩

/-- Either `game_action` returns at its entry guards and the room is untouched,
or the players and the game state it leaves are those of its `switch`. -/
theorem gameAction_room (rnd : RandomSource) (room : Room)
    (socketId actionType targetId : String) :
    (gameAction rnd room socketId actionType targetId = ⟨room, [], false⟩) ∨
    ∃ currentPlayer,
      room.isGameStarted = true ∧
      room.players.find? (fun p => p.id.val = socketId) = some currentPlayer ∧
      currentPlayer.isAlive = true ∧
      (gameAction rnd room socketId actionType targetId).room.players =
        (switchAction rnd room currentPlayer socketId actionType targetId).room.players ∧
      (gameAction rnd room socketId actionType targetId).room.gameState =
        (switchAction rnd room currentPlayer socketId actionType targetId).room.gameState ∧
      (gameAction rnd room socketId actionType targetId).threw =
        (switchAction rnd room currentPlayer socketId actionType targetId).threw := by
  unfold gameAction
  by_cases hs : room.isGameStarted = true
  · simp only [hs, Bool.not_true, Bool.false_eq_true, if_false]
    cases hf : room.players.find? (fun p => p.id.val = socketId) with
    | none => exact Or.inl rfl
    | some currentPlayer =>
      simp only
      by_cases ha : currentPlayer.isAlive = true
      · right
        refine ⟨currentPlayer, by simp, by simp, ha, ?_⟩
        simp only [ha, Bool.not_true, Bool.false_eq_true, if_false]
        by_cases ht : (switchAction rnd room currentPlayer socketId actionType targetId).threw
            = true
        · simp only [ht, if_true, and_self]
        · simp only [ht, if_false]
          have h := checkGameOver_room
            (switchAction rnd room currentPlayer socketId actionType targetId).room
          refine ⟨h.1, h.2.1, ?_⟩
          simp [ht]
      · left
        have ha' : currentPlayer.isAlive = false := by simpa using ha
        simp [ha']
  · left
    have hs' : room.isGameStarted = false := by simpa using hs
    simp [hs']


/-! ## The `switch` of `game_action`, one action type at a time -/

theorem switchAction_wolfKill (rnd : RandomSource) (room : Room) (currentPlayer : Player)
    (socketId targetId : String) :
    switchAction rnd room currentPlayer socketId "wolfKill" targetId =
      if currentPlayer.role = some Role.wolf ∧
          room.gameState.currentAction = some SubPhase.wolf then
        ⟨{ room with gameState := { room.gameState with
              wolfKilled := some targetId, currentAction := some SubPhase.seer } },
          "狼人选择击杀了" ++ getPlayerName room.players targetId, [], false⟩
      else ⟨room, "", [], false⟩ := by
  unfold switchAction
  rw [if_pos rfl]

theorem switchAction_seerCheck (rnd : RandomSource) (room : Room) (currentPlayer : Player)
    (socketId targetId : String) :
    switchAction rnd room currentPlayer socketId "seerCheck" targetId =
      if currentPlayer.role = some Role.seer ∧
          room.gameState.currentAction = some SubPhase.seer then
        match room.players.find? (fun p => p.id.val = targetId) with
        | none =>
          ⟨{ room with gameState := { room.gameState with seerChecked := some targetId } },
            "", [], true⟩
        | some targetPlayer =>
          ⟨{ room with gameState := { room.gameState with
                seerChecked := some targetId, currentAction := some SubPhase.witch } },
            "预言家查验了" ++ targetPlayer.name,
            [Notif.seer_check_result socketId targetPlayer.name
              (decide (targetPlayer.role = some Role.wolf))], false⟩
      else ⟨room, "", [], false⟩ := by
  unfold switchAction
  rw [if_neg (by decide), if_pos rfl]

theorem switchAction_witchHeal (rnd : RandomSource) (room : Room) (currentPlayer : Player)
    (socketId targetId : String) :
    switchAction rnd room currentPlayer socketId "witchHeal" targetId =
      if currentPlayer.role = some Role.witch ∧
          room.gameState.currentAction = some SubPhase.witch ∧
          room.gameState.witchHealUsed = false then
        ⟨{ room with gameState := { room.gameState with
              witchHealUsed := true, wolfKilled := none } },
          "女巫使用解药救了被狼人击杀的玩家", [], false⟩
      else ⟨room, "", [], false⟩ := by
  unfold switchAction
  rw [if_neg (by decide), if_neg (by decide), if_pos rfl]

theorem switchAction_witchPoison (rnd : RandomSource) (room : Room) (currentPlayer : Player)
    (socketId targetId : String) :
    switchAction rnd room currentPlayer socketId "witchPoison" targetId =
      if currentPlayer.role = some Role.witch ∧
          room.gameState.currentAction = some SubPhase.witch ∧
          room.gameState.witchPoisonUsed = false then
        match room.players.find? (fun p => p.id.val = targetId) with
        | some targetPlayer =>
          ⟨{ room with
              players := markDead room.players targetId
              gameState := { room.gameState with witchPoisonUsed := true } },
            "女巫使用毒药毒死了" ++ targetPlayer.name, [], false⟩
        | none =>
          ⟨{ room with gameState := { room.gameState with witchPoisonUsed := true } },
            "", [], false⟩
      else ⟨room, "", [], false⟩ := by
  unfold switchAction
  rw [if_neg (by decide), if_neg (by decide), if_neg (by decide), if_pos rfl]

theorem switchAction_guardProtect (rnd : RandomSource) (room : Room) (currentPlayer : Player)
    (socketId targetId : String) :
    switchAction rnd room currentPlayer socketId "guardProtect" targetId =
      if currentPlayer.role = some Role.guard ∧
          room.gameState.currentAction = some SubPhase.guard then
        ⟨endNight { room with gameState := { room.gameState with lastGuard := some targetId } },
          "守卫守护了" ++ getPlayerName room.players targetId, [], false⟩
      else ⟨room, "", [], false⟩ := by
  unfold switchAction
  rw [if_neg (by decide), if_neg (by decide), if_neg (by decide), if_neg (by decide),
    if_pos rfl]

theorem switchAction_vote (rnd : RandomSource) (room : Room) (currentPlayer : Player)
    (socketId targetId : String) :
    switchAction rnd room currentPlayer socketId "vote" targetId =
      if room.gameState.phase = Phase.vote then
        if (JsObj.keys (room.gameState.votes.set currentPlayer.id.val targetId)).length =
            (room.players.filter (fun p => p.isAlive)).length then
          ⟨processVotes rnd { room with gameState := { room.gameState with
              votes := room.gameState.votes.set currentPlayer.id.val targetId } },
            currentPlayer.name ++ "投票给了" ++ getPlayerName room.players targetId, [], false⟩
        else
          ⟨{ room with gameState := { room.gameState with
              votes := room.gameState.votes.set currentPlayer.id.val targetId } },
            currentPlayer.name ++ "投票给了" ++ getPlayerName room.players targetId, [], false⟩
      else ⟨room, "", [], false⟩ := by
  unfold switchAction
  rw [if_neg (by decide), if_neg (by decide), if_neg (by decide), if_neg (by decide),
    if_neg (by decide), if_pos rfl]

theorem switchAction_other (rnd : RandomSource) (room : Room) (currentPlayer : Player)
    (socketId actionType targetId : String)
    (h1 : actionType ≠ "wolfKill") (h2 : actionType ≠ "seerCheck")
    (h3 : actionType ≠ "witchHeal") (h4 : actionType ≠ "witchPoison")
    (h5 : actionType ≠ "guardProtect") (h6 : actionType ≠ "vote") :
    switchAction rnd room currentPlayer socketId actionType targetId = ⟨room, "", [], false⟩ := by
  unfold switchAction
  rw [if_neg h1, if_neg h2, if_neg h3, if_neg h4, if_neg h5, if_neg h6]


/-! ## Properties of one `game_action` event -/

theorem actionType_cases (P : String → Prop) (actionType : String)
    (h1 : P "wolfKill") (h2 : P "seerCheck") (h3 : P "witchHeal") (h4 : P "witchPoison")
    (h5 : P "guardProtect") (h6 : P "vote")
    (h7 : actionType ≠ "wolfKill" → actionType ≠ "seerCheck" → actionType ≠ "witchHeal" →
      actionType ≠ "witchPoison" → actionType ≠ "guardProtect" → actionType ≠ "vote" →
      P actionType) : P actionType := by
  by_cases c1 : actionType = "wolfKill"
  · exact c1 ▸ h1
  by_cases c2 : actionType = "seerCheck"
  · exact c2 ▸ h2
  by_cases c3 : actionType = "witchHeal"
  · exact c3 ▸ h3
  by_cases c4 : actionType = "witchPoison"
  · exact c4 ▸ h4
  by_cases c5 : actionType = "guardProtect"
  · exact c5 ▸ h5
  by_cases c6 : actionType = "vote"
  · exact c6 ▸ h6
  exact h7 c1 c2 c3 c4 c5 c6

theorem step_cases (room : Room) (e : Event) :
    step room e = room ∨
    ∃ currentPlayer,
      room.isGameStarted = true ∧
      room.players.find? (fun p => p.id.val = e.socketId) = some currentPlayer ∧
      currentPlayer.isAlive = true ∧
      (step room e).players =
        (switchAction e.rnd room currentPlayer e.socketId e.actionType e.targetId).room.players ∧
      (step room e).gameState =
        (switchAction e.rnd room currentPlayer e.socketId e.actionType
          e.targetId).room.gameState := by
  rcases gameAction_room e.rnd room e.socketId e.actionType e.targetId with h | ⟨p, h1, h2, h3, h4, h5, _⟩
  · left
    simp only [step, h]
  · exact Or.inr ⟨p, h1, h2, h3, h4, h5⟩

theorem endNight_gameState (room : Room) :
    (endNight room).gameState =
      { room.gameState with phase := Phase.day, currentAction := none } := rfl

theorem processVotes_gameState (rnd : RandomSource) (room : Room) :
    (processVotes rnd room).gameState =
      { room.gameState with
        phase := Phase.night
        dayCount := room.gameState.dayCount + 1
        currentAction := some SubPhase.wolf
        votes := [] } := rfl

theorem switchAction_potions_mono (rnd : RandomSource) (room : Room) (currentPlayer : Player)
    (socketId actionType targetId : String) :
    (room.gameState.witchHealUsed = true →
      (switchAction rnd room currentPlayer socketId actionType
        targetId).room.gameState.witchHealUsed = true) ∧
    (room.gameState.witchPoisonUsed = true →
      (switchAction rnd room currentPlayer socketId actionType
        targetId).room.gameState.witchPoisonUsed = true) := by
  refine actionType_cases
    (fun a => (room.gameState.witchHealUsed = true →
      (switchAction rnd room currentPlayer socketId a targetId).room.gameState.witchHealUsed
        = true) ∧
    (room.gameState.witchPoisonUsed = true →
      (switchAction rnd room currentPlayer socketId a targetId).room.gameState.witchPoisonUsed
        = true)) actionType ?_ ?_ ?_ ?_ ?_ ?_ ?_
  all_goals beta_reduce
  · rw [switchAction_wolfKill]
    split_ifs <;> exact ⟨id, id⟩
  · rw [switchAction_seerCheck]
    split_ifs
    · split <;> exact ⟨id, id⟩
    · exact ⟨id, id⟩
  · rw [switchAction_witchHeal]
    split_ifs
    · exact ⟨fun _ => rfl, id⟩
    · exact ⟨id, id⟩
  · rw [switchAction_witchPoison]
    split_ifs
    · split <;> exact ⟨id, fun _ => rfl⟩
    · exact ⟨id, id⟩
  · rw [switchAction_guardProtect]
    split_ifs
    · exact ⟨id, id⟩
    · exact ⟨id, id⟩
  · rw [switchAction_vote]
    split_ifs <;> exact ⟨id, id⟩
  · intro h1 h2 h3 h4 h5 h6
    rw [switchAction_other _ _ _ _ _ _ h1 h2 h3 h4 h5 h6]
    exact ⟨id, id⟩

theorem step_potions_mono (room : Room) (e : Event) :
    (room.gameState.witchHealUsed = true → (step room e).gameState.witchHealUsed = true) ∧
    (room.gameState.witchPoisonUsed = true →
      (step room e).gameState.witchPoisonUsed = true) := by
  rcases step_cases room e with h | ⟨p, _, _, _, _, hg⟩
  · rw [h]
    exact ⟨id, id⟩
  · rw [hg]
    exact switchAction_potions_mono _ _ _ _ _ _

theorem step_witchHeal_used (room : Room) (e : Event) (ha : e.actionType = "witchHeal")
    (hu : room.gameState.witchHealUsed = true) :
    (step room e).gameState = room.gameState ∧ (step room e).players = room.players := by
  rcases step_cases room e with h | ⟨p, _, _, _, hp, hg⟩
  · rw [h]
    exact ⟨rfl, rfl⟩
  · rw [hp, hg, ha, switchAction_witchHeal]
    have : ¬ (p.role = some Role.witch ∧
        room.gameState.currentAction = some SubPhase.witch ∧
        room.gameState.witchHealUsed = false) := by
      rintro ⟨_, _, h⟩
      rw [hu] at h
      cases h
    rw [if_neg this]
    exact ⟨rfl, rfl⟩

theorem step_witchPoison_used (room : Room) (e : Event) (ha : e.actionType = "witchPoison")
    (hu : room.gameState.witchPoisonUsed = true) :
    (step room e).gameState = room.gameState ∧ (step room e).players = room.players := by
  rcases step_cases room e with h | ⟨p, _, _, _, hp, hg⟩
  · rw [h]
    exact ⟨rfl, rfl⟩
  · rw [hp, hg, ha, switchAction_witchPoison]
    have : ¬ (p.role = some Role.witch ∧
        room.gameState.currentAction = some SubPhase.witch ∧
        room.gameState.witchPoisonUsed = false) := by
      rintro ⟨_, _, h⟩
      rw [hu] at h
      cases h
    rw [if_neg this]
    exact ⟨rfl, rfl⟩


/-! ## Night resolution -/

/-- C5: `endNight` marks the player whose id is `wolfKilled` dead when
`wolfKilled` is set and differs from `lastGuard`, marks nobody dead when
`wolfKilled` is unset or equals `lastGuard`, leaves every other player record
as it was, sets `phase` to `day` and keeps `dayCount`; and an accepted
`guardProtect` leaves the players and the game state of `endNight`, run on the
room in which `lastGuard` is the target. -/
theorem endNight_resolution (room : Room) :
    (∀ t, room.gameState.wolfKilled = some t →
      room.gameState.wolfKilled ≠ room.gameState.lastGuard →
      (endNight room).players =
        room.players.map
          (fun p => if p.id.val = t then { p with isAlive := false } else p)) ∧
    ((room.gameState.wolfKilled = none ∨
        room.gameState.wolfKilled = room.gameState.lastGuard) →
      (endNight room).players = room.players) ∧
    (endNight room).gameState.phase = Phase.day ∧
    (endNight room).gameState.dayCount = room.gameState.dayCount ∧
    (∀ (rnd : RandomSource) (socketId targetId : String) (guard : Player),
      room.isGameStarted = true →
      room.players.find? (fun p => p.id.val = socketId) = some guard →
      guard.isAlive = true → guard.role = some Role.guard →
      room.gameState.currentAction = some SubPhase.guard →
      (gameAction rnd room socketId "guardProtect" targetId).room.players =
        (endNight { room with gameState :=
          { room.gameState with lastGuard := some targetId } }).players ∧
      (gameAction rnd room socketId "guardProtect" targetId).room.gameState =
        (endNight { room with gameState :=
          { room.gameState with lastGuard := some targetId } }).gameState) := by
  refine ⟨?_, ?_, rfl, rfl, ?_⟩
  · intro t ht hne
    by_cases he : t = ""
    · subst he
      simp only [endNight, ht, truthy, ne_eq, not_true_eq_false, decide_False,
        Bool.false_eq_true, if_false]
      exact (markDead_empty room.players).symm
    · have htr : truthy room.gameState.wolfKilled = true := by
        simp [ht, truthy, he]
      simp only [endNight, htr, if_true, hne, ne_eq, not_false_eq_true]
      rw [ht]
      simp only [killTarget_eq_markDead]
      rfl
  · rintro (h | h)
    · simp [endNight, h, truthy]
    · simp [endNight, h]
  · intro rnd socketId targetId guard hs hf ha hr hc
    rcases gameAction_room rnd room socketId "guardProtect" targetId with
      h | ⟨p, _, hf', _, hp, hg, _⟩
    · have : (gameAction rnd room socketId "guardProtect" targetId).threw = false := by
        rw [h]
      exfalso
      unfold gameAction at h
      simp only [hs, hf, ha, Bool.not_true, Bool.false_eq_true, if_false,
        switchAction_guardProtect, hr, hc, and_self, if_true] at h
      have := congrArg HandlerResult.emitted h
      simp at this
    · rw [hf] at hf'
      cases hf'
      rw [hp, hg, switchAction_guardProtect, if_pos ⟨hr, hc⟩]
      exact ⟨rfl, rfl⟩

/-- Witness of C5: in the `guard` sub-phase with `wolfKilled = "vi"`, the guard
protects `"hu"`; the night resolves with exactly `"vi"` marked dead. -/
theorem endNight_resolution_witness :
    (gameAction rndZero guardStepRoom "gu" "guardProtect" "hu").room.players =
      guardStepRoom.players.map
        (fun p => if p.id.val = "vi" then { p with isAlive := false } else p) ∧
    (gameAction rndZero guardStepRoom "gu" "guardProtect" "hu").room.gameState.phase =
      Phase.day :=
  have h := endNight_resolution
    { guardStepRoom with gameState :=
        { guardStepRoom.gameState with lastGuard := some "hu" } }
  have g := (endNight_resolution guardStepRoom).2.2.2.2 rndZero "gu" "hu"
    (mkPlayer "gu" (by decide) Role.guard true) rfl (by decide) rfl rfl rfl
  ⟨g.1.trans (h.1 "vi" rfl (by decide)), g.2 ▸ h.2.2.1⟩


/-! ## The witch's potions -/

theorem flips_of_mono (l : List Bool)
    (h : List.Chain' (fun x y => x = true → y = true) l) :
    flips true false l = 0 ∧ flips false true l ≤ 1 ∧
      (l.head? = some true → flips false true l = 0) := by
  induction l with
  | nil => simp [flips]
  | cons x l ih =>
    cases l with
    | nil => simp [flips]
    | cons y l =>
      rw [List.chain'_cons] at h
      obtain ⟨h1, h2, h3⟩ := ih h.2
      cases x <;> cases y <;> simp_all [flips]

theorem trace_chain (f : Room → Bool) (R : Bool → Bool → Prop)
    (h : ∀ r e, R (f r) (f (step r e))) (room : Room) (events : List Event) :
    List.Chain' R ((trace room events).map f) := by
  induction events generalizing room with
  | nil => simp [trace]
  | cons e events ih =>
    have := ih (step room e)
    cases events with
    | nil =>
      simp only [trace, List.map_cons, List.map_nil, List.chain'_cons, List.chain'_singleton,
        and_true]
      exact h room e
    | cons e' events =>
      simp only [trace, List.map_cons, List.chain'_cons] at this ⊢
      exact ⟨h room e, this⟩

/-- C6: along every sequence of `game_action` events, from any room state (so
from the state a successful `start_game` leaves), `witchHealUsed` and
`witchPoisonUsed` each go from `false` to `true` at most once and never go
back to `false`; and in any state of the sequence where `witchHealUsed`
(`witchPoisonUsed`) is `true`, a `witchHeal` (`witchPoison`) event leaves the
game state and every player record, `isAlive` included, unchanged. -/
theorem witch_potions_once (room : Room) (events : List Event) :
    flips false true ((trace room events).map fun r => r.gameState.witchHealUsed) ≤ 1 ∧
    flips true false ((trace room events).map fun r => r.gameState.witchHealUsed) = 0 ∧
    flips false true ((trace room events).map fun r => r.gameState.witchPoisonUsed) ≤ 1 ∧
    flips true false ((trace room events).map fun r => r.gameState.witchPoisonUsed) = 0 ∧
    (∀ r ∈ trace room events, ∀ e : Event,
      r.gameState.witchHealUsed = true → e.actionType = "witchHeal" →
      (step r e).gameState = r.gameState ∧ (step r e).players = r.players) ∧
    (∀ r ∈ trace room events, ∀ e : Event,
      r.gameState.witchPoisonUsed = true → e.actionType = "witchPoison" →
      (step r e).gameState = r.gameState ∧ (step r e).players = r.players) := by
  have hh := flips_of_mono _ (trace_chain (fun r => r.gameState.witchHealUsed)
    (fun x y => x = true → y = true) (fun r e => (step_potions_mono r e).1) room events)
  have hp := flips_of_mono _ (trace_chain (fun r => r.gameState.witchPoisonUsed)
    (fun x y => x = true → y = true) (fun r e => (step_potions_mono r e).2) room events)
  exact ⟨hh.2.1, hh.1, hp.2.1, hp.1,
    fun r _ e hu ha => step_witchHeal_used r e ha hu,
    fun r _ e hu ha => step_witchPoison_used r e ha hu⟩

/-- Witness of C6: in the `witch` sub-phase the witch heals once; the state
after that heal has `witchHealUsed = true`, and a second `witchHeal` changes
neither the game state nor the players. -/
theorem witch_potions_once_witness :
    (step witchStepRoom (mkEvent "wi" "witchHeal" "vi")).gameState.witchHealUsed = true ∧
    (step (step witchStepRoom (mkEvent "wi" "witchHeal" "vi"))
        (mkEvent "wi" "witchHeal" "vi")).gameState =
      (step witchStepRoom (mkEvent "wi" "witchHeal" "vi")).gameState ∧
    (step (step witchStepRoom (mkEvent "wi" "witchHeal" "vi"))
        (mkEvent "wi" "witchHeal" "vi")).players =
      (step witchStepRoom (mkEvent "wi" "witchHeal" "vi")).players :=
  ⟨by decide,
    (witch_potions_once witchStepRoom
      [mkEvent "wi" "witchHeal" "vi", mkEvent "wi" "witchHeal" "vi"]).2.2.2.2.1
      (step witchStepRoom (mkEvent "wi" "witchHeal" "vi")) (by decide)
      (mkEvent "wi" "witchHeal" "vi") (by decide) rfl⟩


/-! ## Heal and night resolution -/

theorem isLiving_markDead (players : List Player) (t x : String) (hx : x ≠ t)
    (h : isLiving players t) : isLiving (markDead players x) t := by
  obtain ⟨⟨p, hp, hpt⟩, hall⟩ := h
  have hfix : ∀ q : Player, q.id.val = t →
      (if q.id.val = x then { q with isAlive := false } else q) = q := by
    intro q hq
    have : ¬ q.id.val = x := fun h' => hx (h'.symm.trans hq)
    rw [if_neg this]
  constructor
  · refine ⟨p, ?_, hpt⟩
    unfold markDead
    rw [List.mem_map]
    exact ⟨p, hp, hfix p hpt⟩
  · intro q hq hqt
    unfold markDead at hq
    rw [List.mem_map] at hq
    obtain ⟨q0, hq0, rfl⟩ := hq
    by_cases hc : q0.id.val = x
    · rw [if_pos hc] at hqt
      exact absurd (hc.symm.trans hqt) hx
    · rw [if_neg hc] at hqt ⊢
      exact hall q0 hq0 hqt

/-- In the `witch` sub-phase of a night with no wolf victim, an event that is
not a poisoning of `t` keeps the sub-phase, the absence of a victim and the
life of `t`. -/
theorem step_witch_subphase (room : Room) (e : Event) (t : String)
    (hne : ¬ (e.actionType = "witchPoison" ∧ e.targetId = t))
    (hp : room.gameState.phase = Phase.night)
    (hc : room.gameState.currentAction = some SubPhase.witch)
    (hw : room.gameState.wolfKilled = none)
    (hl : isLiving room.players t) :
    (step room e).gameState.phase = Phase.night ∧
    (step room e).gameState.currentAction = some SubPhase.witch ∧
    (step room e).gameState.wolfKilled = none ∧
    isLiving (step room e).players t := by
  rcases step_cases room e with h | ⟨p, _, _, _, hpl, hgs⟩
  · rw [h]
    exact ⟨hp, hc, hw, hl⟩
  · rw [hpl, hgs]
    revert hne
    refine actionType_cases
      (fun a => ¬ (a = "witchPoison" ∧ e.targetId = t) →
        (switchAction e.rnd room p e.socketId a e.targetId).room.gameState.phase
          = Phase.night ∧
        (switchAction e.rnd room p e.socketId a e.targetId).room.gameState.currentAction
          = some SubPhase.witch ∧
        (switchAction e.rnd room p e.socketId a e.targetId).room.gameState.wolfKilled
          = none ∧
        isLiving (switchAction e.rnd room p e.socketId a e.targetId).room.players t)
      e.actionType ?_ ?_ ?_ ?_ ?_ ?_ ?_
    all_goals beta_reduce
    · intro _
      rw [switchAction_wolfKill, if_neg (by rw [hc]; rintro ⟨_, h⟩; cases h)]
      exact ⟨hp, hc, hw, hl⟩
    · intro _
      rw [switchAction_seerCheck, if_neg (by rw [hc]; rintro ⟨_, h⟩; cases h)]
      exact ⟨hp, hc, hw, hl⟩
    · intro _
      rw [switchAction_witchHeal]
      split_ifs
      · exact ⟨hp, hc, rfl, hl⟩
      · exact ⟨hp, hc, hw, hl⟩
    · intro hne
      rw [switchAction_witchPoison]
      split_ifs
      · split
        · refine ⟨hp, hc, hw, ?_⟩
          exact isLiving_markDead _ _ _ (fun h => hne ⟨rfl, h⟩) hl
        · exact ⟨hp, hc, hw, hl⟩
      · exact ⟨hp, hc, hw, hl⟩
    · intro _
      rw [switchAction_guardProtect, if_neg (by rw [hc]; rintro ⟨_, h⟩; cases h)]
      exact ⟨hp, hc, hw, hl⟩
    · intro _
      rw [switchAction_vote, if_neg (by rw [hp]; intro h; cases h)]
      exact ⟨hp, hc, hw, hl⟩
    · intro h1 h2 h3 h4 h5 h6 _
      rw [switchAction_other _ _ _ _ _ _ h1 h2 h3 h4 h5 h6]
      exact ⟨hp, hc, hw, hl⟩

theorem run_witch_subphase (events : List Event) (room : Room) (t : String)
    (hne : ∀ e ∈ events, ¬ (e.actionType = "witchPoison" ∧ e.targetId = t))
    (hp : room.gameState.phase = Phase.night)
    (hc : room.gameState.currentAction = some SubPhase.witch)
    (hw : room.gameState.wolfKilled = none)
    (hl : isLiving room.players t) :
    (run room events).gameState.wolfKilled = none ∧ isLiving (run room events).players t := by
  induction events generalizing room with
  | nil => exact ⟨hw, hl⟩
  | cons e events ih =>
    obtain ⟨h1, h2, h3, h4⟩ :=
      step_witch_subphase room e t (hne e (List.mem_cons_self _ _)) hp hc hw hl
    exact ih (step room e) (fun e' he' => hne e' (List.mem_cons_of_mem _ he')) h1 h2 h3 h4

/-- C7: in the `witch` sub-phase of a night with `witchHealUsed = false`, when
the living witch sends `witchHeal` while `wolfKilled` names a living player
`t`, then `wolfKilled` becomes `null`, `witchHealUsed` becomes `true`, the
sub-phase stays `witch` and no player record changes; and after any further
`game_action` events, none of them a `witchPoison` aimed at `t`, resolving the
night with `endNight` leaves `t` alive. -/
theorem witchHeal_saves_victim (rnd : RandomSource) (room : Room)
    (socketId targetId t : String) (witch : Player)
    (hs : room.isGameStarted = true)
    (hf : room.players.find? (fun p => p.id.val = socketId) = some witch)
    (ha : witch.isAlive = true) (hr : witch.role = some Role.witch)
    (hp : room.gameState.phase = Phase.night)
    (hc : room.gameState.currentAction = some SubPhase.witch)
    (hu : room.gameState.witchHealUsed = false)
    (_hw : room.gameState.wolfKilled = some t)
    (hl : isLiving room.players t) :
    (gameAction rnd room socketId "witchHeal" targetId).room.gameState.wolfKilled = none ∧
    (gameAction rnd room socketId "witchHeal" targetId).room.gameState.witchHealUsed = true ∧
    (gameAction rnd room socketId "witchHeal" targetId).room.gameState.currentAction =
      some SubPhase.witch ∧
    (gameAction rnd room socketId "witchHeal" targetId).room.players = room.players ∧
    ∀ events : List Event,
      (∀ e ∈ events, ¬ (e.actionType = "witchPoison" ∧ e.targetId = t)) →
      isLiving
        (endNight (run (gameAction rnd room socketId "witchHeal" targetId).room
          events)).players t := by
  have hsw : switchAction rnd room witch socketId "witchHeal" targetId =
      ⟨{ room with gameState := { room.gameState with
            witchHealUsed := true, wolfKilled := none } },
        "女巫使用解药救了被狼人击杀的玩家", [], false⟩ := by
    rw [switchAction_witchHeal, if_pos ⟨hr, hc, hu⟩]
  have hroom : (gameAction rnd room socketId "witchHeal" targetId).room.players =
        room.players ∧
      (gameAction rnd room socketId "witchHeal" targetId).room.gameState =
        { room.gameState with witchHealUsed := true, wolfKilled := none } := by
    rcases gameAction_room rnd room socketId "witchHeal" targetId with
      h | ⟨p, _, hf', _, hpl, hgs, _⟩
    · exfalso
      unfold gameAction at h
      simp only [hs, hf, ha, Bool.not_true, Bool.false_eq_true, if_false, hsw] at h
      have := congrArg HandlerResult.emitted h
      simp at this
    · rw [hf] at hf'
      cases hf'
      rw [hpl, hgs, hsw]
      exact ⟨rfl, rfl⟩
  obtain ⟨hpl, hgs⟩ := hroom
  refine ⟨by rw [hgs], by rw [hgs], by rw [hgs]; exact hc, hpl, ?_⟩
  intro events hne
  have h := run_witch_subphase events
    (gameAction rnd room socketId "witchHeal" targetId).room t hne
    (by rw [hgs]; exact hp) (by rw [hgs]; exact hc) (by rw [hgs]) (by rw [hpl]; exact hl)
  have he : (endNight (run (gameAction rnd room socketId "witchHeal" targetId).room
      events)).players =
      (run (gameAction rnd room socketId "witchHeal" targetId).room events).players := by
    simp [endNight, h.1, truthy]
  rw [he]
  exact h.2


/-- Witness of C7: the wolves chose `vi`, the witch heals, then poisons the
wolf `w1`; resolving the night leaves `vi` alive. -/
theorem witchHeal_saves_victim_witness :
    (gameAction rndZero witchStepRoom "wi" "witchHeal" "vi").room.gameState.wolfKilled
      = none ∧
    isLiving
      (endNight (run (gameAction rndZero witchStepRoom "wi" "witchHeal" "vi").room
        [mkEvent "wi" "witchPoison" "w1", mkEvent "w2" "wolfKill" "vi"])).players "vi" :=
  have h := witchHeal_saves_victim rndZero witchStepRoom "wi" "vi" "vi"
    (mkPlayer "wi" (by decide) Role.witch true) rfl (by decide) rfl rfl rfl rfl rfl rfl
    (by decide)
  ⟨h.1, h.2.2.2.2 [mkEvent "wi" "witchPoison" "w1", mkEvent "w2" "wolfKill" "vi"]
    (by decide)⟩

/-! ## Order of the night sub-phases -/

theorem startedBy_gameState (rnd : RandomSource) (lobby : Room) (socketId : String)
    (room : Room) (h : startedBy rnd lobby socketId room) :
    room.gameState = initialGameState ∧ room.isGameStarted = true := by
  unfold startedBy startGame at h
  split at h
  · simp at h
  · dsimp only at h
    split_ifs at h <;> try (simp at h; done)
    have hroom := congrArg HandlerResult.room h
    simp only at hroom
    rw [← hroom]
    exact ⟨rfl, rfl⟩

theorem startedSix_startedBy : startedBy rndHigh lobbySix "p1" startedSix := by
  decide

/-- While the phase is not `vote` and the sub-phase is not `guard`, one event
keeps the phase, and keeps the sub-phase or moves it from `wolf` to `seer` or
from `seer` to `witch`. -/
theorem step_subphase (room : Room) (e : Event)
    (hv : room.gameState.phase ≠ Phase.vote)
    (hg : room.gameState.currentAction ≠ some SubPhase.guard) :
    (step room e).gameState.phase = room.gameState.phase ∧
    ((step room e).gameState.currentAction = room.gameState.currentAction ∨
      (room.gameState.currentAction = some SubPhase.wolf ∧
        (step room e).gameState.currentAction = some SubPhase.seer) ∨
      (room.gameState.currentAction = some SubPhase.seer ∧
        (step room e).gameState.currentAction = some SubPhase.witch)) := by
  rcases step_cases room e with h | ⟨p, _, _, _, _, hgs⟩
  · rw [h]
    exact ⟨rfl, Or.inl rfl⟩
  · rw [hgs]
    refine actionType_cases
      (fun a =>
        (switchAction e.rnd room p e.socketId a e.targetId).room.gameState.phase
          = room.gameState.phase ∧
        ((switchAction e.rnd room p e.socketId a e.targetId).room.gameState.currentAction
            = room.gameState.currentAction ∨
          (room.gameState.currentAction = some SubPhase.wolf ∧
            (switchAction e.rnd room p e.socketId a e.targetId).room.gameState.currentAction
              = some SubPhase.seer) ∨
          (room.gameState.currentAction = some SubPhase.seer ∧
            (switchAction e.rnd room p e.socketId a e.targetId).room.gameState.currentAction
              = some SubPhase.witch)))
      e.actionType ?_ ?_ ?_ ?_ ?_ ?_ ?_
    all_goals beta_reduce
    · rw [switchAction_wolfKill]
      split_ifs with h
      · exact ⟨rfl, Or.inr (Or.inl ⟨h.2, rfl⟩)⟩
      · exact ⟨rfl, Or.inl rfl⟩
    · rw [switchAction_seerCheck]
      split_ifs with h
      · split
        · exact ⟨rfl, Or.inl rfl⟩
        · exact ⟨rfl, Or.inr (Or.inr ⟨h.2, rfl⟩)⟩
      · exact ⟨rfl, Or.inl rfl⟩
    · rw [switchAction_witchHeal]
      split_ifs <;> exact ⟨rfl, Or.inl rfl⟩
    · rw [switchAction_witchPoison]
      split_ifs
      · split <;> exact ⟨rfl, Or.inl rfl⟩
      · exact ⟨rfl, Or.inl rfl⟩
    · rw [switchAction_guardProtect, if_neg (fun h => hg h.2)]
      exact ⟨rfl, Or.inl rfl⟩
    · rw [switchAction_vote, if_neg hv]
      exact ⟨rfl, Or.inl rfl⟩
    · intro h1 h2 h3 h4 h5 h6
      rw [switchAction_other _ _ _ _ _ _ h1 h2 h3 h4 h5 h6]
      exact ⟨rfl, Or.inl rfl⟩

theorem trace_eq_cons (room : Room) (events : List Event) :
    trace room events = room :: (trace room events).tail := by
  cases events <;> rfl

theorem observed_cons_trace (room : Room) (e : Event) (events : List Event) :
    observed ((trace room (e :: events)).map fun r => r.gameState.currentAction) =
      if room.gameState.currentAction = (step room e).gameState.currentAction then
        observed ((trace (step room e) events).map fun r => r.gameState.currentAction)
      else
        room.gameState.currentAction ::
          observed ((trace (step room e) events).map fun r => r.gameState.currentAction) := by
  simp only [trace]
  rw [trace_eq_cons (step room e) events]
  simp only [List.map_cons, observed]

theorem observed_trace (events : List Event) (room : Room)
    (hn : room.gameState.phase = Phase.night) :
    (room.gameState.currentAction = some SubPhase.witch →
      observed ((trace room events).map fun r => r.gameState.currentAction) =
        [some SubPhase.witch]) ∧
    (room.gameState.currentAction = some SubPhase.seer →
      observed ((trace room events).map fun r => r.gameState.currentAction) =
          [some SubPhase.seer] ∨
        observed ((trace room events).map fun r => r.gameState.currentAction) =
          [some SubPhase.seer, some SubPhase.witch]) ∧
    (room.gameState.currentAction = some SubPhase.wolf →
      observed ((trace room events).map fun r => r.gameState.currentAction) =
          [some SubPhase.wolf] ∨
        observed ((trace room events).map fun r => r.gameState.currentAction) =
          [some SubPhase.wolf, some SubPhase.seer] ∨
        observed ((trace room events).map fun r => r.gameState.currentAction) =
          [some SubPhase.wolf, some SubPhase.seer, some SubPhase.witch]) := by
  induction events generalizing room with
  | nil =>
    simp only [trace, List.map_cons, List.map_nil, observed]
    refine ⟨fun h => by rw [h], fun h => Or.inl (by rw [h]), fun h => Or.inl (by rw [h])⟩
  | cons e events ih =>
    have hv : room.gameState.phase ≠ Phase.vote := by rw [hn]; decide
    have ihs := ih (step room e)
    rw [observed_cons_trace]
    refine ⟨?_, ?_, ?_⟩
    · intro hc
      obtain ⟨hp, hs⟩ := step_subphase room e hv (by rw [hc]; decide)
      have hc' : (step room e).gameState.currentAction = some SubPhase.witch := by
        rcases hs with h | ⟨h, _⟩ | ⟨h, _⟩
        · rw [h, hc]
        · rw [hc] at h; cases h
        · rw [hc] at h; cases h
      rw [if_pos (by rw [hc, hc'])]
      exact (ihs (by rw [hp, hn])).1 hc'
    · intro hc
      obtain ⟨hp, hs⟩ := step_subphase room e hv (by rw [hc]; decide)
      have hn' : (step room e).gameState.phase = Phase.night := by rw [hp, hn]
      rcases hs with h | ⟨h, _⟩ | ⟨_, h⟩
      · rw [if_pos h.symm]
        exact (ihs hn').2.1 (by rw [h, hc])
      · rw [hc] at h; cases h
      · rw [if_neg (by rw [hc, h]; decide), hc, (ihs hn').1 h]
        exact Or.inr rfl
    · intro hc
      obtain ⟨hp, hs⟩ := step_subphase room e hv (by rw [hc]; decide)
      have hn' : (step room e).gameState.phase = Phase.night := by rw [hp, hn]
      rcases hs with h | ⟨_, h⟩ | ⟨h, _⟩
      · rw [if_pos h.symm]
        exact (ihs hn').2.2 (by rw [h, hc])
      · rw [if_neg (by rw [hc, h]; decide), hc]
        rcases (ihs hn').2.1 h with h' | h'
        · rw [h']
          exact Or.inr (Or.inl rfl)
        · rw [h']
          exact Or.inr (Or.inr rfl)
      · rw [hc] at h; cases h

theorem trace_night (events : List Event) (room : Room)
    (hn : room.gameState.phase = Phase.night)
    (hg : room.gameState.currentAction ≠ some SubPhase.guard) :
    ∀ r ∈ trace room events,
      r.gameState.phase = Phase.night ∧ r.gameState.currentAction ≠ some SubPhase.guard := by
  induction events generalizing room with
  | nil =>
    intro r hr
    simp only [trace, List.mem_singleton] at hr
    rw [hr]
    exact ⟨hn, hg⟩
  | cons e events ih =>
    intro r hr
    simp only [trace, List.mem_cons] at hr
    rcases hr with hr | hr
    · rw [hr]
      exact ⟨hn, hg⟩
    · obtain ⟨hp, hs⟩ := step_subphase room e (by rw [hn]; decide) hg
      refine ih (step room e) (by rw [hp, hn]) ?_ r hr
      rcases hs with h | ⟨_, h⟩ | ⟨_, h⟩
      · rw [h]; exact hg
      · rw [h]; decide
      · rw [h]; decide

/-- C8: for every sequence of `game_action` events applied to a freshly started
game, every state seen is in phase `night` (the whole sequence lies within one
night) and the distinct sub-phase values observed, in order, form a prefix of
`[wolf, seer, witch, guard]`: the sub-phase never moves backward and never
skips a step. -/
theorem subphase_forward_only (rnd : RandomSource) (lobby : Room) (socketId : String)
    (room : Room) (hstart : startedBy rnd lobby socketId room) (events : List Event) :
    (∀ r ∈ trace room events, r.gameState.phase = Phase.night) ∧
    observed ((trace room events).map fun r => r.gameState.currentAction) <+: nightOrder := by
  obtain ⟨hgs, _⟩ := startedBy_gameState rnd lobby socketId room hstart
  have hn : room.gameState.phase = Phase.night := by rw [hgs]; rfl
  have hc : room.gameState.currentAction = some SubPhase.wolf := by rw [hgs]; rfl
  refine ⟨fun r hr => (trace_night events room hn (by rw [hc]; decide) r hr).1, ?_⟩
  rcases (observed_trace events room hn).2.2 hc with h | h | h <;> rw [h] <;> decide

/-- Witness of C8: after `start_game` on a six-player room, a wolf's kill and
the seer's check are observed as `wolf, seer, witch`, all in phase `night`. -/
theorem subphase_forward_only_witness :
    startedBy rndHigh lobbySix "p1" startedSix ∧
    observed ((trace startedSix
        [mkEvent "p1" "wolfKill" "p6", mkEvent "p4" "witchHeal" "p6",
         mkEvent "p3" "seerCheck" "p1"]).map fun r => r.gameState.currentAction) =
      [some SubPhase.wolf, some SubPhase.seer, some SubPhase.witch] ∧
    observed ((trace startedSix
        [mkEvent "p1" "wolfKill" "p6", mkEvent "p4" "witchHeal" "p6",
         mkEvent "p3" "seerCheck" "p1"]).map fun r => r.gameState.currentAction)
      <+: nightOrder :=
  ⟨startedSix_startedBy, by decide,
    (subphase_forward_only rndHigh lobbySix "p1" startedSix startedSix_startedBy
      [mkEvent "p1" "wolfKill" "p6", mkEvent "p4" "witchHeal" "p6",
       mkEvent "p3" "seerCheck" "p1"]).2⟩


/-! ## The phase cycle -/

theorem step_guardProtect_rejected (room : Room) (e : Event)
    (ha : e.actionType = "guardProtect")
    (hg : room.gameState.currentAction ≠ some SubPhase.guard)
    (hover : (checkGameOver room).1 = room) : step room e = room := by
  unfold step gameAction
  by_cases hs : room.isGameStarted = true
  · simp only [hs, Bool.not_true, Bool.false_eq_true, if_false]
    cases hf : room.players.find? (fun p => p.id.val = e.socketId) with
    | none => rfl
    | some p =>
      simp only
      by_cases hal : p.isAlive = true
      · have hsw : switchAction e.rnd room p e.socketId "guardProtect" e.targetId =
            ⟨room, "", [], false⟩ := by
          rw [switchAction_guardProtect, if_neg (fun h => hg h.2)]
        simp only [hal, Bool.not_true, Bool.false_eq_true, if_false, ha, hsw]
        exact hover
      · have hal' : p.isAlive = false := by simpa using hal
        simp [hal']
  · have hs' : room.isGameStarted = false := by simpa using hs
    simp [hs']

theorem run_append (room : Room) (es es' : List Event) :
    run room (es ++ es') = run (run room es) es' := by
  simp only [run, List.foldl_append]

theorem scenarioNight_run (g : String) :
    run startedSix (scenarioNight g) =
      run startedSix [mkEvent "p1" "wolfKill" "p6", mkEvent "p3" "seerCheck" "p1"] := by
  have h : scenarioNight g =
      [mkEvent "p1" "wolfKill" "p6", mkEvent "p3" "seerCheck" "p1"]
        ++ [mkEvent g "guardProtect" "p5"] := rfl
  rw [h, run_append]
  simp only [run, List.foldl_cons, List.foldl_nil]
  exact step_guardProtect_rejected _ _ rfl (by decide) (by decide)

theorem run_phase_stuck (events : List Event) (room : Room)
    (hv : room.gameState.phase ≠ Phase.vote)
    (hg : room.gameState.currentAction ≠ some SubPhase.guard) :
    (run room events).gameState.phase = room.gameState.phase ∧
    (run room events).gameState.currentAction ≠ some SubPhase.guard := by
  induction events generalizing room with
  | nil => exact ⟨rfl, hg⟩
  | cons e events ih =>
    obtain ⟨hp, hs⟩ := step_subphase room e hv hg
    have hg' : (step room e).gameState.currentAction ≠ some SubPhase.guard := by
      rcases hs with h | ⟨_, h⟩ | ⟨_, h⟩
      · rw [h]; exact hg
      · rw [h]; decide
      · rw [h]; decide
    have := ih (step room e) (by rw [hp]; exact hv) hg'
    simp only [run, List.foldl_cons] at this ⊢
    exact ⟨this.1.trans hp, this.2⟩

/-- C9, on the code: in the six-player game with roles `[wolf, wolf, seer,
witch, hunter, villager]`, after `wolfKill` on the villager, `seerCheck` on a
wolf (the seer is sent `isWolf = true`) and a `guardProtect` for the hunter
sent by any connection `g`, the phase is still `night`, the sub-phase is
`witch` and the villager is alive; after every player then votes for the wolf
`p2`, `dayCount` is still `1` and `p2` is alive. -/
theorem scenario_six_players_stuck (g : String) :
    startedSix.players.map (fun p => p.role) =
      [some Role.wolf, some Role.wolf, some Role.seer, some Role.witch, some Role.hunter,
       some Role.villager] ∧
    (gameAction rndZero (run startedSix [mkEvent "p1" "wolfKill" "p6"]) "p3" "seerCheck"
        "p1").emitted.head? = some (Notif.seer_check_result "p3" "p1" true) ∧
    (run startedSix (scenarioNight g)).gameState.phase = Phase.night ∧
    (run startedSix (scenarioNight g)).gameState.currentAction = some SubPhase.witch ∧
    (run startedSix (scenarioNight g)).gameState.dayCount = 1 ∧
    isLiving (run startedSix (scenarioNight g)).players "p6" ∧
    (run startedSix (scenarioNight g ++ scenarioVotes)).gameState.phase = Phase.night ∧
    (run startedSix (scenarioNight g ++ scenarioVotes)).gameState.dayCount = 1 ∧
    isLiving (run startedSix (scenarioNight g ++ scenarioVotes)).players "p2" := by
  rw [run_append, scenarioNight_run]
  refine ⟨by decide, by decide, by decide, by decide, by decide, by decide, by decide,
    by decide, by decide⟩

/-- C10, on the code: from any state whose phase is not `vote` and whose
sub-phase is not `guard` (every state a `start_game` produces, and every state
in phase `day`), no sequence of `game_action` events changes the phase or
reaches the sub-phase `guard`: a started night never reaches `day`, and `day`
never reaches `vote`. -/
theorem phase_never_advances (room : Room) (events : List Event)
    (hv : room.gameState.phase ≠ Phase.vote)
    (hg : room.gameState.currentAction ≠ some SubPhase.guard) :
    (run room events).gameState.phase = room.gameState.phase ∧
    (run room events).gameState.currentAction ≠ some SubPhase.guard :=
  run_phase_stuck events room hv hg

/-- Witness of C10, on the code: the freshly started six-player game is still
in phase `night` after the scenario's night and votes, and a room in phase
`day` is still in phase `day` after every player has sent a vote. -/
theorem phase_never_advances_witness :
    (run startedSix (scenarioNight "p5" ++ scenarioVotes)).gameState.phase = Phase.night ∧
    dayRoom.gameState.phase = Phase.day ∧
    (run dayRoom scenarioVotes).gameState.phase = Phase.day :=
  ⟨(phase_never_advances startedSix (scenarioNight "p5" ++ scenarioVotes)
      (by decide) (by decide)).1,
    by decide,
    (phase_never_advances dayRoom scenarioVotes (by decide) (by decide)).1⟩


/-! ## The `game_action` handler: entry guards and tail -/

theorem gameAction_accepted (rnd : RandomSource) (room : Room)
    (socketId actionType targetId : String) (currentPlayer : Player)
    (hs : room.isGameStarted = true)
    (hf : room.players.find? (fun p => p.id.val = socketId) = some currentPlayer)
    (ha : currentPlayer.isAlive = true) :
    gameAction rnd room socketId actionType targetId =
      if (switchAction rnd room currentPlayer socketId actionType targetId).threw = true then
        ⟨(switchAction rnd room currentPlayer socketId actionType targetId).room,
          (switchAction rnd room currentPlayer socketId actionType targetId).emitted, true⟩
      else
        ⟨(checkGameOver
            (switchAction rnd room currentPlayer socketId actionType targetId).room).1,
          (switchAction rnd room currentPlayer socketId actionType targetId).emitted
            ++ (if (switchAction rnd room currentPlayer socketId actionType targetId).message
                  ≠ "" then
                [Notif.game_message
                  (switchAction rnd room currentPlayer socketId actionType targetId).message]
                else [])
            ++ [Notif.game_state_updated
                (switchAction rnd room currentPlayer socketId actionType targetId).room]
            ++ (checkGameOver
                (switchAction rnd room currentPlayer socketId actionType targetId).room).2.1,
          false⟩ := by
  unfold gameAction
  simp only [hs, hf, ha, Bool.not_true, Bool.false_eq_true, if_false]

theorem gameAction_guarded (rnd : RandomSource) (room : Room)
    (socketId actionType targetId : String)
    (h : room.isGameStarted = false ∨
      room.players.find? (fun p => p.id.val = socketId) = none ∨
      ∃ p, room.players.find? (fun p => p.id.val = socketId) = some p ∧ p.isAlive = false) :
    gameAction rnd room socketId actionType targetId = ⟨room, [], false⟩ := by
  unfold gameAction
  rcases h with h | h | ⟨p, h, hp⟩
  · simp [h]
  · by_cases hs : room.isGameStarted = true
    · simp [hs, h]
    · have hs' : room.isGameStarted = false := by simpa using hs
      simp [hs']
  · by_cases hs : room.isGameStarted = true
    · simp [hs, h, hp]
    · have hs' : room.isGameStarted = false := by simpa using hs
      simp [hs']

theorem checkGameOver_no_message (room : Room) (m : String) :
    Notif.game_message m ∉ (checkGameOver room).2.1 := by
  unfold checkGameOver
  simp only
  split_ifs <;> simp

/-- A `game_action` whose `switch` leaves the room as it is and sets no
message keeps the players and the game state, does not throw, and emits no
`game_message`. -/
theorem gameAction_of_switch_noop (rnd : RandomSource) (room : Room)
    (socketId actionType targetId : String)
    (h : ∀ p, room.players.find? (fun p => p.id.val = socketId) = some p →
      switchAction rnd room p socketId actionType targetId = ⟨room, "", [], false⟩) :
    (gameAction rnd room socketId actionType targetId).room.gameState = room.gameState ∧
    (gameAction rnd room socketId actionType targetId).room.players = room.players ∧
    (gameAction rnd room socketId actionType targetId).threw = false ∧
    ∀ m, Notif.game_message m ∉
      (gameAction rnd room socketId actionType targetId).emitted := by
  by_cases hs : room.isGameStarted = true
  · cases hf : room.players.find? (fun p => p.id.val = socketId) with
    | none =>
      rw [gameAction_guarded _ _ _ _ _ (Or.inr (Or.inl hf))]
      exact ⟨rfl, rfl, rfl, fun m => List.not_mem_nil _⟩
    | some p =>
      by_cases ha : p.isAlive = true
      · rw [gameAction_accepted rnd room socketId actionType targetId p hs hf ha, h p hf]
        have hc := checkGameOver_room room
        refine ⟨hc.2.1, hc.1, rfl, fun m hm => ?_⟩
        simp only [Bool.false_eq_true, if_false, ne_eq, not_true_eq_false, List.nil_append,
          List.append_nil, List.singleton_append, List.mem_cons] at hm
        rcases hm with hm | hm
        · cases hm
        · exact checkGameOver_no_message room m hm
      · have ha' : p.isAlive = false := by simpa using ha
        rw [gameAction_guarded _ _ _ _ _ (Or.inr (Or.inr ⟨p, hf, ha'⟩))]
        exact ⟨rfl, rfl, rfl, fun m => List.not_mem_nil _⟩
  · have hs' : room.isGameStarted = false := by simpa using hs
    rw [gameAction_guarded _ _ _ _ _ (Or.inl hs')]
    exact ⟨rfl, rfl, rfl, fun m => List.not_mem_nil _⟩


/-! ## Rejected actions -/

/-- C12: a night action (`wolfKill`, `seerCheck`, `witchHeal`, `witchPoison`,
`guardProtect`) sent by a player whose role is not the role of the action, or
sent while the sub-phase is not the sub-phase of the action, and a `vote` sent
while the phase is not `vote`, leaves the game state and every player record
(role and `isAlive` included) unchanged, does not throw, and emits no
`game_message`. -/
theorem rejected_action_no_effect (rnd : RandomSource) (room : Room)
    (socketId actionType targetId : String)
    (h : (∃ role subPhase, nightActionSpec actionType = some (role, subPhase) ∧
            (room.gameState.currentAction ≠ some subPhase ∨
              ∀ p, room.players.find? (fun p => p.id.val = socketId) = some p →
                p.role ≠ some role)) ∨
          (actionType = "vote" ∧ room.gameState.phase ≠ Phase.vote)) :
    (gameAction rnd room socketId actionType targetId).room.gameState = room.gameState ∧
    (gameAction rnd room socketId actionType targetId).room.players = room.players ∧
    (gameAction rnd room socketId actionType targetId).threw = false ∧
    ∀ m, Notif.game_message m ∉
      (gameAction rnd room socketId actionType targetId).emitted := by
  apply gameAction_of_switch_noop
  intro p hp
  rcases h with ⟨role, subPhase, hspec, hrej⟩ | ⟨hv, hph⟩
  · have hno : ¬ (p.role = some role ∧ room.gameState.currentAction = some subPhase) := by
      rintro ⟨h1, h2⟩
      rcases hrej with h | h
      · exact h h2
      · exact h p hp h1
    unfold nightActionSpec at hspec
    split_ifs at hspec with c1 c2 c3 c4 c5
    · simp only [Option.some.injEq, Prod.mk.injEq] at hspec
      obtain ⟨rfl, rfl⟩ := hspec
      rw [c1, switchAction_wolfKill, if_neg hno]
    · simp only [Option.some.injEq, Prod.mk.injEq] at hspec
      obtain ⟨rfl, rfl⟩ := hspec
      rw [c2, switchAction_seerCheck, if_neg hno]
    · simp only [Option.some.injEq, Prod.mk.injEq] at hspec
      obtain ⟨rfl, rfl⟩ := hspec
      rw [c3, switchAction_witchHeal, if_neg (fun h => hno ⟨h.1, h.2.1⟩)]
    · simp only [Option.some.injEq, Prod.mk.injEq] at hspec
      obtain ⟨rfl, rfl⟩ := hspec
      rw [c4, switchAction_witchPoison, if_neg (fun h => hno ⟨h.1, h.2.1⟩)]
    · simp only [Option.some.injEq, Prod.mk.injEq] at hspec
      obtain ⟨rfl, rfl⟩ := hspec
      rw [c5, switchAction_guardProtect, if_neg hno]
  · rw [hv, switchAction_vote, if_neg hph]

/-- Witness of C12: in the `witch` sub-phase, a `wolfKill` sent by a wolf (wrong
sub-phase) changes neither the game state nor the players. -/
theorem rejected_action_no_effect_witness :
    (gameAction rndZero witchStepRoom "w1" "wolfKill" "se").room.gameState =
      witchStepRoom.gameState ∧
    (gameAction rndZero witchStepRoom "w1" "wolfKill" "se").room.players =
      witchStepRoom.players ∧
    (gameAction rndZero witchStepRoom "w1" "wolfKill" "se").threw = false ∧
    ∀ m, Notif.game_message m ∉
      (gameAction rndZero witchStepRoom "w1" "wolfKill" "se").emitted :=
  rejected_action_no_effect rndZero witchStepRoom "w1" "wolfKill" "se"
    (Or.inl ⟨Role.wolf, SubPhase.wolf, rfl, Or.inl (by decide)⟩)


/-! ## Vote resolution: reset, and the life flag -/

theorem processVotes_empty_players (rnd : RandomSource) (room : Room)
    (h : room.gameState.votes = []) : (processVotes rnd room).players = room.players := by
  have hc : voteCandidates rnd room.gameState.votes = [] := by
    rw [h]
    rfl
  simp only [processVotes, hc, List.getElem?_nil]

/-- C17: after `processVotes` the `votes` mapping is empty, `dayCount` is one
more than before, the phase is `night` and the sub-phase is `wolf`; and when
the `votes` mapping is empty on entry, no player record changes. -/
theorem processVotes_resets (rnd : RandomSource) (room : Room) :
    (processVotes rnd room).gameState.votes = [] ∧
    (processVotes rnd room).gameState.dayCount = room.gameState.dayCount + 1 ∧
    (processVotes rnd room).gameState.phase = Phase.night ∧
    (processVotes rnd room).gameState.currentAction = some SubPhase.wolf ∧
    (room.gameState.votes = [] → (processVotes rnd room).players = room.players) :=
  ⟨rfl, rfl, rfl, rfl, processVotes_empty_players rnd room⟩

/-- Witness of C17: on the room of three cast votes `dayCount` goes from 1 to
2, and on a room without votes nobody is touched. -/
theorem processVotes_resets_witness :
    (processVotes rndZero threeVotesRoom).gameState.dayCount = 2 ∧
    (processVotes rndZero threeVotesRoom).gameState.votes = [] ∧
    (processVotes rndZero freshSixRoom).players = freshSixRoom.players :=
  ⟨(processVotes_resets rndZero threeVotesRoom).2.1,
    (processVotes_resets rndZero threeVotesRoom).1,
    (processVotes_resets rndZero freshSixRoom).2.2.2.2 rfl⟩

theorem endNight_players (room : Room) :
    (endNight room).players = room.players ∨
      ∃ t, (endNight room).players = markDead room.players t := by
  unfold endNight
  simp only
  split_ifs
  · cases room.gameState.wolfKilled with
    | none => exact Or.inl rfl
    | some t => exact Or.inr ⟨t, killTarget_eq_markDead _ _⟩
  · exact Or.inl rfl
  · exact Or.inl rfl

theorem processVotes_players_cases (rnd : RandomSource) (room : Room) :
    (processVotes rnd room).players = room.players ∨
      ∃ t, (processVotes rnd room).players = markDead room.players t := by
  cases h : (voteCandidates rnd room.gameState.votes)[0]? with
  | none =>
    left
    simp only [processVotes, h]
  | some t => exact Or.inr ⟨t, processVotes_players rnd room t h⟩

theorem switchAction_players_cases (rnd : RandomSource) (room : Room) (currentPlayer : Player)
    (socketId actionType targetId : String) :
    (switchAction rnd room currentPlayer socketId actionType targetId).room.players
        = room.players ∨
      ∃ t, (switchAction rnd room currentPlayer socketId actionType targetId).room.players
        = markDead room.players t := by
  refine actionType_cases
    (fun a => (switchAction rnd room currentPlayer socketId a targetId).room.players
        = room.players ∨
      ∃ t, (switchAction rnd room currentPlayer socketId a targetId).room.players
        = markDead room.players t) actionType ?_ ?_ ?_ ?_ ?_ ?_ ?_
  all_goals beta_reduce
  · rw [switchAction_wolfKill]
    split_ifs <;> exact Or.inl rfl
  · rw [switchAction_seerCheck]
    split_ifs
    · split <;> exact Or.inl rfl
    · exact Or.inl rfl
  · rw [switchAction_witchHeal]
    split_ifs <;> exact Or.inl rfl
  · rw [switchAction_witchPoison]
    split_ifs
    · split
      · exact Or.inr ⟨targetId, rfl⟩
      · exact Or.inl rfl
    · exact Or.inl rfl
  · rw [switchAction_guardProtect]
    split_ifs
    · exact endNight_players _
    · exact Or.inl rfl
  · rw [switchAction_vote]
    by_cases hv : room.gameState.phase = Phase.vote
    · rw [if_pos hv]
      by_cases hc : (JsObj.keys (room.gameState.votes.set currentPlayer.id.val targetId)).length =
          (room.players.filter (fun p => p.isAlive)).length
      · rw [if_pos hc]
        exact processVotes_players_cases rnd
          { room with gameState := { room.gameState with
              votes := room.gameState.votes.set currentPlayer.id.val targetId } }
      · rw [if_neg hc]
        exact Or.inl rfl
    · rw [if_neg hv]
      exact Or.inl rfl
  · intro h1 h2 h3 h4 h5 h6
    rw [switchAction_other _ _ _ _ _ _ h1 h2 h3 h4 h5 h6]
    exact Or.inl rfl

theorem gameAction_players_cases (rnd : RandomSource) (room : Room)
    (socketId actionType targetId : String) :
    (gameAction rnd room socketId actionType targetId).room.players = room.players ∨
      ∃ t, (gameAction rnd room socketId actionType targetId).room.players
        = markDead room.players t := by
  rcases gameAction_room rnd room socketId actionType targetId with h | ⟨p, _, _, _, hp, _, _⟩
  · rw [h]
    exact Or.inl rfl
  · rw [hp]
    exact switchAction_players_cases _ _ _ _ _ _

theorem forall₂_markDead (players : List Player) (t : String) :
    List.Forall₂ (fun p q => q.id = p.id ∧ (p.isAlive = false → q.isAlive = false))
      players (markDead players t) := by
  unfold markDead
  induction players with
  | nil => exact List.Forall₂.nil
  | cons p players ih =>
    refine List.Forall₂.cons ?_ ih
    beta_reduce
    by_cases h : p.id.val = t
    · rw [if_pos h]
      exact ⟨rfl, fun _ => rfl⟩
    · rw [if_neg h]
      exact ⟨rfl, id⟩

theorem forall₂_self (players : List Player) :
    List.Forall₂ (fun p q => q.id = p.id ∧ (p.isAlive = false → q.isAlive = false))
      players players := by
  induction players with
  | nil => exact List.Forall₂.nil
  | cons p players ih => exact List.Forall₂.cons ⟨rfl, id⟩ ih

/-- C15: a `game_action` event keeps the roster position by position (same ids
in the same order), and every player who is dead before the event is dead
after it. -/
theorem dead_stay_dead (rnd : RandomSource) (room : Room)
    (socketId actionType targetId : String) :
    List.Forall₂ (fun p q => q.id = p.id ∧ (p.isAlive = false → q.isAlive = false))
      room.players (gameAction rnd room socketId actionType targetId).room.players := by
  rcases gameAction_players_cases rnd room socketId actionType targetId with h | ⟨t, h⟩
  · rw [h]
    exact forall₂_self _
  · rw [h]
    exact forall₂_markDead _ _


/-! ## The seer's check on an unknown target -/

/-- C14, on the code: an accepted `seerCheck` (living seer, sub-phase `seer`)
whose `targetId` is the id of no room member does not complete: after
`seerChecked` is written, reading `targetPlayer.role` of the `undefined` result
of `find` throws, and nothing is emitted. -/
theorem seerCheck_unknown_target_throws (rnd : RandomSource) (room : Room)
    (socketId targetId : String) (seer : Player)
    (hs : room.isGameStarted = true)
    (hf : room.players.find? (fun p => p.id.val = socketId) = some seer)
    (ha : seer.isAlive = true) (hr : seer.role = some Role.seer)
    (hc : room.gameState.currentAction = some SubPhase.seer)
    (ht : room.players.find? (fun p => p.id.val = targetId) = none) :
    (gameAction rnd room socketId "seerCheck" targetId).threw = true ∧
    (gameAction rnd room socketId "seerCheck" targetId).emitted = [] ∧
    (gameAction rnd room socketId "seerCheck" targetId).room.gameState.seerChecked =
      some targetId := by
  have hsw : switchAction rnd room seer socketId "seerCheck" targetId =
      ⟨{ room with gameState := { room.gameState with seerChecked := some targetId } },
        "", [], true⟩ := by
    rw [switchAction_seerCheck, if_pos ⟨hr, hc⟩, ht]
  rw [gameAction_accepted rnd room socketId "seerCheck" targetId seer hs hf ha, hsw]
  exact ⟨rfl, rfl, rfl⟩

/-- Witness of C14, on the code: in the `seer` sub-phase the seer `se` checks
the id `nobody`, which no player of the room has. -/
theorem seerCheck_unknown_target_throws_witness :
    (gameAction rndZero seerStepRoom "se" "seerCheck" "nobody").threw = true ∧
    (gameAction rndZero seerStepRoom "se" "seerCheck" "nobody").emitted = [] ∧
    (gameAction rndZero seerStepRoom "se" "seerCheck" "nobody").room.gameState.seerChecked =
      some "nobody" :=
  seerCheck_unknown_target_throws rndZero seerStepRoom "se" "nobody"
    (mkPlayer "se" (by decide) Role.seer true) rfl (by decide) rfl rfl rfl (by decide)


/-! ## The `isGameOver` flag -/

theorem switchAction_isGameOver (rnd : RandomSource) (room : Room) (currentPlayer : Player)
    (socketId actionType targetId : String) (b : Bool) :
    switchAction rnd { room with isGameOver := b } currentPlayer socketId actionType targetId =
      ⟨{ (switchAction rnd room currentPlayer socketId actionType targetId).room with
          isGameOver := b },
        (switchAction rnd room currentPlayer socketId actionType targetId).message,
        (switchAction rnd room currentPlayer socketId actionType targetId).emitted,
        (switchAction rnd room currentPlayer socketId actionType targetId).threw⟩ := by
  refine actionType_cases
    (fun a =>
      switchAction rnd { room with isGameOver := b } currentPlayer socketId a targetId =
      ⟨{ (switchAction rnd room currentPlayer socketId a targetId).room with
          isGameOver := b },
        (switchAction rnd room currentPlayer socketId a targetId).message,
        (switchAction rnd room currentPlayer socketId a targetId).emitted,
        (switchAction rnd room currentPlayer socketId a targetId).threw⟩)
    actionType ?_ ?_ ?_ ?_ ?_ ?_ ?_
  all_goals beta_reduce
  · rw [switchAction_wolfKill, switchAction_wolfKill]
    split_ifs <;> rfl
  · rw [switchAction_seerCheck, switchAction_seerCheck]
    split_ifs
    · dsimp only
      split <;> rfl
    · rfl
  · rw [switchAction_witchHeal, switchAction_witchHeal]
    split_ifs <;> rfl
  · rw [switchAction_witchPoison, switchAction_witchPoison]
    split_ifs
    · dsimp only
      split <;> rfl
    · rfl
  · rw [switchAction_guardProtect, switchAction_guardProtect]
    split_ifs <;> rfl
  · rw [switchAction_vote, switchAction_vote]
    dsimp only
    by_cases hv : room.gameState.phase = Phase.vote
    · rw [if_pos hv, if_pos hv]
      by_cases hc : (JsObj.keys (room.gameState.votes.set currentPlayer.id.val targetId)).length =
          (room.players.filter (fun p => p.isAlive)).length
      · rw [if_pos hc, if_pos hc]
        simp only [processVotes]
      · rw [if_neg hc, if_neg hc]
    · rw [if_neg hv, if_neg hv]
  · intro h1 h2 h3 h4 h5 h6
    rw [switchAction_other rnd room currentPlayer socketId actionType targetId
        h1 h2 h3 h4 h5 h6,
      switchAction_other rnd { room with isGameOver := b } currentPlayer socketId actionType
        targetId h1 h2 h3 h4 h5 h6]

theorem switchAction_keeps_isGameOver (rnd : RandomSource) (room : Room)
    (currentPlayer : Player) (socketId actionType targetId : String) :
    (switchAction rnd room currentPlayer socketId actionType targetId).room.isGameOver =
      room.isGameOver := by
  have h := switchAction_isGameOver rnd room currentPlayer socketId actionType targetId
    room.isGameOver
  have e : ({ room with isGameOver := room.isGameOver } : Room) = room := rfl
  rw [e] at h
  have h' := congrArg (fun s => s.room.isGameOver) h
  exact h'

theorem checkGameOver_isGameOver (room : Room) (b : Bool) :
    (checkGameOver { room with isGameOver := b }).2 = (checkGameOver room).2 ∧
    (checkGameOver { room with isGameOver := b }).1.gameState =
      (checkGameOver room).1.gameState ∧
    (checkGameOver { room with isGameOver := b }).1.players =
      (checkGameOver room).1.players ∧
    ((checkGameOver room).1.isGameOver = true ∨
      (checkGameOver room).1.isGameOver = room.isGameOver) := by
  unfold checkGameOver
  dsimp only
  split_ifs <;> simp

theorem eraseOver_checkGameOver (room : Room) (b : Bool) :
    (checkGameOver { room with isGameOver := b }).2.1 = (checkGameOver room).2.1 :=
  congrArg Prod.fst (checkGameOver_isGameOver room b).1

theorem gameAction_isGameOver (rnd : RandomSource) (room : Room)
    (socketId actionType targetId : String) (b : Bool) :
    (gameAction rnd { room with isGameOver := b } socketId actionType targetId).room.gameState
      = (gameAction rnd room socketId actionType targetId).room.gameState ∧
    (gameAction rnd { room with isGameOver := b } socketId actionType targetId).room.players
      = (gameAction rnd room socketId actionType targetId).room.players ∧
    (gameAction rnd { room with isGameOver := b } socketId actionType targetId).threw
      = (gameAction rnd room socketId actionType targetId).threw ∧
    (gameAction rnd { room with isGameOver := b } socketId actionType targetId).emitted.map
        Notif.eraseOver
      = (gameAction rnd room socketId actionType targetId).emitted.map Notif.eraseOver := by
  by_cases hs : room.isGameStarted = true
  · cases hf : room.players.find? (fun p => p.id.val = socketId) with
    | none =>
      rw [gameAction_guarded rnd room _ _ _ (Or.inr (Or.inl hf)),
        gameAction_guarded rnd { room with isGameOver := b } _ _ _ (Or.inr (Or.inl hf))]
      exact ⟨rfl, rfl, rfl, rfl⟩
    | some p =>
      by_cases ha : p.isAlive = true
      · rw [gameAction_accepted rnd room socketId actionType targetId p hs hf ha,
          gameAction_accepted rnd { room with isGameOver := b } socketId actionType targetId p
            hs hf ha,
          switchAction_isGameOver]
        dsimp only
        by_cases ht : (switchAction rnd room p socketId actionType targetId).threw = true
        · rw [if_pos ht, if_pos ht]
          exact ⟨rfl, rfl, rfl, rfl⟩
        · rw [if_neg ht, if_neg ht]
          have hc := checkGameOver_isGameOver
            (switchAction rnd room p socketId actionType targetId).room b
          refine ⟨hc.2.1, hc.2.2.1, rfl, ?_⟩
          dsimp only
          rw [eraseOver_checkGameOver]
          simp only [List.map_append, List.map_cons, List.map_nil, Notif.eraseOver]
      · have ha' : p.isAlive = false := by simpa using ha
        rw [gameAction_guarded rnd room _ _ _ (Or.inr (Or.inr ⟨p, hf, ha'⟩)),
          gameAction_guarded rnd { room with isGameOver := b } _ _ _
            (Or.inr (Or.inr ⟨p, hf, ha'⟩))]
        exact ⟨rfl, rfl, rfl, rfl⟩
  · have hs' : room.isGameStarted = false := by simpa using hs
    rw [gameAction_guarded rnd room _ _ _ (Or.inl hs'),
      gameAction_guarded rnd { room with isGameOver := b } _ _ _ (Or.inl hs')]
    exact ⟨rfl, rfl, rfl, rfl⟩

theorem gameAction_isGameOver_sticky (rnd : RandomSource) (room : Room)
    (socketId actionType targetId : String) (hover : room.isGameOver = true) :
    (gameAction rnd room socketId actionType targetId).room.isGameOver = true := by
  by_cases hs : room.isGameStarted = true
  · cases hf : room.players.find? (fun p => p.id.val = socketId) with
    | none =>
      rw [gameAction_guarded rnd room _ _ _ (Or.inr (Or.inl hf))]
      exact hover
    | some p =>
      by_cases ha : p.isAlive = true
      · rw [gameAction_accepted rnd room socketId actionType targetId p hs hf ha]
        have hk := switchAction_keeps_isGameOver rnd room p socketId actionType targetId
        by_cases ht : (switchAction rnd room p socketId actionType targetId).threw = true
        · rw [if_pos ht]
          exact hk.trans hover
        · rw [if_neg ht]
          rcases (checkGameOver_isGameOver
            (switchAction rnd room p socketId actionType targetId).room true).2.2.2 with h | h
          · exact h
          · exact h.trans (hk.trans hover)
      · have ha' : p.isAlive = false := by simpa using ha
        rw [gameAction_guarded rnd room _ _ _ (Or.inr (Or.inr ⟨p, hf, ha'⟩))]
        exact hover
  · have hs' : room.isGameStarted = false := by simpa using hs
    rw [gameAction_guarded rnd room _ _ _ (Or.inl hs')]
    exact hover

/-- C11 (as amended): in a room whose `isGameOver` is `true`, a `game_action`
event leaves `isGameOver` `true`; an event stopped by an entry guard (game not
started, sender not a member, sender dead) leaves the whole room unchanged and
emits nothing; and the handler never reads `isGameOver`: the game state, the
players, the outcome and the notifications (up to the `isGameOver` field of
the room they carry) are those of the same event on the same room with
`isGameOver = false`. -/
theorem isGameOver_not_read (rnd : RandomSource) (room : Room)
    (socketId actionType targetId : String) (hover : room.isGameOver = true) :
    (gameAction rnd room socketId actionType targetId).room.isGameOver = true ∧
    ((room.isGameStarted = false ∨
        room.players.find? (fun p => p.id.val = socketId) = none ∨
        ∃ p, room.players.find? (fun p => p.id.val = socketId) = some p ∧
          p.isAlive = false) →
      gameAction rnd room socketId actionType targetId = ⟨room, [], false⟩) ∧
    (gameAction rnd room socketId actionType targetId).room.gameState =
      (gameAction rnd { room with isGameOver := false } socketId actionType
        targetId).room.gameState ∧
    (gameAction rnd room socketId actionType targetId).room.players =
      (gameAction rnd { room with isGameOver := false } socketId actionType
        targetId).room.players ∧
    (gameAction rnd room socketId actionType targetId).threw =
      (gameAction rnd { room with isGameOver := false } socketId actionType targetId).threw ∧
    (gameAction rnd room socketId actionType targetId).emitted.map Notif.eraseOver =
      (gameAction rnd { room with isGameOver := false } socketId actionType
        targetId).emitted.map Notif.eraseOver := by
  have h := gameAction_isGameOver rnd room socketId actionType targetId false
  exact ⟨gameAction_isGameOver_sticky rnd room socketId actionType targetId hover,
    gameAction_guarded rnd room socketId actionType targetId,
    h.1.symm, h.2.1.symm, h.2.2.1.symm, h.2.2.2.symm⟩

/-- Witness of C11 (as amended): on the won room the witch's poison is handled
as on the same room with `isGameOver = false`, and `isGameOver` stays `true`. -/
theorem isGameOver_not_read_witness :
    (gameAction rndZero wonRoom "wi" "witchPoison" "vi").room.isGameOver = true ∧
    (gameAction rndZero wonRoom "wi" "witchPoison" "vi").room.players =
      (gameAction rndZero { wonRoom with isGameOver := false } "wi" "witchPoison"
        "vi").room.players :=
  have h := isGameOver_not_read rndZero wonRoom "wi" "witchPoison" "vi" rfl
  ⟨h.1, h.2.2.2.1⟩

/-- Counterexample to C11 as stated: in a room whose `isGameOver` is `true`,
the witch's `witchPoison` on the villager `vi` is processed: the game state
and the players change (`vi` dies) and three notifications are emitted. -/
theorem gameOver_action_processed :
    wonRoom.isGameOver = true ∧
    (gameAction rndZero wonRoom "wi" "witchPoison" "vi").room.gameState ≠
      wonRoom.gameState ∧
    (gameAction rndZero wonRoom "wi" "witchPoison" "vi").room.players ≠ wonRoom.players ∧
    ¬ isLiving (gameAction rndZero wonRoom "wi" "witchPoison" "vi").room.players "vi" ∧
    (gameAction rndZero wonRoom "wi" "witchPoison" "vi").emitted.length = 3 := by
  decide


/-! ## Events whose target is not a room member -/

theorem gameAction_state_of_accepted (rnd : RandomSource) (room : Room)
    (socketId actionType targetId : String) (currentPlayer : Player)
    (hs : room.isGameStarted = true)
    (hf : room.players.find? (fun p => p.id.val = socketId) = some currentPlayer)
    (ha : currentPlayer.isAlive = true) :
    (gameAction rnd room socketId actionType targetId).room.gameState =
      (switchAction rnd room currentPlayer socketId actionType targetId).room.gameState ∧
    (gameAction rnd room socketId actionType targetId).room.players =
      (switchAction rnd room currentPlayer socketId actionType targetId).room.players := by
  rw [gameAction_accepted rnd room socketId actionType targetId currentPlayer hs hf ha]
  by_cases ht : (switchAction rnd room currentPlayer socketId actionType targetId).threw = true
  · rw [if_pos ht]
    exact ⟨rfl, rfl⟩
  · rw [if_neg ht]
    have h := checkGameOver_room
      (switchAction rnd room currentPlayer socketId actionType targetId).room
    exact ⟨h.2.1, h.1⟩

/-- C13 (as amended): an accepted event whose `targetId` is the id of no room
member is handled like any other accepted event, except that nobody is marked
dead through that target: `wolfKill` sets `wolfKilled = targetId` and moves the
sub-phase to `seer`, `witchPoison` sets `witchPoisonUsed = true`, both leaving
every player record unchanged; `guardProtect` sets `lastGuard = targetId` and
resolves the night with `endNight`; `vote` records `votes[actor] = targetId`
and runs `processVotes` when every living player has voted. -/
theorem unknown_target_handling (rnd : RandomSource) (room : Room)
    (socketId targetId : String) (actor : Player)
    (hs : room.isGameStarted = true)
    (hf : room.players.find? (fun p => p.id.val = socketId) = some actor)
    (ha : actor.isAlive = true)
    (ht : room.players.find? (fun p => p.id.val = targetId) = none) :
    (actor.role = some Role.wolf → room.gameState.currentAction = some SubPhase.wolf →
      (gameAction rnd room socketId "wolfKill" targetId).room.gameState =
        { room.gameState with
          wolfKilled := some targetId, currentAction := some SubPhase.seer } ∧
      (gameAction rnd room socketId "wolfKill" targetId).room.players = room.players) ∧
    (actor.role = some Role.witch → room.gameState.currentAction = some SubPhase.witch →
      room.gameState.witchPoisonUsed = false →
      (gameAction rnd room socketId "witchPoison" targetId).room.gameState =
        { room.gameState with witchPoisonUsed := true } ∧
      (gameAction rnd room socketId "witchPoison" targetId).room.players = room.players) ∧
    (actor.role = some Role.guard → room.gameState.currentAction = some SubPhase.guard →
      (gameAction rnd room socketId "guardProtect" targetId).room.gameState =
        (endNight { room with gameState :=
          { room.gameState with lastGuard := some targetId } }).gameState ∧
      (gameAction rnd room socketId "guardProtect" targetId).room.players =
        (endNight { room with gameState :=
          { room.gameState with lastGuard := some targetId } }).players) ∧
    (room.gameState.phase = Phase.vote →
      ((JsObj.keys (room.gameState.votes.set actor.id.val targetId)).length ≠
          (room.players.filter (fun p => p.isAlive)).length →
        (gameAction rnd room socketId "vote" targetId).room.gameState =
          { room.gameState with votes := room.gameState.votes.set actor.id.val targetId } ∧
        (gameAction rnd room socketId "vote" targetId).room.players = room.players) ∧
      ((JsObj.keys (room.gameState.votes.set actor.id.val targetId)).length =
          (room.players.filter (fun p => p.isAlive)).length →
        (gameAction rnd room socketId "vote" targetId).room.gameState =
          (processVotes rnd { room with gameState := { room.gameState with
            votes := room.gameState.votes.set actor.id.val targetId } }).gameState ∧
        (gameAction rnd room socketId "vote" targetId).room.players =
          (processVotes rnd { room with gameState := { room.gameState with
            votes := room.gameState.votes.set actor.id.val targetId } }).players)) := by
  refine ⟨?_, ?_, ?_, ?_⟩
  · intro hr hc
    have h := gameAction_state_of_accepted rnd room socketId "wolfKill" targetId actor hs hf ha
    rw [switchAction_wolfKill, if_pos ⟨hr, hc⟩] at h
    exact h
  · intro hr hc hu
    have h := gameAction_state_of_accepted rnd room socketId "witchPoison" targetId actor
      hs hf ha
    rw [switchAction_witchPoison, if_pos ⟨hr, hc, hu⟩, ht] at h
    exact h
  · intro hr hc
    have h := gameAction_state_of_accepted rnd room socketId "guardProtect" targetId actor
      hs hf ha
    rw [switchAction_guardProtect, if_pos ⟨hr, hc⟩] at h
    exact h
  · intro hv
    have h := gameAction_state_of_accepted rnd room socketId "vote" targetId actor hs hf ha
    rw [switchAction_vote, if_pos hv] at h
    refine ⟨fun hc => ?_, fun hc => ?_⟩
    · rw [if_neg hc] at h
      exact h
    · rw [if_pos hc] at h
      exact h

/-- Witness of C13 (as amended): in a fresh night the wolf `w1` names the
id `nobody`; `wolfKilled` is `nobody`, the sub-phase is `seer`, and no player
record changes. And when `Y` casts the last vote, for `constructor`, which
names no player, the vote is resolved: `constructor` has three votes but is
not counted, and `X`, with one vote, is marked dead. -/
theorem unknown_target_handling_witness :
    ((gameAction rndZero freshSixRoom "w1" "wolfKill" "nobody").room.gameState =
        { freshSixRoom.gameState with
          wolfKilled := some "nobody", currentAction := some SubPhase.seer } ∧
      (gameAction rndZero freshSixRoom "w1" "wolfKill" "nobody").room.players =
        freshSixRoom.players) ∧
    (gameAction rndZero lastVoteRoom "Y" "vote" "constructor").room.players =
      lastVoteRoom.players.map
        (fun p => if p.id.val = "X" then { p with isAlive := false } else p) :=
  ⟨(unknown_target_handling rndZero freshSixRoom "w1" "nobody"
      (mkPlayer "w1" (by decide) Role.wolf true) rfl (by decide) rfl (by decide)).1 rfl rfl,
    ((((unknown_target_handling rndZero lastVoteRoom "Y" "constructor"
      (mkPlayer "Y" (by decide) Role.villager true) rfl (by decide) rfl
      (by decide)).2.2.2 rfl).2 (by decide)).2).trans (by decide)⟩

/-- Counterexample to C13 as stated: `nobody` is the id of no player, yet the
wolf's `wolfKill` on it changes `wolfKilled` and the sub-phase, and the witch's
`witchPoison` on it uses up the poison. -/
theorem unknown_target_not_ignored :
    freshSixRoom.players.find? (fun p => p.id.val = "nobody") = none ∧
    (gameAction rndZero freshSixRoom "w1" "wolfKill" "nobody").room.gameState.wolfKilled =
      some "nobody" ∧
    (gameAction rndZero freshSixRoom "w1" "wolfKill" "nobody").room.gameState.currentAction =
      some SubPhase.seer ∧
    (gameAction rndZero freshSixRoom "w1" "wolfKill" "nobody").room.gameState ≠
      freshSixRoom.gameState ∧
    witchStepRoom.gameState.witchPoisonUsed = false ∧
    (gameAction rndZero witchStepRoom "wi" "witchPoison"
      "nobody").room.gameState.witchPoisonUsed = true := by
  decide


/-! ## Casting votes -/

theorem JsObj.keys_length {β : Type} (o : JsObj β) : (JsObj.keys o).length = o.length := by
  unfold JsObj.keys
  rw [List.length_map, (JsObj.entries_perm o).length_eq]

theorem votes_le_alive (room : Room)
    (hn : (room.gameState.votes.map Prod.fst).Nodup)
    (hk : ∀ k ∈ room.gameState.votes.map Prod.fst,
      k ∈ (room.players.filter (fun p => p.isAlive)).map (fun p => p.id.val)) :
    (JsObj.keys room.gameState.votes).length ≤
      (room.players.filter (fun p => p.isAlive)).length := by
  rw [JsObj.keys_length]
  have h := (List.subperm_of_subset hn hk).length_le
  simpa using h

theorem step_vote_invariant (room : Room) (e : Event) (he : e.actionType = "vote")
    (hn : (room.gameState.votes.map Prod.fst).Nodup)
    (hk : ∀ k ∈ room.gameState.votes.map Prod.fst,
      k ∈ (room.players.filter (fun p => p.isAlive)).map (fun p => p.id.val)) :
    ((step room e).gameState.votes.map Prod.fst).Nodup ∧
    ∀ k ∈ (step room e).gameState.votes.map Prod.fst,
      k ∈ ((step room e).players.filter (fun p => p.isAlive)).map (fun p => p.id.val) := by
  rcases step_cases room e with h | ⟨p, _, hf, ha, hpl, hgs⟩
  · rw [h]
    exact ⟨hn, hk⟩
  · rw [hpl, hgs, he, switchAction_vote]
    by_cases hv : room.gameState.phase = Phase.vote
    · rw [if_pos hv]
      by_cases hc : (JsObj.keys (room.gameState.votes.set p.id.val e.targetId)).length =
          (room.players.filter (fun p => p.isAlive)).length
      · rw [if_pos hc]
        refine ⟨List.nodup_nil, fun k hk' => ?_⟩
        simp only [processVotes, List.map_nil, List.not_mem_nil] at hk'
      · rw [if_neg hc]
        dsimp only
        refine ⟨JsObj.nodup_keys_set _ _ _ hn, fun k hk' => ?_⟩
        rw [JsObj.keys_set] at hk'
        have hp : p.id.val ∈
            (room.players.filter (fun p => p.isAlive)).map (fun p => p.id.val) := by
          rw [List.mem_map]
          exact ⟨p, List.mem_filter.mpr ⟨List.mem_of_find?_eq_some hf, ha⟩, rfl⟩
        split_ifs at hk'
        · exact hk k hk'
        · rcases List.mem_append.mp hk' with h | h
          · exact hk k h
          · rw [List.mem_singleton] at h
            rw [h]
            exact hp
    · rw [if_neg hv]
      exact ⟨hn, hk⟩

theorem trace_vote_invariant (events : List Event) (room : Room)
    (hev : ∀ e ∈ events, e.actionType = "vote")
    (hn : (room.gameState.votes.map Prod.fst).Nodup)
    (hk : ∀ k ∈ room.gameState.votes.map Prod.fst,
      k ∈ (room.players.filter (fun p => p.isAlive)).map (fun p => p.id.val)) :
    ∀ r ∈ trace room events,
      (JsObj.keys r.gameState.votes).length ≤
        (r.players.filter (fun p => p.isAlive)).length := by
  induction events generalizing room with
  | nil =>
    intro r hr
    simp only [trace, List.mem_singleton] at hr
    rw [hr]
    exact votes_le_alive room hn hk
  | cons e events ih =>
    intro r hr
    simp only [trace, List.mem_cons] at hr
    rcases hr with hr | hr
    · rw [hr]
      exact votes_le_alive room hn hk
    · obtain ⟨hn', hk'⟩ :=
        step_vote_invariant room e (hev e (List.mem_cons_self _ _)) hn hk
      exact ih (step room e) (fun e' he' => hev e' (List.mem_cons_of_mem _ he')) hn' hk' r hr

theorem step_vote_accepted (room : Room) (e : Event) (voter : Player)
    (he : e.actionType = "vote")
    (hs : room.isGameStarted = true)
    (hf : room.players.find? (fun p => p.id.val = e.socketId) = some voter)
    (ha : voter.isAlive = true)
    (hv : room.gameState.phase = Phase.vote) :
    ((JsObj.keys (room.gameState.votes.set voter.id.val e.targetId)).length =
        (room.players.filter (fun p => p.isAlive)).length →
      (step room e).gameState =
        (processVotes e.rnd { room with gameState := { room.gameState with
          votes := room.gameState.votes.set voter.id.val e.targetId } }).gameState ∧
      (step room e).players =
        (processVotes e.rnd { room with gameState := { room.gameState with
          votes := room.gameState.votes.set voter.id.val e.targetId } }).players) ∧
    ((JsObj.keys (room.gameState.votes.set voter.id.val e.targetId)).length ≠
        (room.players.filter (fun p => p.isAlive)).length →
      (step room e).gameState =
        { room.gameState with votes := room.gameState.votes.set voter.id.val e.targetId } ∧
      (step room e).players = room.players) := by
  have h := gameAction_state_of_accepted e.rnd room e.socketId e.actionType e.targetId voter
    hs hf ha
  rw [he, switchAction_vote, if_pos hv] at h
  refine ⟨fun hc => ?_, fun hc => ?_⟩
  · rw [if_pos hc] at h
    simp only [step, he]
    exact h
  · rw [if_neg hc] at h
    simp only [step, he]
    exact h

theorem step_vote_rejected (room : Room) (e : Event) (he : e.actionType = "vote")
    (h : ¬ (room.isGameStarted = true ∧ room.gameState.phase = Phase.vote ∧
      ∃ voter, room.players.find? (fun p => p.id.val = e.socketId) = some voter ∧
        voter.isAlive = true)) :
    (step room e).gameState = room.gameState ∧ (step room e).players = room.players := by
  rcases step_cases room e with hst | ⟨p, hs, hf, ha, hpl, hgs⟩
  · rw [hst]
    exact ⟨rfl, rfl⟩
  · have hv : ¬ room.gameState.phase = Phase.vote := fun hv => h ⟨hs, hv, p, hf, ha⟩
    rw [hpl, hgs, he, switchAction_vote, if_neg hv]
    exact ⟨rfl, rfl⟩

/-- C16: starting with an empty `votes` mapping (in particular at the start of
phase `vote`), along every sequence of `vote` events the number of entries of
`votes` never exceeds the number of living players; and a `vote` event runs
`processVotes` exactly when it is accepted (game started, phase `vote`, sender
a living member) and, once the vote is recorded, the number of cast votes
equals the number of living players: any other `vote` event only records the
vote, or changes nothing. -/
theorem votes_bounded_and_resolved (room : Room) (events : List Event)
    (hv : room.gameState.votes = []) (hev : ∀ e ∈ events, e.actionType = "vote") :
    (∀ r ∈ trace room events,
      (JsObj.keys r.gameState.votes).length ≤
        (r.players.filter (fun p => p.isAlive)).length) ∧
    (∀ r ∈ trace room events, ∀ (e : Event) (voter : Player),
      e.actionType = "vote" → r.isGameStarted = true →
      r.players.find? (fun p => p.id.val = e.socketId) = some voter →
      voter.isAlive = true → r.gameState.phase = Phase.vote →
      ((JsObj.keys (r.gameState.votes.set voter.id.val e.targetId)).length =
          (r.players.filter (fun p => p.isAlive)).length →
        (step r e).gameState =
          (processVotes e.rnd { r with gameState := { r.gameState with
            votes := r.gameState.votes.set voter.id.val e.targetId } }).gameState ∧
        (step r e).players =
          (processVotes e.rnd { r with gameState := { r.gameState with
            votes := r.gameState.votes.set voter.id.val e.targetId } }).players) ∧
      ((JsObj.keys (r.gameState.votes.set voter.id.val e.targetId)).length ≠
          (r.players.filter (fun p => p.isAlive)).length →
        (step r e).gameState =
          { r.gameState with votes := r.gameState.votes.set voter.id.val e.targetId } ∧
        (step r e).players = r.players)) ∧
    (∀ r ∈ trace room events, ∀ e : Event, e.actionType = "vote" →
      ¬ (r.isGameStarted = true ∧ r.gameState.phase = Phase.vote ∧
        ∃ voter, r.players.find? (fun p => p.id.val = e.socketId) = some voter ∧
          voter.isAlive = true) →
      (step r e).gameState = r.gameState ∧ (step r e).players = r.players) := by
  refine ⟨?_, ?_, ?_⟩
  · exact trace_vote_invariant events room hev (by rw [hv]; exact List.nodup_nil)
      (by rw [hv]; intro k hk; cases hk)
  · intro r _ e voter he hs hf ha hp
    exact step_vote_accepted r e voter he hs hf ha hp
  · intro r _ e he h
    exact step_vote_rejected r e he h

/-- Witness of C16: four living players vote, one of them twice; the number of
entries of `votes` stays within 4 throughout, after the first four events the
phase is still `vote` with three entries, and the last vote resolves the vote
(`dayCount` 2, `votes` empty). -/
theorem votes_bounded_and_resolved_witness :
    (∀ r ∈ trace voteStartRoom fourVotes,
      (JsObj.keys r.gameState.votes).length ≤
        (r.players.filter (fun p => p.isAlive)).length) ∧
    (run voteStartRoom (fourVotes.take 4)).gameState.phase = Phase.vote ∧
    (JsObj.keys (run voteStartRoom (fourVotes.take 4)).gameState.votes).length = 3 ∧
    (run voteStartRoom fourVotes).gameState.dayCount = 2 ∧
    (run voteStartRoom fourVotes).gameState.votes = [] :=
  ⟨(votes_bounded_and_resolved voteStartRoom fourVotes rfl (by decide)).1,
    by decide, by decide, by decide, by decide⟩


/-! ## Role assignment at `start_game` -/

/-- C18, on the code: `start_game` succeeds on a room created for eight players
in which six players sit; the roles are generated for 8 players, and with the
draws of `rndLastTwo` the six players receive no wolf: the roles assigned are
villager, villager, seer, witch, hunter, villager. -/
theorem startGame_eight_seats_no_wolf :
    lobbyEight.players.length = 6 ∧
    startedBy rndLastTwo lobbyEight "p1" (startGame rndLastTwo lobbyEight "p1").room ∧
    (generateRoles rndLastTwo lobbyEight.playerCount).length = 8 ∧
    (startGame rndLastTwo lobbyEight "p1").room.players.map (fun p => p.role) =
      [some Role.villager, some Role.villager, some Role.seer, some Role.witch,
       some Role.hunter, some Role.villager] ∧
    ((startGame rndLastTwo lobbyEight "p1").room.players.filter
      (fun p => p.role == some Role.wolf)).length = 0 := by
  decide


/-! ## Who learns the seer's result -/

theorem find?_withTargetRole (players : List Player) (targetId x : String)
    (role : Option Role) :
    (players.map (fun p => if p.id.val = targetId then { p with role := role } else p)).find?
        (fun p => p.id.val = x) =
      (players.find? (fun p => p.id.val = x)).map
        (fun p => if p.id.val = targetId then { p with role := role } else p) := by
  induction players with
  | nil => rfl
  | cons p players ih =>
    simp only [List.map_cons, List.find?_cons]
    have hid : (if p.id.val = targetId then { p with role := role } else p).id = p.id := by
      split_ifs <;> rfl
    rw [hid]
    by_cases h : p.id.val = x
    · simp [h]
    · simp only [h, decide_False]
      exact ih

theorem checkGameOver_carriesRoom (room : Room) :
    ∀ n ∈ (checkGameOver room).2.1, Notif.carriesRoom n = true := by
  unfold checkGameOver
  dsimp only
  split_ifs <;> simp [Notif.carriesRoom]

theorem seer_message_ne_empty (name : String) : "预言家查验了" ++ name ≠ "" := by
  intro h
  have := congrArg String.length h
  rw [String.length_append] at this
  have h1 : "预言家查验了".length = 6 := by decide
  have h2 : "".length = 0 := by decide
  omega

/-- The notifications of an accepted `seerCheck` on a room member. -/
theorem seerCheck_emitted (rnd : RandomSource) (room : Room) (socketId targetId : String)
    (seer target : Player)
    (hs : room.isGameStarted = true)
    (hf : room.players.find? (fun p => p.id.val = socketId) = some seer)
    (ha : seer.isAlive = true) (hr : seer.role = some Role.seer)
    (hc : room.gameState.currentAction = some SubPhase.seer)
    (ht : room.players.find? (fun p => p.id.val = targetId) = some target) :
    (gameAction rnd room socketId "seerCheck" targetId).emitted =
      [Notif.seer_check_result socketId target.name (decide (target.role = some Role.wolf)),
       Notif.game_message ("预言家查验了" ++ target.name),
       Notif.game_state_updated { room with gameState := { room.gameState with
          seerChecked := some targetId, currentAction := some SubPhase.witch } }]
        ++ (checkGameOver { room with gameState := { room.gameState with
          seerChecked := some targetId, currentAction := some SubPhase.witch } }).2.1 := by
  have hsw : switchAction rnd room seer socketId "seerCheck" targetId =
      ⟨{ room with gameState := { room.gameState with
            seerChecked := some targetId, currentAction := some SubPhase.witch } },
        "预言家查验了" ++ target.name,
        [Notif.seer_check_result socketId target.name
          (decide (target.role = some Role.wolf))], false⟩ := by
    rw [switchAction_seerCheck, if_pos ⟨hr, hc⟩, ht]
  rw [gameAction_accepted rnd room socketId "seerCheck" targetId seer hs hf ha, hsw]
  simp only [Bool.false_eq_true, if_false, if_pos (seer_message_ne_empty target.name)]
  rfl

theorem seerCheck_inbox_other (rnd : RandomSource) (room : Room)
    (socketId targetId recipient : String) (seer target : Player)
    (hs : room.isGameStarted = true)
    (hf : room.players.find? (fun p => p.id.val = socketId) = some seer)
    (ha : seer.isAlive = true) (hr : seer.role = some Role.seer)
    (hc : room.gameState.currentAction = some SubPhase.seer)
    (ht : room.players.find? (fun p => p.id.val = targetId) = some target)
    (hne : recipient ≠ socketId) :
    (inbox recipient (gameAction rnd room socketId "seerCheck" targetId).emitted).filter
        (fun n => !Notif.carriesRoom n) =
      [Notif.game_message ("预言家查验了" ++ target.name)] := by
  rw [seerCheck_emitted rnd room socketId targetId seer target hs hf ha hr hc ht]
  have hne' : ¬ socketId = recipient := fun h => hne h.symm
  have hover : ((checkGameOver { room with gameState := { room.gameState with
      seerChecked := some targetId, currentAction := some SubPhase.witch } }).2.1.filter
        (Notif.deliveredTo recipient)).filter (fun n => !Notif.carriesRoom n) = [] := by
    rw [List.filter_eq_nil_iff]
    intro n hn
    have := checkGameOver_carriesRoom _ n (List.mem_of_mem_filter hn)
    simp [this]
  simp only [inbox, List.filter_append, hover, List.append_nil]
  simp [List.filter_cons, Notif.deliveredTo, Notif.carriesRoom, hne']

/-- C19 (as amended): for two room states that differ only in the role of the
`seerCheck` target, an accepted `seerCheck` (sent by a seer other than the
target) sends the `seer_check_result`, whose `isWolf` flag tells whether the
target's role is wolf, to the seer only; every other recipient receives no
`seer_check_result`, and apart from the notifications that carry a snapshot of
the room (`game_state_updated`, `game_over`, which hold every player's role) it
receives the same notification in both states: the `game_message` naming the
target. -/
theorem seer_result_only_to_seer (rnd : RandomSource) (room : Room)
    (socketId targetId recipient : String) (seer target : Player) (role : Option Role)
    (hs : room.isGameStarted = true)
    (hf : room.players.find? (fun p => p.id.val = socketId) = some seer)
    (ha : seer.isAlive = true) (hr : seer.role = some Role.seer)
    (hc : room.gameState.currentAction = some SubPhase.seer)
    (ht : room.players.find? (fun p => p.id.val = targetId) = some target)
    (hst : socketId ≠ targetId) (hne : recipient ≠ socketId) :
    (gameAction rnd room socketId "seerCheck" targetId).emitted.head? =
      some (Notif.seer_check_result socketId target.name
        (decide (target.role = some Role.wolf))) ∧
    (gameAction rnd (withTargetRole room targetId role) socketId "seerCheck"
        targetId).emitted.head? =
      some (Notif.seer_check_result socketId target.name (decide (role = some Role.wolf))) ∧
    (∀ toSocket name isWolf, Notif.seer_check_result toSocket name isWolf ∉
      inbox recipient (gameAction rnd room socketId "seerCheck" targetId).emitted) ∧
    (inbox recipient (gameAction rnd room socketId "seerCheck" targetId).emitted).filter
        (fun n => !Notif.carriesRoom n) =
      [Notif.game_message ("预言家查验了" ++ target.name)] ∧
    (inbox recipient (gameAction rnd (withTargetRole room targetId role) socketId "seerCheck"
        targetId).emitted).filter (fun n => !Notif.carriesRoom n) =
      [Notif.game_message ("预言家查验了" ++ target.name)] := by
  have hsid : seer.id.val = socketId := by
    have := List.find?_some hf
    simpa using this
  have htid : target.id.val = targetId := by
    have := List.find?_some ht
    simpa using this
  have hf' : (withTargetRole room targetId role).players.find?
      (fun p => p.id.val = socketId) = some seer := by
    simp only [withTargetRole]
    rw [find?_withTargetRole, hf, Option.map_some']
    rw [if_neg (by rw [hsid]; exact hst)]
  have ht' : (withTargetRole room targetId role).players.find?
      (fun p => p.id.val = targetId) = some { target with role := role } := by
    simp only [withTargetRole]
    rw [find?_withTargetRole, ht, Option.map_some', if_pos htid]
  have h1 := seerCheck_inbox_other rnd room socketId targetId recipient seer target
    hs hf ha hr hc ht hne
  have h2 := seerCheck_inbox_other rnd (withTargetRole room targetId role) socketId targetId
    recipient seer { target with role := role } hs hf' ha hr hc ht' hne
  refine ⟨?_, ?_, ?_, h1, h2⟩
  · rw [seerCheck_emitted rnd room socketId targetId seer target hs hf ha hr hc ht]
    rfl
  · rw [seerCheck_emitted rnd (withTargetRole room targetId role) socketId targetId seer
      { target with role := role } hs hf' ha hr hc ht']
    rfl
  · intro toSocket name isWolf hmem
    have hin : Notif.seer_check_result toSocket name isWolf ∈
        (inbox recipient (gameAction rnd room socketId "seerCheck" targetId).emitted).filter
          (fun n => !Notif.carriesRoom n) :=
      List.mem_filter.mpr ⟨hmem, rfl⟩
    rw [h1, List.mem_singleton] at hin
    cases hin

/-- Witness of C19 (as amended): the seer `se` checks the wolf `w1`; the
villager `vi` receives, apart from room snapshots, only the `game_message`,
whether `w1` is a wolf or a villager. -/
theorem seer_result_only_to_seer_witness :
    (gameAction rndZero seerStepRoom "se" "seerCheck" "w1").emitted.head? =
      some (Notif.seer_check_result "se" "w1" true) ∧
    (inbox "vi" (gameAction rndZero seerStepRoom "se" "seerCheck" "w1").emitted).filter
        (fun n => !Notif.carriesRoom n) =
      [Notif.game_message ("预言家查验了" ++ "w1")] ∧
    (inbox "vi" (gameAction rndZero (withTargetRole seerStepRoom "w1" (some Role.villager))
        "se" "seerCheck" "w1").emitted).filter (fun n => !Notif.carriesRoom n) =
      [Notif.game_message ("预言家查验了" ++ "w1")] :=
  have h := seer_result_only_to_seer rndZero seerStepRoom "se" "w1" "vi"
    (mkPlayer "se" (by decide) Role.seer true) (mkPlayer "w1" (by decide) Role.wolf true)
    (some Role.villager) rfl (by decide) rfl rfl rfl (by decide) (by decide) (by decide)
  ⟨h.1, h.2.2.2.1, h.2.2.2.2⟩

/-- Counterexample to C19 as stated: two rooms that differ only in the role of
`w1` (wolf, villager); after the seer's accepted `seerCheck` on `w1`, the
villager `vi`, who is not the seer, receives different notifications in the
two rooms: the `game_state_updated` snapshot carries the role of `w1`. -/
theorem seer_check_snapshot_differs :
    inbox "vi" (gameAction rndZero seerStepRoom "se" "seerCheck" "w1").emitted ≠
      inbox "vi" (gameAction rndZero (withTargetRole seerStepRoom "w1" (some Role.villager))
        "se" "seerCheck" "w1").emitted := by
  decide


/-! ## The shuffle as a bijection -/

theorem choiceSeqs_length (i : Nat) : (choiceSeqs i).length = Nat.factorial (i + 1) := by
  induction i with
  | zero => rfl
  | succ i ih =>
    simp only [choiceSeqs, List.length_flatMap, List.length_map, ih, Function.comp_def,
      List.map_const', List.length_range, List.sum_replicate, smul_eq_mul]
    rw [Nat.factorial_succ (i + 1)]

theorem choiceSeqs_nodup (i : Nat) : (choiceSeqs i).Nodup := by
  induction i with
  | zero => simp [choiceSeqs]
  | succ i ih =>
    simp only [choiceSeqs]
    rw [List.nodup_flatMap]
    constructor
    · intro j _
      exact ih.map (fun a b h => (List.cons.inj h).2)
    · refine List.Pairwise.imp_of_mem ?_ (List.nodup_range (i + 2))
      intro j j' _ _ hne
      simp only [Function.onFun]
      intro js h1 h2
      rw [List.mem_map] at h1 h2
      obtain ⟨a, _, rfl⟩ := h1
      obtain ⟨b, _, hb⟩ := h2
      exact hne (List.cons.inj hb).1.symm

/-- One step of the shuffle: position `i + 1` receives the element drawn, and
the rest of the loop works on the first `i + 1` positions. -/
theorem shuffleWith_cons_eq {α : Type} (i j : Nat) (js : List Nat) (l : List α)
    (hl : l.length = i + 2) (hj : j < i + 2) (hjs : js ∈ choiceSeqs i) :
    shuffleWith (j :: js) (i + 1) l =
      shuffleWith js i ((swap l (i + 1) j).take (i + 1)) ++ (l[j]?).toList := by
  have hlen : (swap l (i + 1) j).length = i + 2 := by rw [swap_length, hl]
  have hsplit := List.take_append_drop (i + 1) (swap l (i + 1) j)
  have htl : ((swap l (i + 1) j).take (i + 1)).length = i + 1 := by
    rw [List.length_take, hlen]; omega
  have hlast : (swap l (i + 1) j)[i + 1]? = l[j]? :=
    swap_getElem? l (i + 1) j (by omega) (by omega)
  have hdrop : (swap l (i + 1) j).drop (i + 1) = (l[j]?).toList := by
    rw [List.drop_eq_getElem_cons (by omega), List.drop_of_length_le (by omega), ← hlast,
      List.getElem?_eq_getElem (by omega)]
    rfl
  simp only [shuffleWith]
  have e := shuffleWith_append i js _ ((swap l (i + 1) j).drop (i + 1)) hjs
    (by rw [htl]; omega)
  rw [hsplit] at e
  rw [e, hdrop]

theorem shuffleWith_injective {α : Type} (i : Nat) (l : List α) (hn : l.Nodup)
    (hl : l.length = i + 1) (js js' : List Nat) (hjs : js ∈ choiceSeqs i)
    (hjs' : js' ∈ choiceSeqs i) (h : shuffleWith js i l = shuffleWith js' i l) : js = js' := by
  induction i generalizing l js js' with
  | zero =>
    simp only [choiceSeqs, List.mem_singleton] at hjs hjs'
    rw [hjs, hjs']
  | succ i ih =>
    obtain ⟨j, js1, rfl, hj, hjs1⟩ := (mem_choiceSeqs_succ i js).mp hjs
    obtain ⟨j', js1', rfl, hj', hjs1'⟩ := (mem_choiceSeqs_succ i js').mp hjs'
    rw [shuffleWith_cons_eq i j js1 l hl hj hjs1,
      shuffleWith_cons_eq i j' js1' l hl hj' hjs1'] at h
    have hlenT : ∀ k, ((swap l (i + 1) k).take (i + 1)).length = i + 1 := by
      intro k
      rw [List.length_take, swap_length, hl]; omega
    have hlen : (shuffleWith js1 i ((swap l (i + 1) j).take (i + 1))).length =
        (shuffleWith js1' i ((swap l (i + 1) j').take (i + 1))).length := by
      rw [(shuffleWith_perm _ _ _).length_eq, (shuffleWith_perm _ _ _).length_eq, hlenT, hlenT]
    obtain ⟨h1, h2⟩ := List.append_inj h hlen
    have hjj : j = j' := by
      apply List.getElem?_inj (by omega) hn
      rw [List.getElem?_eq_getElem (by omega), List.getElem?_eq_getElem (by omega)] at h2 ⊢
      simp only [Option.toList, List.cons.injEq, and_true] at h2
      rw [h2]
    subst hjj
    have hnT : ((swap l (i + 1) j).take (i + 1)).Nodup :=
      List.Nodup.sublist (List.take_sublist _ _) ((swap_perm l (i + 1) j).nodup_iff.mpr hn)
    rw [ih _ hnT (hlenT j) js1 js1' hjs1 hjs1' h1]

theorem shuffleWith_surjective {α : Type} (i : Nat) (l l' : List α)
    (hl : l.length = i + 1) (hp : l'.Perm l) :
    ∃ js ∈ choiceSeqs i, shuffleWith js i l = l' := by
  induction i generalizing l l' with
  | zero =>
    refine ⟨[], by simp [choiceSeqs], ?_⟩
    match l, hl with
    | [x], _ =>
      have := List.perm_singleton.mp hp
      rw [this]
      rfl
  | succ i ih =>
    have hl' : l'.length = i + 2 := by rw [hp.length_eq, hl]
    have hne : l' ≠ [] := by
      intro h
      rw [h] at hl'
      cases hl'
    have hsplit := List.dropLast_append_getLast hne
    have hy : l'.getLast hne ∈ l := hp.mem_iff.mp (List.getLast_mem hne)
    obtain ⟨j, hj⟩ := List.mem_iff_getElem?.mp hy
    have hjlt : j < i + 2 := by
      have := (List.getElem?_eq_some_iff.mp hj).1
      omega
    have hlen : (swap l (i + 1) j).length = i + 2 := by rw [swap_length, hl]
    have htl : ((swap l (i + 1) j).take (i + 1)).length = i + 1 := by
      rw [List.length_take, hlen]; omega
    have hlast : (swap l (i + 1) j)[i + 1]? = l[j]? :=
      swap_getElem? l (i + 1) j (by omega) (by omega)
    have hdrop : (swap l (i + 1) j).drop (i + 1) = [l'.getLast hne] := by
      rw [List.drop_eq_getElem_cons (by omega), List.drop_of_length_le (by omega)]
      have := hlast.trans hj
      rw [List.getElem?_eq_getElem (by omega)] at this
      simp only [Option.some.injEq] at this
      rw [this]
    have hperm : (l'.dropLast).Perm ((swap l (i + 1) j).take (i + 1)) := by
      rw [← List.perm_append_right_iff [l'.getLast hne], hsplit, ← hdrop,
        List.take_append_drop]
      exact hp.trans (swap_perm l (i + 1) j).symm
    obtain ⟨js1, hjs1, hout⟩ := ih _ _ htl hperm
    refine ⟨j :: js1, (mem_choiceSeqs_succ i _).mpr ⟨j, js1, rfl, hjlt, hjs1⟩, ?_⟩
    rw [shuffleWith_cons_eq i j js1 l hl hjlt hjs1, hout, hj]
    exact hsplit

theorem shuffleWith_bijective {α : Type} (l : List α) (hn : l.Nodup) :
    (∀ js ∈ choiceSeqs (l.length - 1), ∀ js' ∈ choiceSeqs (l.length - 1),
      shuffleWith js (l.length - 1) l = shuffleWith js' (l.length - 1) l → js = js') ∧
    (∀ l' : List α, l'.Perm l →
      ∃ js ∈ choiceSeqs (l.length - 1), shuffleWith js (l.length - 1) l = l') := by
  cases l with
  | nil =>
    constructor
    · intro js hjs js' hjs' _
      simp only [List.length_nil, choiceSeqs, List.mem_singleton] at hjs hjs'
      rw [hjs, hjs']
    · intro l' hp
      refine ⟨[], by simp [choiceSeqs], ?_⟩
      rw [List.perm_nil.mp hp]
      rfl
  | cons x xs =>
    constructor
    · intro js hjs js' hjs' h
      exact shuffleWith_injective xs.length (x :: xs) hn rfl js js' hjs hjs' h
    · intro l' hp
      exact shuffleWith_surjective xs.length (x :: xs) l' rfl hp

/-- C20: `shuffleArray` runs the loop of Fisher-Yates with the choice sequence
drawn from the random source, and every choice sequence (`j_i` in `0..i` for
`i = n - 1` down to `1`) can be drawn; on a list of `n` distinct elements the
map from choice sequences to outputs is a bijection onto the permutations of
the input: every output is a permutation, different choice sequences give
different outputs, and every permutation is the output of exactly one of the
`n!` choice sequences, so uniform independent choices give each permutation
with the same probability. -/
theorem shuffleArray_bijection {α : Type} [DecidableEq α] (l : List α) (hn : l.Nodup) :
    (∀ rnd : RandomSource,
      shuffleArray rnd l =
        shuffleWith (choicesOf rnd (l.length - 1) 0) (l.length - 1) l ∧
      choicesOf rnd (l.length - 1) 0 ∈ choiceSeqs (l.length - 1)) ∧
    (∀ js ∈ choiceSeqs (l.length - 1), ∃ rnd : RandomSource,
      choicesOf rnd (l.length - 1) 0 = js) ∧
    (∀ rnd : RandomSource, (shuffleArray rnd l).Perm l) ∧
    (∀ js ∈ choiceSeqs (l.length - 1), (shuffleWith js (l.length - 1) l).Perm l) ∧
    (∀ js ∈ choiceSeqs (l.length - 1), ∀ js' ∈ choiceSeqs (l.length - 1),
      shuffleWith js (l.length - 1) l = shuffleWith js' (l.length - 1) l → js = js') ∧
    (∀ l' : List α, l'.Perm l →
      ∃ js ∈ choiceSeqs (l.length - 1), shuffleWith js (l.length - 1) l = l') ∧
    (choiceSeqs (l.length - 1)).Nodup ∧
    (choiceSeqs (l.length - 1)).length = Nat.factorial l.length ∧
    (∀ l' : List α, l'.Perm l →
      (choiceSeqs (l.length - 1)).countP
        (fun js => shuffleWith js (l.length - 1) l = l') = 1) := by
  obtain ⟨hinj, hsurj⟩ := shuffleWith_bijective l hn
  refine ⟨fun rnd => ⟨shuffleLoop_eq_shuffleWith rnd _ 0 l, choicesOf_mem rnd _ 0⟩,
    fun js hjs => ⟨sourceOf js _, choicesOf_sourceOf _ js hjs⟩,
    fun rnd => shuffleArray_perm rnd l,
    fun js _ => shuffleWith_perm js _ l, hinj, hsurj, choiceSeqs_nodup _, ?_, ?_⟩
  · rw [choiceSeqs_length]
    cases l with
    | nil => rfl
    | cons x xs => rfl
  · intro l' hp
    obtain ⟨js0, hjs0, hout⟩ := hsurj l' hp
    rw [List.countP_eq_length_filter]
    have hfil : (choiceSeqs (l.length - 1)).filter
        (fun js => decide (shuffleWith js (l.length - 1) l = l')) = [js0] := by
      apply eq_singleton_of_nodup _ js0 ((choiceSeqs_nodup _).filter _)
      intro js
      rw [List.mem_filter]
      constructor
      · rintro ⟨hjs, h⟩
        simp only [decide_eq_true_eq] at h
        exact hinj js hjs js0 hjs0 (h.trans hout.symm)
      · intro h
        rw [h]
        exact ⟨hjs0, by simpa using hout⟩
    rw [hfil]
    rfl

/-- Witness of C20: on `[1, 2, 3]` there are `3! = 6` choice sequences, and
the permutation `[3, 1, 2]` is the output of exactly one of them. -/
theorem shuffleArray_bijection_witness :
    (choiceSeqs ([1, 2, 3].length - 1)).length = Nat.factorial [1, 2, 3].length ∧
    (choiceSeqs ([1, 2, 3].length - 1)).countP
      (fun js => shuffleWith js ([1, 2, 3].length - 1) [1, 2, 3] = [3, 1, 2]) = 1 ∧
    (shuffleArray rndZero [1, 2, 3]).Perm [1, 2, 3] :=
  have h := shuffleArray_bijection [1, 2, 3] (by decide)
  ⟨h.2.2.2.2.2.2.2.1, h.2.2.2.2.2.2.2.2 [3, 1, 2] (by decide), h.2.2.1 rndZero⟩


/-! ## The `start_game` handler -/

theorem startGame_of_canStart (rnd : RandomSource) (room : Room) (socketId : String)
    (h : canStart room socketId) :
    startGame rnd room socketId =
      ⟨{ room with
          isGameStarted := true
          players := assignRoles (generateRoles rnd room.playerCount) room.players
          gameState := initialGameState },
        [Notif.game_started { room with
          isGameStarted := true
          players := assignRoles (generateRoles rnd room.playerCount) room.players
          gameState := initialGameState }], false⟩ := by
  obtain ⟨⟨user, hf, hh⟩, h6, hr⟩ := h
  have h6' : ¬ room.players.length < 6 := by omega
  have hall : (room.players.filter (fun p => p.isReady || p.isHost)).length =
      room.players.length := by
    rw [List.filter_length_eq_length]
    intro p hp
    rcases hr p hp with h | h <;> simp [h]
  have hr' : ¬ (room.players.filter (fun p => p.isReady || p.isHost)).length <
      room.players.length := by omega
  unfold startGame
  simp only [hf, hh, Bool.not_true, Bool.false_eq_true, if_false, h6', hr']

theorem startGame_of_not_canStart (rnd : RandomSource) (room : Room) (socketId : String)
    (h : ¬ canStart room socketId) :
    ∃ message, startGame rnd room socketId =
      ⟨room, [Notif.start_game_error socketId message], false⟩ := by
  unfold startGame
  cases hf : room.players.find? (fun p => p.id.val = socketId) with
  | none => exact ⟨_, rfl⟩
  | some user =>
    dsimp only
    by_cases hh : user.isHost = true
    · simp only [hh, Bool.not_true, Bool.false_eq_true, if_false]
      by_cases h6 : room.players.length < 6
      · rw [if_pos h6]
        exact ⟨_, rfl⟩
      · rw [if_neg h6]
        by_cases hr : (room.players.filter (fun p => p.isReady || p.isHost)).length <
            room.players.length
        · rw [if_pos hr]
          exact ⟨_, rfl⟩
        · exfalso
          apply h
          refine ⟨⟨user, hf, hh⟩, by omega, ?_⟩
          have hle := List.length_filter_le (fun p : Player => p.isReady || p.isHost)
            room.players
          have heq : (room.players.filter (fun p => p.isReady || p.isHost)).length =
              room.players.length := by omega
          rw [List.filter_length_eq_length] at heq
          intro p hp
          have := heq p hp
          simpa using this
    · have hh' : user.isHost = false := by simpa using hh
      simp only [hh', Bool.not_false, if_true]
      exact ⟨_, rfl⟩

/-- C22: `start_game` succeeds exactly when the requester is the host, the
room has at least 6 players and every player is ready or is the host; a
rejected request leaves the whole room unchanged and sends one
`start_game_error`, to the requester only. -/
theorem startGame_accept_or_reject (rnd : RandomSource) (room : Room)
    (socketId : String) :
    (canStart room socketId ↔
      ∃ room', startedBy rnd room socketId room') ∧
    (canStart room socketId →
      (startGame rnd room socketId).room.isGameStarted = true) ∧
    (¬ canStart room socketId →
      (startGame rnd room socketId).room = room ∧
      (∃ message, (startGame rnd room socketId).emitted =
        [Notif.start_game_error socketId message]) ∧
      ∀ recipient, recipient ≠ socketId →
        inbox recipient (startGame rnd room socketId).emitted = []) := by
  refine ⟨⟨fun h => ⟨_, startGame_of_canStart rnd room socketId h⟩, ?_⟩, ?_, ?_⟩
  · rintro ⟨room', hst⟩
    by_contra hn
    obtain ⟨message, hm⟩ := startGame_of_not_canStart rnd room socketId hn
    unfold startedBy at hst
    rw [hm] at hst
    have := congrArg HandlerResult.emitted hst
    simp at this
  · intro h
    rw [startGame_of_canStart rnd room socketId h]
  · intro hn
    obtain ⟨message, hm⟩ := startGame_of_not_canStart rnd room socketId hn
    rw [hm]
    refine ⟨rfl, ⟨message, rfl⟩, fun recipient hne => ?_⟩
    have hne' : ¬ socketId = recipient := fun h => hne h.symm
    simp [inbox, Notif.deliveredTo, hne']

/-- Witness of C22: with the player `p4` not ready, the host's `start_game` is
rejected: the room is unchanged and only the host is told. -/
theorem startGame_accept_or_reject_witness :
    (startGame rndZero lobbyNotReady "p1").room = lobbyNotReady ∧
    (∃ message, (startGame rndZero lobbyNotReady "p1").emitted =
      [Notif.start_game_error "p1" message]) ∧
    ∀ recipient, recipient ≠ "p1" →
      inbox recipient (startGame rndZero lobbyNotReady "p1").emitted = [] :=
  (startGame_accept_or_reject rndZero lobbyNotReady "p1").2.2 (by decide)


/-! ## Entry guards, poison and check: effects of single events -/

/-- C28: a `game_action` event sent to a room whose game has not started, by a
connection that is not a room member, or by a dead player returns at the entry
guards: the whole room (its `isGameOver` included) is unchanged, nothing is
emitted (so no `game_over`: the win check is not run) and nothing is thrown. -/
theorem entry_guards_return (rnd : RandomSource) (room : Room)
    (socketId actionType targetId : String)
    (h : room.isGameStarted = false ∨
      room.players.find? (fun p => p.id.val = socketId) = none ∨
      ∃ p, room.players.find? (fun p => p.id.val = socketId) = some p ∧ p.isAlive = false) :
    (gameAction rnd room socketId actionType targetId).room = room ∧
    (gameAction rnd room socketId actionType targetId).emitted = [] ∧
    (gameAction rnd room socketId actionType targetId).threw = false := by
  rw [gameAction_guarded rnd room socketId actionType targetId h]
  exact ⟨rfl, rfl, rfl⟩

/-- Witness of C28: the dead wolf `w1` sends `wolfKill`, a stranger sends
`vote`; the room is unchanged and nothing is emitted. -/
theorem entry_guards_return_witness :
    (gameAction rndZero wonRoom "w1" "wolfKill" "vi").room = wonRoom ∧
    (gameAction rndZero wonRoom "w1" "wolfKill" "vi").emitted = [] ∧
    (gameAction rndZero wonRoom "stranger" "vote" "vi").room = wonRoom ∧
    (gameAction rndZero wonRoom "stranger" "vote" "vi").emitted = [] :=
  have h1 := entry_guards_return rndZero wonRoom "w1" "wolfKill" "vi"
    (Or.inr (Or.inr ⟨mkPlayer "w1" (by decide) Role.wolf false, by decide, rfl⟩))
  have h2 := entry_guards_return rndZero wonRoom "stranger" "vote" "vi"
    (Or.inr (Or.inl (by decide)))
  ⟨h1.1, h1.2.1, h2.1, h2.2.1⟩

/-- C25: an accepted `witchPoison` (living witch, sub-phase `witch`,
`witchPoisonUsed = false`, target a room member) sets `witchPoisonUsed` to
`true` and changes no other field of the game state (so `wolfKilled`,
`witchHealUsed` and the sub-phase `witch` stay), and marks the target dead at
once, every other player record being unchanged. -/
theorem witchPoison_effect (rnd : RandomSource) (room : Room)
    (socketId targetId : String) (witch target : Player)
    (hs : room.isGameStarted = true)
    (hf : room.players.find? (fun p => p.id.val = socketId) = some witch)
    (ha : witch.isAlive = true) (hr : witch.role = some Role.witch)
    (hc : room.gameState.currentAction = some SubPhase.witch)
    (hu : room.gameState.witchPoisonUsed = false)
    (ht : room.players.find? (fun p => p.id.val = targetId) = some target) :
    (gameAction rnd room socketId "witchPoison" targetId).room.gameState =
      { room.gameState with witchPoisonUsed := true } ∧
    (gameAction rnd room socketId "witchPoison" targetId).room.players =
      room.players.map
        (fun p => if p.id.val = targetId then { p with isAlive := false } else p) ∧
    (gameAction rnd room socketId "witchPoison" targetId).room.gameState.wolfKilled =
      room.gameState.wolfKilled ∧
    (gameAction rnd room socketId "witchPoison" targetId).room.gameState.witchHealUsed =
      room.gameState.witchHealUsed ∧
    (gameAction rnd room socketId "witchPoison" targetId).room.gameState.currentAction =
      some SubPhase.witch := by
  have h := gameAction_state_of_accepted rnd room socketId "witchPoison" targetId witch
    hs hf ha
  rw [switchAction_witchPoison, if_pos ⟨hr, hc, hu⟩, ht] at h
  refine ⟨h.1, h.2, ?_, ?_, ?_⟩
  · rw [h.1]
  · rw [h.1]
  · rw [h.1]
    exact hc

/-- Witness of C25: the witch poisons the wolf `w1`. -/
theorem witchPoison_effect_witness :
    (gameAction rndZero witchStepRoom "wi" "witchPoison" "w1").room.gameState =
      { witchStepRoom.gameState with witchPoisonUsed := true } ∧
    (gameAction rndZero witchStepRoom "wi" "witchPoison" "w1").room.players =
      witchStepRoom.players.map
        (fun p => if p.id.val = "w1" then { p with isAlive := false } else p) :=
  have h := witchPoison_effect rndZero witchStepRoom "wi" "w1"
    (mkPlayer "wi" (by decide) Role.witch true) (mkPlayer "w1" (by decide) Role.wolf true)
    rfl (by decide) rfl rfl rfl rfl (by decide)
  ⟨h.1, h.2.1⟩

/-- C27: an accepted `seerCheck` (living seer, sub-phase `seer`, target a room
member) sets `seerChecked` to the target and the sub-phase to `witch`, changes
no other field of the game state and no player record, does not throw, and
first sends the seer a `seer_check_result` whose `isWolf` flag is `true`
exactly when the target's role is wolf. -/
theorem seerCheck_effect (rnd : RandomSource) (room : Room)
    (socketId targetId : String) (seer target : Player)
    (hs : room.isGameStarted = true)
    (hf : room.players.find? (fun p => p.id.val = socketId) = some seer)
    (ha : seer.isAlive = true) (hr : seer.role = some Role.seer)
    (hc : room.gameState.currentAction = some SubPhase.seer)
    (ht : room.players.find? (fun p => p.id.val = targetId) = some target) :
    (gameAction rnd room socketId "seerCheck" targetId).room.gameState =
      { room.gameState with
        seerChecked := some targetId, currentAction := some SubPhase.witch } ∧
    (gameAction rnd room socketId "seerCheck" targetId).room.players = room.players ∧
    (gameAction rnd room socketId "seerCheck" targetId).threw = false ∧
    (∃ isWolf : Bool,
      (gameAction rnd room socketId "seerCheck" targetId).emitted.head? =
        some (Notif.seer_check_result socketId target.name isWolf) ∧
      (isWolf = true ↔ target.role = some Role.wolf)) := by
  have hsw : switchAction rnd room seer socketId "seerCheck" targetId =
      ⟨{ room with gameState := { room.gameState with
            seerChecked := some targetId, currentAction := some SubPhase.witch } },
        "预言家查验了" ++ target.name,
        [Notif.seer_check_result socketId target.name
          (decide (target.role = some Role.wolf))], false⟩ := by
    rw [switchAction_seerCheck, if_pos ⟨hr, hc⟩, ht]
  have h := gameAction_state_of_accepted rnd room socketId "seerCheck" targetId seer hs hf ha
  rw [hsw] at h
  refine ⟨h.1, h.2, ?_, decide (target.role = some Role.wolf), ?_, ?_⟩
  · rw [gameAction_accepted rnd room socketId "seerCheck" targetId seer hs hf ha, hsw]
    rfl
  · rw [seerCheck_emitted rnd room socketId targetId seer target hs hf ha hr hc ht]
    rfl
  · exact decide_eq_true_iff

/-- Witness of C27: the seer `se` checks the wolf `w1` and is told `isWolf =
true`; the sub-phase becomes `witch`. -/
theorem seerCheck_effect_witness :
    (gameAction rndZero seerStepRoom "se" "seerCheck" "w1").room.gameState =
      { seerStepRoom.gameState with
        seerChecked := some "w1", currentAction := some SubPhase.witch } ∧
    (gameAction rndZero seerStepRoom "se" "seerCheck" "w1").room.players =
      seerStepRoom.players ∧
    (gameAction rndZero seerStepRoom "se" "seerCheck" "w1").emitted.head? =
      some (Notif.seer_check_result "se" "w1" true) :=
  have h := seerCheck_effect rndZero seerStepRoom "se" "w1"
    (mkPlayer "se" (by decide) Role.seer true) (mkPlayer "w1" (by decide) Role.wolf true)
    rfl (by decide) rfl rfl rfl (by decide)
  ⟨h.1, h.2.1, by decide⟩


/-! ## The hunter, the day counter, the restart and the calls of `generateRoles` -/

theorem markDead_withRole (players : List Player) (x t : String) (role : Option Role) :
    markDead (players.map (fun p => if p.id.val = t then { p with role := role } else p)) x =
      (markDead players x).map
        (fun p => if p.id.val = t then { p with role := role } else p) := by
  unfold markDead
  rw [List.map_map, List.map_map]
  apply List.map_congr_left
  intro p _
  simp only [Function.comp]
  have hf : (if p.id.val = t then { p with role := role } else p).id = p.id := by
    split_ifs <;> rfl
  have hg : (if p.id.val = x then { p with isAlive := false } else p).id = p.id := by
    split_ifs <;> rfl
  rw [hf, hg]
  by_cases h1 : p.id.val = t
  · by_cases h2 : p.id.val = x
    · simp only [if_pos h1, if_pos h2]
    · simp only [if_pos h1, if_neg h2]
  · by_cases h2 : p.id.val = x
    · simp only [if_neg h1, if_pos h2]
    · simp only [if_neg h1, if_neg h2]

theorem endNight_withTargetRole (room : Room) (t : String) (role : Option Role) :
    endNight (withTargetRole room t role) = withTargetRole (endNight room) t role := by
  unfold endNight withTargetRole
  simp only [killTarget_eq_markDead, markDead_withRole]
  cases room.gameState.wolfKilled <;> dsimp only <;> first | rfl | (split_ifs <;> rfl)

theorem processVotes_withTargetRole (rnd : RandomSource) (room : Room) (t : String)
    (role : Option Role) :
    processVotes rnd (withTargetRole room t role) =
      withTargetRole (processVotes rnd room) t role := by
  unfold processVotes withTargetRole
  simp only [killTarget_eq_markDead, markDead_withRole]
  cases (voteCandidates rnd room.gameState.votes)[0]? with
  | none => rfl
  | some v =>
    dsimp only
    split_ifs <;> rfl

theorem witchPoison_withTargetRole (rnd : RandomSource) (room : Room) (witch : Player)
    (socketId targetId t : String) (role : Option Role) :
    (switchAction rnd (withTargetRole room t role) witch socketId "witchPoison" targetId).room =
      withTargetRole (switchAction rnd room witch socketId "witchPoison" targetId).room
        t role := by
  rw [switchAction_witchPoison, switchAction_witchPoison]
  by_cases hc : witch.role = some Role.witch ∧
      room.gameState.currentAction = some SubPhase.witch ∧
      room.gameState.witchPoisonUsed = false
  · have hc' : witch.role = some Role.witch ∧
        (withTargetRole room t role).gameState.currentAction = some SubPhase.witch ∧
        (withTargetRole room t role).gameState.witchPoisonUsed = false := hc
    rw [if_pos hc, if_pos hc']
    have hf : (withTargetRole room t role).players.find? (fun p => p.id.val = targetId) =
        (room.players.find? (fun p => p.id.val = targetId)).map
          (fun p => if p.id.val = t then { p with role := role } else p) := by
      simp only [withTargetRole]
      exact find?_withTargetRole room.players t targetId role
    rw [hf]
    cases room.players.find? (fun p => p.id.val = targetId) with
    | none => rfl
    | some target =>
      simp only [Option.map_some']
      unfold withTargetRole
      simp only [markDead_withRole]
  · have hc' : ¬ (witch.role = some Role.witch ∧
        (withTargetRole room t role).gameState.currentAction = some SubPhase.witch ∧
        (withTargetRole room t role).gameState.witchPoisonUsed = false) := hc
    rw [if_neg hc, if_neg hc']

/-- C23 (as amended): nothing is recorded for a hunter's shot and no shot is
ever taken. Night resolution, vote resolution and the witch's poison resolve
a kill in the same way whatever role the player named `victim` holds (the
room afterwards is the same, up to that role), and a `hunterShoot` event,
from any room and any sender, changes neither the game state nor any player
record, does not throw and sends no `game_message`. -/
theorem hunterShoot_ignored (rnd : RandomSource) (room : Room)
    (socketId targetId victim : String) (role : Option Role) (witch : Player) :
    ((gameAction rnd room socketId "hunterShoot" targetId).room.gameState = room.gameState ∧
      (gameAction rnd room socketId "hunterShoot" targetId).room.players = room.players ∧
      (gameAction rnd room socketId "hunterShoot" targetId).threw = false ∧
      ∀ m, Notif.game_message m ∉
        (gameAction rnd room socketId "hunterShoot" targetId).emitted) ∧
    endNight (withTargetRole room victim role) =
      withTargetRole (endNight room) victim role ∧
    processVotes rnd (withTargetRole room victim role) =
      withTargetRole (processVotes rnd room) victim role ∧
    (switchAction rnd (withTargetRole room victim role) witch socketId "witchPoison"
        targetId).room =
      withTargetRole (switchAction rnd room witch socketId "witchPoison" targetId).room
        victim role :=
  ⟨gameAction_of_switch_noop rnd room socketId "hunterShoot" targetId
    (fun p _ => switchAction_other rnd room p socketId "hunterShoot" targetId
      (by decide) (by decide) (by decide) (by decide) (by decide) (by decide)),
    endNight_withTargetRole room victim role,
    processVotes_withTargetRole rnd room victim role,
    witchPoison_withTargetRole rnd room witch socketId targetId victim role⟩

/-- Counterexample to C23 as stated: the witch's poison kills the living hunter
`hu`; the game state afterwards differs from the one before only in
`witchPoisonUsed`, and the `hunterShoot` of `hu` that names the living wolf
`w1` leaves the room as it is: `w1` stays alive. -/
theorem hunter_shot_not_taken :
    isLiving witchStepRoom.players "hu" ∧
    (gameAction rndZero witchStepRoom "wi" "witchPoison" "hu").room.gameState =
      { witchStepRoom.gameState with witchPoisonUsed := true } ∧
    ¬ isLiving (gameAction rndZero witchStepRoom "wi" "witchPoison" "hu").room.players "hu" ∧
    isLiving (gameAction rndZero witchStepRoom "wi" "witchPoison" "hu").room.players "w1" ∧
    (gameAction rndZero (gameAction rndZero witchStepRoom "wi" "witchPoison" "hu").room
        "hu" "hunterShoot" "w1").room =
      (gameAction rndZero witchStepRoom "wi" "witchPoison" "hu").room ∧
    isLiving
      (gameAction rndZero (gameAction rndZero witchStepRoom "wi" "witchPoison" "hu").room
        "hu" "hunterShoot" "w1").room.players "w1" := by
  decide

theorem switchAction_dayCount (rnd : RandomSource) (room : Room) (currentPlayer : Player)
    (socketId actionType targetId : String) :
    (switchAction rnd room currentPlayer socketId actionType targetId).room.gameState.dayCount
        = room.gameState.dayCount ∨
      ((switchAction rnd room currentPlayer socketId actionType
          targetId).room.gameState.dayCount = room.gameState.dayCount + 1 ∧
        actionType = "vote" ∧ room.gameState.phase = Phase.vote) := by
  refine actionType_cases
    (fun a =>
      (switchAction rnd room currentPlayer socketId a targetId).room.gameState.dayCount
        = room.gameState.dayCount ∨
      ((switchAction rnd room currentPlayer socketId a targetId).room.gameState.dayCount
          = room.gameState.dayCount + 1 ∧
        a = "vote" ∧ room.gameState.phase = Phase.vote)) actionType ?_ ?_ ?_ ?_ ?_ ?_ ?_
  all_goals beta_reduce
  · rw [switchAction_wolfKill]
    split_ifs <;> exact Or.inl rfl
  · rw [switchAction_seerCheck]
    split_ifs
    · split <;> exact Or.inl rfl
    · exact Or.inl rfl
  · rw [switchAction_witchHeal]
    split_ifs <;> exact Or.inl rfl
  · rw [switchAction_witchPoison]
    split_ifs
    · split <;> exact Or.inl rfl
    · exact Or.inl rfl
  · rw [switchAction_guardProtect]
    split_ifs <;> exact Or.inl rfl
  · rw [switchAction_vote]
    by_cases hv : room.gameState.phase = Phase.vote
    · rw [if_pos hv]
      by_cases hc : (JsObj.keys (room.gameState.votes.set currentPlayer.id.val targetId)).length =
          (room.players.filter (fun p => p.isAlive)).length
      · rw [if_pos hc]
        exact Or.inr ⟨by simp only [processVotes], rfl, hv⟩
      · rw [if_neg hc]
        exact Or.inl rfl
    · rw [if_neg hv]
      exact Or.inl rfl
  · intro h1 h2 h3 h4 h5 h6
    rw [switchAction_other _ _ _ _ _ _ h1 h2 h3 h4 h5 h6]
    exact Or.inl rfl

/-- C24 (as amended): `dayCount` is 1 when a game starts; night resolution
(`endNight`, the night to day transition) leaves it unchanged; vote resolution
(`processVotes`, the vote to night transition) increases it by 1; and a
`game_action` event changes `dayCount` only by such a vote resolution. -/
theorem dayCount_counts_votes (rnd : RandomSource) (lobby : Room) (socketId : String)
    (room : Room) :
    (startedBy rnd lobby socketId room → room.gameState.dayCount = 1) ∧
    (endNight room).gameState.dayCount = room.gameState.dayCount ∧
    (endNight room).gameState.phase = Phase.day ∧
    (processVotes rnd room).gameState.dayCount = room.gameState.dayCount + 1 ∧
    (∀ e : Event,
      (step room e).gameState.dayCount = room.gameState.dayCount ∨
      ((step room e).gameState.dayCount = room.gameState.dayCount + 1 ∧
        e.actionType = "vote" ∧ room.gameState.phase = Phase.vote)) := by
  refine ⟨fun h => ?_, rfl, rfl, rfl, fun e => ?_⟩
  · rw [(startedBy_gameState rnd lobby socketId room h).1]
    rfl
  · rcases step_cases room e with h | ⟨p, _, _, _, _, hgs⟩
    · rw [h]
      exact Or.inl rfl
    · rw [hgs]
      exact switchAction_dayCount _ _ _ _ _ _

/-- Witness of C24 (as amended): the game started on `lobbySix` has `dayCount`
1, and the vote resolution of `threeVotesRoom` takes `dayCount` from 1 to 2. -/
theorem dayCount_counts_votes_witness :
    startedSix.gameState.dayCount = 1 ∧
    (processVotes rndHigh threeVotesRoom).gameState.dayCount = 2 :=
  ⟨(dayCount_counts_votes rndHigh lobbySix "p1" startedSix).1 startedSix_startedBy,
    (dayCount_counts_votes rndHigh lobbySix "p1" threeVotesRoom).2.2.2.1⟩

/-- Counterexample to C24 as stated: the accepted `guardProtect` of the guard
`gu` resolves the night of `guardStepRoom` (the phase becomes `day`), and
`dayCount` is 1 before and after: it is not increased. -/
theorem endNight_keeps_dayCount :
    guardStepRoom.gameState.dayCount = 1 ∧
    (gameAction rndZero guardStepRoom "gu" "guardProtect" "hu").room.gameState.phase =
      Phase.day ∧
    (gameAction rndZero guardStepRoom "gu" "guardProtect" "hu").room.gameState.dayCount = 1 ∧
    (endNight guardStepRoom).gameState.dayCount ≠ guardStepRoom.gameState.dayCount + 1 := by
  decide

/-- C26, on the code: `start_game` by the host of a room whose previous game is
over succeeds, resets the game state to its initial value and makes every
player alive, but leaves `isGameOver` at `true`. -/
theorem restart_keeps_isGameOver :
    finishedRoom.isGameOver = true ∧
    startedBy rndHigh finishedRoom "p1" (startGame rndHigh finishedRoom "p1").room ∧
    (startGame rndHigh finishedRoom "p1").room.gameState = initialGameState ∧
    (∀ p ∈ (startGame rndHigh finishedRoom "p1").room.players, p.isAlive = true) ∧
    (startGame rndHigh finishedRoom "p1").room.isGameOver = true := by
  decide


/-! ## The two calls of `generateRoles` -/

theorem ceil_sub_mul (m c : Int) (P : Int) (hP : 0 < P) :
    -((-(m - c * P)) / P) = -((-m) / P) - c := by
  have e : -(m - c * P) = -m + c * P := by ring
  rw [e, Int.add_mul_ediv_right _ _ (ne_of_gt hP)]
  ring

theorem le_ceil_of_mul_le (m c : Int) (P : Int) (hP : 0 < P) (h : c * P ≤ m) :
    c ≤ -((-m) / P) := by
  have h1 : -m ≤ (-c) * P := by
    have : (-c) * P = -(c * P) := by ring
    omega
  have h2 : (-m) / P ≤ ((-c) * P) / P := Int.ediv_le_ediv hP h1
  rw [Int.mul_ediv_cancel _ (ne_of_gt hP)] at h2
  omega

theorem two_pow_pos_int (k : Nat) : (0 : Int) < Int.ofNat (2 ^ k) :=
  Int.ofNat_lt.mpr (Nat.pow_pos (by decide))

theorem JsNum.loopCount_sub (m : Int) (k : Nat) (c : Int) :
    (JsNum.finite m k - c).loopCount = (-((-m) / Int.ofNat (2 ^ k)) - c).toNat := by
  show (-((-(m - c * Int.ofNat (2 ^ k))) / Int.ofNat (2 ^ k))).toNat = _
  rw [ceil_sub_mul _ _ _ (two_pow_pos_int k)]

theorem JsNum.finite_sub (m : Int) (k : Nat) (c : Int) :
    JsNum.finite m k - c = JsNum.finite (m - c * Int.ofNat (2 ^ k)) k := rfl

theorem JsNum.nine_le_finite (m : Int) (k : Nat) :
    (JsNum.finite m k ≥ 9) ↔ 9 * Int.ofNat (2 ^ k) ≤ m := by
  change JsNum.finite 9 0 ≤ JsNum.finite m k ↔ _
  rw [JsNum.finite_le_iff]
  simp

theorem JsNum.twelve_le_finite (m : Int) (k : Nat) :
    (JsNum.finite m k ≥ 12) ↔ 12 * Int.ofNat (2 ^ k) ≤ m := by
  change JsNum.finite 12 0 ≤ JsNum.finite m k ↔ _
  rw [JsNum.finite_le_iff]
  simp

theorem rolesBeforeShuffle_length (x : JsNum) :
    (rolesBeforeShuffle x).length = max 5 x.loopCount := by
  cases x with
  | nan => decide
  | negInf => decide
  | finite m k =>
    have hP := two_pow_pos_int k
    by_cases h9 : JsNum.finite m k ≥ 9
    · have h9' := (JsNum.nine_le_finite m k).mp h9
      by_cases h12 : JsNum.finite m k ≥ 12
      · have h12' := (JsNum.twelve_le_finite m k).mp h12
        have hc := le_ceil_of_mul_le m 12 _ hP h12'
        simp only [rolesBeforeShuffle, h9, h12, if_true, JsNum.finite_sub]
        simp only [List.length_append, List.length_replicate, JsNum.loopCount,
          ceil_sub_mul _ _ _ hP]
        have e : ∀ a : Int, 12 ≤ a →
            (4 : Int).toNat + (1 : Int).toNat + (1 : Int).toNat + (1 : Int).toNat
              + (1 : Int).toNat + (a - 4 - 1 - 1 - 1 - 1).toNat = max 5 a.toNat := by
          intro a ha
          have h4 : (4 : Int).toNat = 4 := rfl
          have h1 : (1 : Int).toNat = 1 := rfl
          rw [h4, h1]
          omega
        exact e _ hc
      · have hc := le_ceil_of_mul_le m 9 _ hP h9'
        simp only [rolesBeforeShuffle, h9, h12, if_true, if_false, JsNum.finite_sub]
        simp only [List.length_append, List.length_replicate, JsNum.loopCount,
          ceil_sub_mul _ _ _ hP]
        have e : ∀ a : Int, 9 ≤ a →
            (3 : Int).toNat + (1 : Int).toNat + (1 : Int).toNat + (1 : Int).toNat
              + (1 : Int).toNat + (a - 3 - 1 - 1 - 1 - 1).toNat = max 5 a.toNat := by
          intro a ha
          have h3 : (3 : Int).toNat = 3 := rfl
          have h1 : (1 : Int).toNat = 1 := rfl
          rw [h3, h1]
          omega
        exact e _ hc
    · have h12 : ¬ JsNum.finite m k ≥ 12 := by
        rw [JsNum.twelve_le_finite]
        rw [JsNum.nine_le_finite] at h9
        omega
      simp only [rolesBeforeShuffle, h9, h12, if_false, JsNum.finite_sub]
      simp only [List.length_append, List.length_replicate, JsNum.loopCount,
        ceil_sub_mul _ _ _ hP]
      have e : ∀ a : Int,
          (2 : Int).toNat + (1 : Int).toNat + (1 : Int).toNat + (1 : Int).toNat
            + (0 : Int).toNat + (a - 2 - 1 - 1 - 1 - 0).toNat = max 5 a.toNat := by
        intro a
        have h2 : (2 : Int).toNat = 2 := rfl
        have h1 : (1 : Int).toNat = 1 := rfl
        have h0 : (0 : Int).toNat = 0 := rfl
        rw [h2, h1, h0]
        omega
      exact e _

/-- For every `playerCount` the list of `generateRoles` has five elements, or
as many as the least natural number that is not below `playerCount` if that
is more. -/
theorem generateRoles_length (rnd : RandomSource) (x : JsNum) :
    (generateRoles rnd x).length = max 5 x.loopCount := by
  have hp := shuffleArray_perm rnd (rolesBeforeShuffle x)
  have hl : (generateRoles rnd x).length = (rolesBeforeShuffle x).length := hp.length_eq
  rw [hl, rolesBeforeShuffle_length]

/-- The villager count of `generateRoles` is negative exactly for a
`playerCount` below 5. -/
theorem villagerCount_neg_iff (x : JsNum) : villagerCount x < 0 ↔ x < 5 := by
  cases x with
  | nan => decide
  | negInf => decide
  | finite m k =>
    have hP := two_pow_pos_int k
    have h5 : (JsNum.finite m k < 5) ↔ m < 5 * Int.ofNat (2 ^ k) := by
      change JsNum.finite m k < JsNum.finite 5 0 ↔ _
      rw [JsNum.finite_lt_iff]
      simp
    have hneg : ∀ a : Int, (JsNum.finite a k < 0) ↔ a < 0 := by
      intro a
      change JsNum.finite a k < JsNum.finite 0 0 ↔ _
      rw [JsNum.finite_lt_iff]
      simp
    rw [h5]
    by_cases h9 : JsNum.finite m k ≥ 9
    · have h9' := (JsNum.nine_le_finite m k).mp h9
      by_cases h12 : JsNum.finite m k ≥ 12
      · have h12' := (JsNum.twelve_le_finite m k).mp h12
        simp only [villagerCount, h9, h12, if_true, JsNum.finite_sub, hneg]
        constructor <;> intro h <;> omega
      · simp only [villagerCount, h9, h12, if_true, if_false, JsNum.finite_sub, hneg]
        constructor <;> intro h <;> omega
    · have h12 : ¬ JsNum.finite m k ≥ 12 := by
        rw [JsNum.twelve_le_finite]
        rw [JsNum.nine_le_finite] at h9
        omega
      simp only [villagerCount, h9, h12, if_false, JsNum.finite_sub, hneg]
      constructor <;> intro h <;> omega

theorem canStart_of_startedBy (rnd : RandomSource) (lobby : Room) (socketId : String)
    (room : Room) (h : startedBy rnd lobby socketId room) : canStart lobby socketId := by
  by_contra hn
  obtain ⟨message, hm⟩ := startGame_of_not_canStart rnd lobby socketId hn
  unfold startedBy at h
  rw [hm] at h
  have he := congrArg HandlerResult.emitted h
  simp at he

theorem joinRoom_withinCapacity (room : Room) (userInfo : Player) (passwordOk : Bool)
    (username : String) (h : withinCapacity room) :
    withinCapacity (joinRoom room userInfo passwordOk username) := by
  unfold joinRoom
  by_cases hp : passwordOk = true
  · simp only [hp, Bool.not_true, Bool.false_eq_true, if_false]
    by_cases hfull : (room.players.length : JsNum) ≥ room.playerCount
    · rw [if_pos hfull]
      exact h
    · rw [if_neg hfull]
      by_cases hs : room.isGameStarted = true
      · rw [if_pos hs]
        exact h
      · rw [if_neg hs]
        unfold withinCapacity
        right
        simp only [List.length_append, List.length_map, List.length_cons, List.length_nil]
        exact hfull
  · have hp' : passwordOk = false := by simpa using hp
    simp only [hp', Bool.not_false, if_true]
    exact h

/-- In a room within its capacity that holds six players or more,
`playerCount` is not a number or is a number above 5. -/
theorem playerCount_of_six (room : Room) (h : withinCapacity room)
    (h6 : 6 ≤ room.players.length) :
    room.playerCount = JsNum.nan ∨ 5 < room.playerCount := by
  rcases h with h | h
  · omega
  · cases hx : room.playerCount with
    | nan => exact Or.inl rfl
    | negInf =>
      rw [hx] at h
      exact absurd rfl h
    | finite m k =>
      right
      rw [hx] at h
      change ¬ (JsNum.finite m k ≤ JsNum.finite (Int.ofNat (room.players.length - 1)) 0) at h
      rw [JsNum.finite_le_iff] at h
      change JsNum.finite 5 0 < JsNum.finite m k
      rw [JsNum.finite_lt_iff]
      have hP := two_pow_pos_int k
      have h5 : (5 : Int) ≤ Int.ofNat (room.players.length - 1) := by
        have : 5 ≤ room.players.length - 1 := by omega
        exact Int.ofNat_le.mpr this
      have hmul : 5 * Int.ofNat (2 ^ k) ≤
          Int.ofNat (room.players.length - 1) * Int.ofNat (2 ^ k) :=
        Int.mul_le_mul_of_nonneg_right h5 (le_of_lt hP)
      simp only [pow_zero, Int.ofNat_eq_coe, Nat.cast_one, mul_one] at h ⊢
      simp only [Int.ofNat_eq_coe] at hmul
      omega

/-- C21 (as amended): `generateRoles` is called in `create_room` and in
`start_game`, and neither call is made only with `playerCount ≥ 6`. For every
`playerCount` on which it returns, the list has length `max 5 ⌈playerCount⌉`
(5 when `playerCount` is not a number) and the villager count is negative
exactly when `playerCount < 5`. The call in a `start_game` that succeeds, on a
room whose roster is within its capacity, is made with a `playerCount` that
is a number above 5 or not a number: its villager count is not negative, and
when `playerCount` is an integer `n` (in any of its representations
`n * 2 ^ k / 2 ^ k`) it is at least 6 and the list has length `n`. The call in `create_room` is made with the client's
`playerCount` (6 when that is falsy) without any check; `create_room` stores
a room unless `playerCount` converts to `+Infinity`. The room of
`create_room` is within its capacity and `join_room` keeps a room so. -/
theorem generateRoles_call_sites (rnd : RandomSource) (userInfo joiner : Player)
    (playerCount : CountField) (passwordOk : Bool) (username : String)
    (lobby : Room) (socketId : String) (room : Room)
    (hcap : withinCapacity lobby) (hstart : startedBy rnd lobby socketId room) :
    (room.players = assignRoles (generateRoles rnd lobby.playerCount) lobby.players ∧
      (lobby.playerCount = JsNum.nan ∨ 5 < lobby.playerCount) ∧
      ¬ (villagerCount lobby.playerCount < 0) ∧
      (generateRoles rnd lobby.playerCount).length = max 5 lobby.playerCount.loopCount ∧
      (∀ (m : Int) (k : Nat) (n : Int), lobby.playerCount = JsNum.finite m k →
        m = n * Int.ofNat (2 ^ k) →
        6 ≤ n ∧ ((generateRoles rnd lobby.playerCount).length : Int) = n)) ∧
    (∀ created, createRoom rnd userInfo playerCount = some created →
      orSix playerCount = some created.playerCount ∧
      created.roles = generateRoles (fun k => rnd (k + 1)) created.playerCount ∧
      created.roles.length = max 5 created.playerCount.loopCount ∧
      (villagerCount created.playerCount < 0 ↔ created.playerCount < 5) ∧
      withinCapacity created) ∧
    (createRoom rnd userInfo playerCount = none ↔ playerCount = CountField.infinite) ∧
    withinCapacity (joinRoom lobby joiner passwordOk username) := by
  have hcan := canStart_of_startedBy rnd lobby socketId room hstart
  have hpc := playerCount_of_six lobby hcap hcan.2.1
  have hnn : ¬ (villagerCount lobby.playerCount < 0) := by
    rw [villagerCount_neg_iff]
    rcases hpc with h | h
    · rw [h]
      decide
    · cases hx : lobby.playerCount with
      | nan => decide
      | negInf =>
        rw [hx] at h
        exact absurd h (by decide)
      | finite m k =>
        rw [hx] at h
        change JsNum.finite 5 0 < JsNum.finite m k at h
        rw [JsNum.finite_lt_iff] at h
        change ¬ (JsNum.finite m k < JsNum.finite 5 0)
        rw [JsNum.finite_lt_iff]
        simp only [pow_zero, Int.ofNat_eq_coe, Nat.cast_one, mul_one] at h ⊢
        omega
  refine ⟨⟨?_, hpc, hnn, generateRoles_length rnd _, ?_⟩, ?_, ?_,
    joinRoom_withinCapacity lobby joiner passwordOk username hcap⟩
  · have hs := startGame_of_canStart rnd lobby socketId hcan
    unfold startedBy at hstart
    rw [hs] at hstart
    have hr : _ = room := congrArg HandlerResult.room hstart
    rw [← hr]
  · intro m k n hx hm
    have hP := two_pow_pos_int k
    have h5 : 5 < n := by
      rcases hpc with h | h
      · rw [hx] at h
        cases h
      · rw [hx] at h
        change JsNum.finite 5 0 < JsNum.finite m k at h
        rw [JsNum.finite_lt_iff, hm] at h
        simp only [pow_zero, Int.ofNat_eq_coe, Nat.cast_one, mul_one] at h
        simp only [Int.ofNat_eq_coe] at hP
        exact lt_of_mul_lt_mul_right h (le_of_lt hP)
    refine ⟨by omega, ?_⟩
    rw [generateRoles_length, hx]
    have hl : (JsNum.finite m k).loopCount = n.toNat := by
      show (-((-m) / Int.ofNat (2 ^ k))).toNat = _
      have e : -m = (-n) * Int.ofNat (2 ^ k) := by rw [hm]; ring
      rw [e, Int.mul_ediv_cancel _ (ne_of_gt hP)]
      simp
    rw [hl]
    omega
  · intro created hc
    unfold createRoom at hc
    cases ho : orSix playerCount with
    | none =>
      rw [ho] at hc
      cases hc
    | some count =>
      rw [ho] at hc
      simp only [Option.some.injEq] at hc
      subst hc
      exact ⟨rfl, rfl, generateRoles_length _ _, villagerCount_neg_iff _, Or.inl (by simp)⟩
  · unfold createRoom
    cases playerCount <;> simp [orSix]

/-- Witness of C21 (as amended): `start_game` by the host `p1` of `lobbySix`
succeeds, with `playerCount = 6`: the list has six roles. -/
theorem generateRoles_call_sites_witness :
    withinCapacity lobbySix ∧ startedBy rndHigh lobbySix "p1" startedSix ∧
    ¬ (villagerCount lobbySix.playerCount < 0) ∧
    (6 : Int) ≤ 6 ∧ ((generateRoles rndHigh lobbySix.playerCount).length : Int) = 6 :=
  have h := generateRoles_call_sites rndHigh (mkGuest "p1" (by decide) false)
      (mkGuest "p7" (by decide) false) (CountField.truthy 6) true "" lobbySix "p1" startedSix
      (by decide) startedSix_startedBy
  ⟨by decide, startedSix_startedBy, h.1.2.2.1, (h.1.2.2.2.2 6 0 6 rfl (by decide)).1,
    (h.1.2.2.2.2 6 0 6 rfl (by decide)).2⟩

/-- Counterexample to C21 as stated: `create_room` with `playerCount: 3` calls
`generateRoles` with 3: the villager count it computes is -2 and the list it
returns has length 5, not 3. And `create_room` with `playerCount: 5.5`
followed by five `join_room` leaves the room `lobbyHalf` of six players;
`start_game` then succeeds and calls `generateRoles` with 5.5, which is below
6, and the list it returns has length 6. -/
theorem createRoom_three_seats :
    ((createRoom rndHigh (mkGuest "p1" (by decide) false) (CountField.truthy 3)).map
        (fun room => (room.playerCount, room.roles.length)) = some (3, 5) ∧
      villagerCount 3 = JsNum.finite (-2) 0 ∧
      (generateRoles (fun k => rndHigh (k + 1)) 3).length = 5) ∧
    (joinedHalf rndHigh = some lobbyHalf ∧
      lobbyHalf.players.length = 6 ∧
      withinCapacity lobbyHalf ∧
      startedBy rndHigh lobbyHalf "p1" (startGame rndHigh lobbyHalf "p1").room ∧
      lobbyHalf.playerCount < 6 ∧ ¬ (lobbyHalf.playerCount ≥ 6) ∧
      (generateRoles rndHigh lobbyHalf.playerCount).length = 6) := by
  decide

end Werewolf
